import Mathlib

/-!
# Recruitment backend: the auth-service token lifecycle and the job service

A shallow embedding of `services/auth-service` (application service and the two
GORM repositories), of `services/job-service` (application service, its three GORM
repositories and the response mapping of the job controller) and of
`shared/utils/validation.go`.

* Go strings are Lean strings; `len` is the UTF-8 byte length.
* Go `error` values are their messages; a fallible call returns `Except String`.
* The relational store, the wall clock, the random source and the trace of
  repository calls are fields of `World`; every operation passes the world explicitly.
* `bcrypt` and the HS256 JSON Web Token codec are external libraries: they are the
  fields of `Libs`, and the theorems quantify over them.
* The job service has its own database: its tables, clock, random source and trace are
  the fields of `JobWorld`. A nil pointer is `none`, and a run-time panic is an error.
-/

namespace Recruitment

/-! ## Go primitives -/

/-- An instant, in nanoseconds since the Unix epoch (`time.Time`). -/
abbrev Time := Int

/-- A `time.Duration`, in nanoseconds. -/
abbrev Duration := Int

/-- The constant `time.Second`. -/
def Second : Duration := 1000000000

/-- The constant `time.Hour`. -/
def Hour : Duration := 3600 * Second

/-- The method `Time.Add`. -/
def Time.Add (t : Time) (d : Duration) : Time := t + d

/-- The method `Time.Unix`: whole seconds since the epoch. -/
def Time.Unix (t : Time) : Int := t / Second

/-- The method `Time.Before`. -/
def Time.Before (t u : Time) : Bool := decide (t < u)

deriving instance DecidableEq for Except

/-- A `uuid.UUID`, as the natural number its 16 bytes spell (big-endian). -/
structure UUID where
  val : Nat
  deriving DecidableEq, Repr

/-- The `i`-th of the 32 hexadecimal digits of a UUID. -/
def UUID.hex (u : UUID) (i : Nat) : Char :=
  Nat.digitChar ((u.val / 16 ^ (31 - i)) % 16)

/-- The method `UUID.String`: the canonical 8-4-4-4-12 form. -/
def UUID.String (u : UUID) : String :=
  String.mk ((List.range' 0 8).map u.hex ++ '-' :: (List.range' 8 4).map u.hex
    ++ '-' :: (List.range' 12 4).map u.hex ++ '-' :: (List.range' 16 4).map u.hex
    ++ '-' :: (List.range' 20 12).map u.hex)

/-! ## shared/utils/validation.go -/

/-- The class `[a-zA-Z0-9._%+-]`. -/
def isLocalChar (c : Char) : Bool :=
  c.isAlphanum || c == '.' || c == '_' || c == '%' || c == '+' || c == '-'

/-- The class `[a-zA-Z0-9.-]`. -/
def isDomainChar (c : Char) : Bool :=
  c.isAlphanum || c == '.' || c == '-'

/-- The function `IsValidEmail`: a match of
`^[a-zA-Z0-9._%+-]+@[a-zA-Z0-9.-]+\.[a-zA-Z]{2,}$`.
Since `@` lies outside the first class, the local part is the longest prefix of the
first class and `@` follows it; since `.` is not a letter, the last group is the
longest suffix of letters and `.` precedes it; what lies between is the domain. -/
def IsValidEmail (email : String) : Bool :=
  let cs := email.toList
  match cs.dropWhile isLocalChar with
  | '@' :: rest =>
    match rest.reverse.dropWhile Char.isAlpha with
    | '.' :: dom =>
      decide (1 ≤ (cs.takeWhile isLocalChar).length) && decide (1 ≤ dom.length)
        && dom.all isDomainChar
        && decide (2 ≤ (rest.reverse.takeWhile Char.isAlpha).length)
    | _ => false
  | _ => false

/-- The function `IsValidPassword`: `len(password) >= 6`, a count of bytes. -/
def IsValidPassword (password : String) : Bool :=
  decide (password.utf8ByteSize ≥ 6)

/-- The function `IsValidRole`: the loop over `validRoles`. -/
def IsValidRole (role : String) : Bool :=
  ["admin", "candidate"].any (fun validRole => role == validRole)

/-! ## auth-service/internal/domain -/

/-- The struct `domain.User`. -/
structure User where
  ID : UUID
  Email : String
  PasswordHash : String
  Role : String
  Name : String
  CreatedAt : Time
  UpdatedAt : Time
  deriving DecidableEq, Repr

/-- The struct `domain.LoginRequest`. -/
structure LoginRequest where
  Email : String
  Password : String
  deriving DecidableEq, Repr

/-- The struct `domain.RegisterRequest`. -/
structure RegisterRequest where
  Email : String
  Password : String
  Name : String
  Role : String
  deriving DecidableEq, Repr

/-- The struct `domain.UserInfo`. -/
structure UserInfo where
  ID : UUID
  Email : String
  Name : String
  Role : String
  deriving DecidableEq, Repr

/-- The struct `domain.LoginResponse`. -/
structure LoginResponse where
  Token : String
  RefreshToken : String
  User : UserInfo
  ExpiresAt : Time
  deriving DecidableEq, Repr

/-- The struct `domain.RefreshTokenRequest`. -/
structure RefreshTokenRequest where
  RefreshToken : String
  deriving DecidableEq, Repr

/-- The struct `domain.ChangePasswordRequest`. -/
structure ChangePasswordRequest where
  CurrentPassword : String
  NewPassword : String
  deriving DecidableEq, Repr

/-- The struct `infrastructure.RefreshToken`, a row of table `refresh_tokens`. -/
structure RefreshToken where
  ID : UUID
  UserID : UUID
  Token : String
  ExpiresAt : Int
  CreatedAt : Time
  deriving DecidableEq, Repr

/-! ## The world: store, clock, random source, call trace -/

/-- A call of a repository method, as recorded in the trace. -/
inductive RepoCall where
  | UserCreate (user : User)
  | UserGetByID (id : UUID)
  | UserGetByEmail (email : String)
  | UserUpdate (user : User)
  | UserExistsByEmail (email : String)
  | UserDelete (id : UUID)
  | TokenStore (userID : UUID) (token : String) (expiresAt : Int)
  | TokenGet (token : String)
  | TokenDelete (token : String)
  | TokenDeleteByUserID (userID : UUID)
  | TokenCleanupExpired
  deriving DecidableEq, Repr

/-- The state every operation threads through.
`faults n` is the storage-layer failure (connection loss and the like) that hits the
`n`-th repository call, `clock n` the `n`-th reading of `time.Now()`, `rand n` the
`n`-th draw from the random source. -/
structure World where
  users : List User
  refreshTokens : List RefreshToken
  calls : List RepoCall
  faults : Nat → Option String
  clock : Nat → Time
  ticks : Nat
  rand : Nat → Nat
  draws : Nat

/-- The function `time.Now`. -/
def timeNow (w : World) : Time × World :=
  (w.clock w.ticks, { w with ticks := w.ticks + 1 })

/-- One draw from the random source. -/
def randRead (w : World) : Nat × World :=
  (w.rand w.draws, { w with draws := w.draws + 1 })

/-- The function `uuid.New`. -/
def uuidNew (w : World) : UUID × World :=
  ((⟨(randRead w).1⟩ : UUID), (randRead w).2)

/-- The error `gorm.ErrRecordNotFound`. -/
def ErrRecordNotFound : String := "record not found"

/-- The error of an insert or update that breaks a primary key or a unique index. -/
def ErrDuplicatedKey : String := "duplicate key value violates unique constraint"

/-- One statement sent to the database: it is recorded in the trace and receives the
storage fault scheduled for it, if any. -/
def dbExec (c : RepoCall) (w : World) : Option String × World :=
  (w.faults w.calls.length, { w with calls := w.calls ++ [c] })

/-- One step of the scan for the row with the least primary key. -/
def leastKey {α : Type} (key : α → UUID) (best : Option α) (r : α) : Option α :=
  match best with
  | none => some r
  | some b => if (key r).val < (key b).val then some r else some b

/-- The query `First`: of the rows passing the `Where` clause, the one with the least
primary key (`ORDER BY id LIMIT 1`). -/
def gormFirst {α : Type} (key : α → UUID) (p : α → Bool) (rows : List α) : Option α :=
  (rows.filter p).foldl (leastKey key) none

/-! ## auth-service/internal/infrastructure/user_repository.go -/

/-- The method `UserRepositoryImpl.Create`: an insert into `users`, refused when the
primary key `id` or the unique index on `email` is already taken. -/
def UserRepositoryImpl.Create (user : User) (w : World) : Except String Unit × World :=
  match dbExec (.UserCreate user) w with
  | (some err, w1) => (.error err, w1)
  | (none, w1) =>
    if w1.users.any (fun u => u.ID == user.ID || u.Email == user.Email) then
      (.error ErrDuplicatedKey, w1)
    else
      (.ok (), { w1 with users := w1.users ++ [user] })

/-- The method `UserRepositoryImpl.GetByID`. -/
def UserRepositoryImpl.GetByID (id : UUID) (w : World) : Except String User × World :=
  match dbExec (.UserGetByID id) w with
  | (some err, w1) => (.error err, w1)
  | (none, w1) =>
    match gormFirst User.ID (fun u => u.ID == id) w1.users with
    | none => (.error ErrRecordNotFound, w1)
    | some user => (.ok user, w1)

/-- The method `UserRepositoryImpl.GetByEmail`. -/
def UserRepositoryImpl.GetByEmail (email : String) (w : World) : Except String User × World :=
  match dbExec (.UserGetByEmail email) w with
  | (some err, w1) => (.error err, w1)
  | (none, w1) =>
    match gormFirst User.ID (fun u => u.Email == email) w1.users with
    | none => (.error ErrRecordNotFound, w1)
    | some user => (.ok user, w1)

/-- The method `UserRepositoryImpl.Update`: GORM `Save`. It stamps `UpdatedAt` with the
current time, rewrites the row carrying the primary key, and inserts the record when
no row carries it; the unique index on `email` is enforced against the other rows. -/
def UserRepositoryImpl.Update (user : User) (w : World) : Except String Unit × World :=
  match timeNow w with
  | (now, w0) =>
    match dbExec (.UserUpdate user) w0 with
    | (some err, w1) => (.error err, w1)
    | (none, w1) =>
      let saved : User := { user with UpdatedAt := now }
      if w1.users.any (fun u => u.ID != user.ID && u.Email == user.Email) then
        (.error ErrDuplicatedKey, w1)
      else if w1.users.any (fun u => u.ID == user.ID) then
        (.ok (), { w1 with
          users := w1.users.map (fun u => if u.ID == user.ID then saved else u) })
      else
        (.ok (), { w1 with users := w1.users ++ [saved] })

/-- The method `UserRepositoryImpl.Delete`: `Delete(&domain.User{}, id)`, which removes
the rows whose primary key is `id`. -/
def UserRepositoryImpl.Delete (id : UUID) (w : World) : Except String Unit × World :=
  match dbExec (.UserDelete id) w with
  | (some err, w1) => (.error err, w1)
  | (none, w1) =>
    (.ok (), { w1 with users := w1.users.filter (fun u => !(u.ID == id)) })

/-- The method `UserRepositoryImpl.ExistsByEmail`: returns `count > 0, err`; the count
stays zero when the query fails. -/
def UserRepositoryImpl.ExistsByEmail (email : String) (w : World) :
    (Bool × Option String) × World :=
  match dbExec (.UserExistsByEmail email) w with
  | (some err, w1) => ((false, some err), w1)
  | (none, w1) =>
    ((decide ((w1.users.filter (fun u => u.Email == email)).length > 0), none), w1)

/-! ## auth-service/internal/infrastructure/refresh_token_repository.go -/

/-- The method `RefreshTokenRepositoryImpl.Store`: an insert into `refresh_tokens`,
refused when the primary key `id` or the unique index on `token` is already taken. -/
def RefreshTokenRepositoryImpl.Store (userID : UUID) (token : String) (expiresAt : Int)
    (w : World) : Except String Unit × World :=
  match uuidNew w with
  | (id, wa) =>
    match timeNow wa with
    | (createdAt, wb) =>
      let refreshToken : RefreshToken :=
        { ID := id, UserID := userID, Token := token, ExpiresAt := expiresAt,
          CreatedAt := createdAt }
      match dbExec (.TokenStore userID token expiresAt) wb with
      | (some err, w1) => (.error err, w1)
      | (none, w1) =>
        if w1.refreshTokens.any (fun r => r.ID == id || r.Token == token) then
          (.error ErrDuplicatedKey, w1)
        else
          (.ok (), { w1 with refreshTokens := w1.refreshTokens ++ [refreshToken] })

/-- The method `RefreshTokenRepositoryImpl.Get`:
`Where("token = ? AND expires_at > ?", token, time.Now().Unix()).First`. -/
def RefreshTokenRepositoryImpl.Get (token : String) (w : World) : Except String UUID × World :=
  match timeNow w with
  | (now, w0) =>
    match dbExec (.TokenGet token) w0 with
    | (some err, w1) => (.error err, w1)
    | (none, w1) =>
      match gormFirst RefreshToken.ID
          (fun r => r.Token == token && decide (r.ExpiresAt > now.Unix)) w1.refreshTokens with
      | none => (.error ErrRecordNotFound, w1)
      | some refreshToken => (.ok refreshToken.UserID, w1)

/-- The method `RefreshTokenRepositoryImpl.Delete`: `Where("token = ?", token).Delete`. -/
def RefreshTokenRepositoryImpl.Delete (token : String) (w : World) : Except String Unit × World :=
  match dbExec (.TokenDelete token) w with
  | (some err, w1) => (.error err, w1)
  | (none, w1) =>
    (.ok (), { w1 with refreshTokens := w1.refreshTokens.filter (fun r => !(r.Token == token)) })

/-- The method `RefreshTokenRepositoryImpl.DeleteByUserID`. -/
def RefreshTokenRepositoryImpl.DeleteByUserID (userID : UUID) (w : World) :
    Except String Unit × World :=
  match dbExec (.TokenDeleteByUserID userID) w with
  | (some err, w1) => (.error err, w1)
  | (none, w1) =>
    (.ok (), { w1 with
      refreshTokens := w1.refreshTokens.filter (fun r => !(r.UserID == userID)) })

/-- The method `RefreshTokenRepositoryImpl.CleanupExpired`:
`Where("expires_at <= ?", time.Now().Unix()).Delete`. -/
def RefreshTokenRepositoryImpl.CleanupExpired (w : World) : Except String Unit × World :=
  match timeNow w with
  | (now, w0) =>
    match dbExec .TokenCleanupExpired w0 with
    | (some err, w1) => (.error err, w1)
    | (none, w1) =>
      (.ok (), { w1 with
        refreshTokens := w1.refreshTokens.filter (fun r => !(decide (r.ExpiresAt ≤ now.Unix))) })

/-! ## auth-service/internal/application/auth_service.go -/

/-- The struct `jwt.RegisteredClaims`; a date is `none` when the claim is absent. -/
structure RegisteredClaims where
  Issuer : String
  Subject : String
  Audience : List String
  ExpiresAt : Option Time
  NotBefore : Option Time
  IssuedAt : Option Time
  ID : String
  deriving DecidableEq, Repr

/-- The struct `JWTClaims`. -/
structure JWTClaims extends RegisteredClaims where
  UserID : String
  Email : String
  Role : String
  deriving DecidableEq, Repr

/-- The function `jwt.NewNumericDate`: the instant truncated to `jwt.TimePrecision`,
one second. -/
def NewNumericDate (t : Time) : Time := t - t % Second

/-- The external libraries the service calls.
* `GenerateFromPassword password salt`: `bcrypt.GenerateFromPassword` at the default
  cost, `salt` being the randomness it draws.
* `CompareHashAndPassword hash password`: `true` exactly when
  `bcrypt.CompareHashAndPassword` returns `nil`.
* `SigningString claims`: `Token.SigningString` of
  `jwt.NewWithClaims(jwt.SigningMethodHS256, claims)`, the encoded header and claims.
* `Sign signingString key`: `SigningMethodHS256.Sign`, already encoded as a segment.
* `ParseSigned secret tokenString`: the part of `jwt.ParseWithClaims` before the claims
  are validated, that is decoding the three segments and checking the HS256 signature
  under `secret`. -/
structure Libs where
  GenerateFromPassword : String → Nat → Except String String
  CompareHashAndPassword : String → String → Bool
  SigningString : JWTClaims → Except String String
  Sign : String → String → Except String String
  ParseSigned : String → String → Except String JWTClaims

/-- The method `Token.SignedString`: the signing string, a dot, the signature. -/
def Libs.SignedString (L : Libs) (key : String) (claims : JWTClaims) : Except String String :=
  match L.SigningString claims with
  | .error err => .error err
  | .ok sstr =>
    match L.Sign sstr key with
    | .error err => .error err
    | .ok sig => .ok (sstr ++ "." ++ sig)

/-- The error `jwt.ErrTokenExpired`, as `ParseWithClaims` wraps it. -/
def ErrTokenExpired : String := "token has invalid claims: token is expired"

/-- The error `jwt.ErrTokenNotValidYet`, as `ParseWithClaims` wraps it. -/
def ErrTokenNotValidYet : String := "token has invalid claims: token is not valid yet"

/-- Both errors joined, as `ParseWithClaims` wraps them: the validator collects every
failed check and joins the messages with a comma. -/
def ErrTokenExpiredNotValidYet : String :=
  "token has invalid claims: token is expired, token is not valid yet"

/-- The default `jwt.Validator` on registered claims at instant `now`: `exp`, when
present, must lie after `now`; `nbf`, when present, must not lie after `now`; `iat`,
issuer, subject and audience are not checked by default. Both checks are always made, and
the failures are joined into one error. -/
def validateClaims (now : Time) (claims : JWTClaims) : Except String Unit :=
  let expired : Bool :=
    match claims.ExpiresAt with
    | some exp => !(Time.Before now exp)
    | none => false
  let notValidYet : Bool :=
    match claims.NotBefore with
    | some nbf => Time.Before now nbf
    | none => false
  if expired && notValidYet then .error ErrTokenExpiredNotValidYet
  else if expired then .error ErrTokenExpired
  else if notValidYet then .error ErrTokenNotValidYet
  else .ok ()

/-- The struct `AuthService`; its two repositories are the tables of the world. -/
structure AuthService where
  jwtSecret : String
  tokenExpiration : Duration
  deriving DecidableEq, Repr

/-- The function `NewAuthService`. -/
def NewAuthService (jwtSecret : String) : AuthService :=
  { jwtSecret := jwtSecret, tokenExpiration := 24 * Hour }

/-- The `JWTClaims` literal of `generateJWT`, for a user, the instant `expiresAt` and the
second reading `issuedAt` of the clock. -/
def AuthService.accessClaims (user : User) (expiresAt issuedAt : Time) : JWTClaims :=
  { UserID := user.ID.String
    Email := user.Email
    Role := user.Role
    ExpiresAt := some (NewNumericDate expiresAt)
    IssuedAt := some (NewNumericDate issuedAt)
    Subject := user.ID.String
    Issuer := ""
    Audience := []
    NotBefore := none
    ID := "" }

/-- The method `AuthService.generateJWT`. `time.Now()` is read twice, first for
`expiresAt` and then for the issued-at claim. -/
def AuthService.generateJWT (L : Libs) (s : AuthService) (user : User) (w : World) :
    Except String (String × Time) × World :=
  match timeNow w with
  | (t1, w1) =>
    let expiresAt := Time.Add t1 s.tokenExpiration
    match timeNow w1 with
    | (t2, w2) =>
      let claims := AuthService.accessClaims user expiresAt t2
      match L.SignedString s.jwtSecret claims with
      | .error err => (.error err, w2)
      | .ok tokenString => (.ok (tokenString, expiresAt), w2)

/-- The method `AuthService.generateRefreshToken`. -/
def AuthService.generateRefreshToken (_s : AuthService) (userID : UUID) (w : World) :
    Except String String × World :=
  match uuidNew w with
  | (u, w1) =>
    let refreshToken := u.String
    match timeNow w1 with
    | (t, w2) =>
      let expiresAt := (Time.Add t (7 * 24 * Hour)).Unix
      match RefreshTokenRepositoryImpl.Store userID refreshToken expiresAt w2 with
      | (.error err, w3) => (.error err, w3)
      | (.ok (), w3) => (.ok refreshToken, w3)

/-- The `domain.User` literal of `Register`, for the hash, the fresh id and the two
readings of the clock. -/
def AuthService.newUser (req : RegisterRequest) (hashedPassword : String) (id : UUID)
    (createdAt updatedAt : Time) : User :=
  { ID := id
    Email := req.Email
    PasswordHash := hashedPassword
    Role := req.Role
    Name := req.Name
    CreatedAt := createdAt
    UpdatedAt := updatedAt }

/-- The method `AuthService.Register`. -/
def AuthService.Register (L : Libs) (_s : AuthService) (req : RegisterRequest) (w : World) :
    Except String User × World :=
  if !IsValidEmail req.Email then (.error "invalid email format", w)
  else if !IsValidPassword req.Password then
    (.error "password must be at least 6 characters long", w)
  else if !IsValidRole req.Role then (.error "invalid role", w)
  else
    match UserRepositoryImpl.ExistsByEmail req.Email w with
    | ((_, some err), w1) => (.error err, w1)
    | ((true, none), w1) => (.error "user with this email already exists", w1)
    | ((false, none), w1) =>
      match randRead w1 with
      | (salt, w2) =>
        match L.GenerateFromPassword req.Password salt with
        | .error err => (.error err, w2)
        | .ok hashedPassword =>
          match uuidNew w2 with
          | (id, w3) =>
            match timeNow w3 with
            | (createdAt, w4) =>
              match timeNow w4 with
              | (updatedAt, w5) =>
                let user := AuthService.newUser req hashedPassword id createdAt updatedAt
                match UserRepositoryImpl.Create user w5 with
                | (.error err, w6) => (.error err, w6)
                | (.ok (), w6) => (.ok user, w6)

/-- The method `AuthService.Login`. -/
def AuthService.Login (L : Libs) (s : AuthService) (req : LoginRequest) (w : World) :
    Except String LoginResponse × World :=
  match UserRepositoryImpl.GetByEmail req.Email w with
  | (.error _, w1) => (.error "invalid credentials", w1)
  | (.ok user, w1) =>
    if !L.CompareHashAndPassword user.PasswordHash req.Password then
      (.error "invalid credentials", w1)
    else
      match s.generateJWT L user w1 with
      | (.error err, w2) => (.error err, w2)
      | (.ok (token, expiresAt), w2) =>
        match s.generateRefreshToken user.ID w2 with
        | (.error err, w3) => (.error err, w3)
        | (.ok refreshToken, w3) =>
          (.ok { Token := token
                 RefreshToken := refreshToken
                 User := { ID := user.ID, Email := user.Email, Name := user.Name,
                           Role := user.Role }
                 ExpiresAt := expiresAt }, w3)

/-- The method `AuthService.RefreshToken`. -/
def AuthService.RefreshToken (L : Libs) (s : AuthService) (req : RefreshTokenRequest)
    (w : World) : Except String LoginResponse × World :=
  match RefreshTokenRepositoryImpl.Get req.RefreshToken w with
  | (.error _, w1) => (.error "invalid refresh token", w1)
  | (.ok userID, w1) =>
    match UserRepositoryImpl.GetByID userID w1 with
    | (.error _, w2) => (.error "user not found", w2)
    | (.ok user, w2) =>
      match RefreshTokenRepositoryImpl.Delete req.RefreshToken w2 with
      | (.error err, w3) => (.error err, w3)
      | (.ok (), w3) =>
        match s.generateJWT L user w3 with
        | (.error err, w4) => (.error err, w4)
        | (.ok (token, expiresAt), w4) =>
          match s.generateRefreshToken user.ID w4 with
          | (.error err, w5) => (.error err, w5)
          | (.ok newRefreshToken, w5) =>
            (.ok { Token := token
                   RefreshToken := newRefreshToken
                   User := { ID := user.ID, Email := user.Email, Name := user.Name,
                             Role := user.Role }
                   ExpiresAt := expiresAt }, w5)

/-- The method `AuthService.Logout`. -/
def AuthService.Logout (_s : AuthService) (userID : UUID) (w : World) :
    Except String Unit × World :=
  RefreshTokenRepositoryImpl.DeleteByUserID userID w

/-- The method `AuthService.GetUserByID`. -/
def AuthService.GetUserByID (_s : AuthService) (userID : UUID) (w : World) :
    Except String User × World :=
  UserRepositoryImpl.GetByID userID w

/-- The method `AuthService.ChangePassword`. -/
def AuthService.ChangePassword (L : Libs) (_s : AuthService) (userID : UUID)
    (req : ChangePasswordRequest) (w : World) : Except String Unit × World :=
  match UserRepositoryImpl.GetByID userID w with
  | (.error err, w1) => (.error err, w1)
  | (.ok user, w1) =>
    if !L.CompareHashAndPassword user.PasswordHash req.CurrentPassword then
      (.error "current password is incorrect", w1)
    else if !IsValidPassword req.NewPassword then
      (.error "new password must be at least 6 characters long", w1)
    else
      match randRead w1 with
      | (salt, w2) =>
        match L.GenerateFromPassword req.NewPassword salt with
        | .error err => (.error err, w2)
        | .ok hashedPassword =>
          match timeNow w2 with
          | (now, w3) =>
            UserRepositoryImpl.Update
              { user with PasswordHash := hashedPassword, UpdatedAt := now } w3

/-- The method `AuthService.ValidateToken`. `ParseWithClaims` checks the signature and
then validates the claims against `time.Now()`; when it returns no error the token is
valid and its claims are `*JWTClaims`, so the closing `"invalid token"` is not reached. -/
def AuthService.ValidateToken (L : Libs) (s : AuthService) (tokenString : String)
    (w : World) : Except String JWTClaims × World :=
  match L.ParseSigned s.jwtSecret tokenString with
  | .error err => (.error err, w)
  | .ok claims =>
    match timeNow w with
    | (now, w1) =>
      match validateClaims now claims with
      | .error err => (.error err, w1)
      | .ok () => (.ok claims, w1)

/-! ## shared/utils/response.go -/

/-- The struct `utils.Response`. `Data` is the `gin.H` payload, key by key in the order of
the literal, and `none` when it is nil; `Error` is empty when there is no error. -/
structure Response where
  Success : Bool
  Message : String
  Data : Option (List (String × String))
  Error : String
  deriving DecidableEq, Repr

/-- What `c.JSON(statusCode, response)` writes. -/
structure HTTPResponse where
  statusCode : Nat
  body : Response
  deriving DecidableEq, Repr

/-- The constant `http.StatusOK`. -/
def StatusOK : Nat := 200

/-- The constant `http.StatusBadRequest`. -/
def StatusBadRequest : Nat := 400

/-- The constant `http.StatusUnauthorized`. -/
def StatusUnauthorized : Nat := 401

/-- The function `utils.SuccessResponse`. -/
def SuccessResponse (statusCode : Nat) (message : String)
    (data : Option (List (String × String))) : HTTPResponse :=
  { statusCode := statusCode
    body := { Success := true, Message := message, Data := data, Error := "" } }

/-- The function `utils.ErrorResponse`; `err` is `none` for a nil error. -/
def ErrorResponse (statusCode : Nat) (message : String) (err : Option String) : HTTPResponse :=
  { statusCode := statusCode
    body := { Success := false, Message := message, Data := none,
              Error := match err with
                | some e => e
                | none => "" } }

/-! ## auth-service/internal/interfaces/auth_controller.go -/

/-- The struct `AuthController`. -/
structure AuthController where
  authService : AuthService
  deriving DecidableEq, Repr

/-- The statement `if len(token) > 7 && token[:7] == "Bearer " { token = token[7:] }`.
The seven bytes compared are ASCII, so they are the first seven characters, and the
slice `token[7:]` is the string without them. -/
def stripBearer (token : String) : String :=
  if decide (token.utf8ByteSize > 7) && (token.toList.take 7 == "Bearer ".toList) then
    String.mk (token.toList.drop 7)
  else token

/-- The method `AuthController.ValidateToken`; `authorization` is the value of
`ctx.GetHeader("Authorization")`, empty when the header is absent. -/
def AuthController.ValidateToken (L : Libs) (c : AuthController) (authorization : String)
    (w : World) : HTTPResponse × World :=
  if authorization == "" then
    (ErrorResponse StatusBadRequest "Authorization header required" none, w)
  else
    match c.authService.ValidateToken L (stripBearer authorization) w with
    | (.error err, w1) => (ErrorResponse StatusUnauthorized "Invalid token" (some err), w1)
    | (.ok claims, w1) =>
      (SuccessResponse StatusOK "Token is valid"
        (some [("user_id", claims.UserID), ("email", claims.Email), ("role", claims.Role)]), w1)

/-! ## Assumptions on the environment -/

/-- No storage fault is scheduled for any repository call still to come. -/
def World.NoFault (w : World) : Prop :=
  ∀ n, w.calls.length ≤ n → w.faults n = none

/-- The UUID that the `i`-th coming call of `uuid.New` returns. -/
def World.nextUUID (w : World) (i : Nat) : UUID :=
  ⟨w.rand (w.draws + i)⟩

/-- The `i`-th coming reading of `time.Now()`. -/
def World.nextNow (w : World) (i : Nat) : Time :=
  w.clock (w.ticks + i)

/-- A stand-in for the libraries. The hasher refuses more than 72 bytes and prefixes the
password; the token codec knows the single claim set `claims`, which it signs to
`"header.payload.hs256-" ++ key` and parses back. -/
def demoLibs (claims : JWTClaims) : Libs where
  GenerateFromPassword := fun password _ =>
    if password.utf8ByteSize > 72 then .error "bcrypt: password length exceeds 72 bytes"
    else .ok ("$2a$10$" ++ password)
  CompareHashAndPassword := fun hash password => hash == "$2a$10$" ++ password
  SigningString := fun c =>
    if c = claims then .ok "header.payload" else .error "json: unsupported value"
  Sign := fun _ key => .ok ("hs256-" ++ key)
  ParseSigned := fun key tokenString =>
    if tokenString = "header.payload.hs256-" ++ key then .ok claims
    else .error "token is malformed"

/-- The service of the tests: `NewAuthService(_, _, "test-secret")`. -/
def demoService : AuthService := NewAuthService "test-secret"

/-- The register request of the concrete scenario of the specification. -/
def demoRegister : RegisterRequest :=
  { Email := "a@b.com", Password := "secret1", Name := "A", Role := "candidate" }

/-- An empty store, at 2023-11-14T22:13:20Z; the clock advances by one nanosecond at
each reading, nothing fails, and the random source yields 1000, 1001 and so on. -/
def demoEmpty : World where
  users := []
  refreshTokens := []
  calls := []
  faults := fun _ => none
  clock := fun n => 1700000000 * Second + n
  ticks := 0
  rand := fun n => 1000 + n
  draws := 0

/-- The user that `demoRegister` creates on `demoEmpty`. -/
def demoUser : User :=
  { ID := ⟨1001⟩, Email := "a@b.com", PasswordHash := "$2a$10$secret1", Role := "candidate",
    Name := "A", CreatedAt := 1700000000 * Second, UpdatedAt := 1700000000 * Second + 1 }

/-- A refresh-token row of `demoUser`, expiring at second 1700000100. -/
def demoRow : RefreshToken :=
  { ID := ⟨77⟩, UserID := ⟨1001⟩, Token := "rt-1", ExpiresAt := 1700000100,
    CreatedAt := 1700000000 * Second }

/-- A store holding `demoUser` and `demoRow`, with the clock and random source of
`demoEmpty`. -/
def demoStore : World :=
  { demoEmpty with users := [demoUser], refreshTokens := [demoRow] }

/-- The claims that `generateJWT` builds for `demoUser` when `n` readings of the clock of
`demoEmpty` precede it. -/
def demoClaims (n : Nat) : JWTClaims :=
  AuthService.accessClaims demoUser
    (Time.Add (demoEmpty.clock n) demoService.tokenExpiration) (demoEmpty.clock (n + 1))

/-- A store whose only refresh-token row expires at the very second the clock shows. -/
def expiredStore : World :=
  { demoStore with refreshTokens := [{ demoRow with ExpiresAt := 1700000000 }] }

/-- The store `demoStore` under a storage fault that hits the fourth repository call. -/
def faultyStore : World :=
  { demoStore with faults := fun n => if n = 3 then some "connection refused" else none }

/-- The store `demoStore` with the clock stopped half a second past second 1700000000. -/
def halfSecondStore : World :=
  { demoStore with clock := fun _ => 1700000000 * Second + 500000000 }

/-- The store `demoStore` with a clock that shows the last nanosecond of second 1700000000
at its first reading and advances by one nanosecond at each reading. -/
def straddleStore : World :=
  { demoStore with clock := fun n => 1700000000 * Second + 999999999 + n }

/-- The store `demoStore` when every repository call fails. -/
def brokenStore : World :=
  { demoStore with faults := fun _ => some "connection refused" }

/-- The claims that `generateJWT` builds for `demoUser` on a world. -/
def claimsOn (w : World) : JWTClaims :=
  AuthService.accessClaims demoUser
    (Time.Add (w.clock w.ticks) demoService.tokenExpiration) (w.clock (w.ticks + 1))

/-- The controller of `demoService`. -/
def demoController : AuthController := { authService := demoService }

/-- The store `halfSecondStore` holding, next to `demoRow`, a row that expired at second
1700000000. -/
def halfSecondExpired : World :=
  { halfSecondStore with
    refreshTokens := [{ demoRow with ID := ⟨76⟩, Token := "rt-0", ExpiresAt := 1700000000 },
      demoRow] }

/-- The store `demoStore` without its user: the owner of `demoRow` cannot be loaded. -/
def orphanStore : World :=
  { demoStore with users := [] }

/-! ## Two concurrent calls of `RefreshToken`

Each repository method is one statement sent to the database, and `RefreshToken` opens no
transaction, so two calls on the same store interleave between statements. -/

/-- Where a call of `AuthService.RefreshToken` stands between two of its repository
steps: before `Get`, after `Get`, after `GetByID`, after `Delete`, and returned. -/
inductive RefreshPhase where
  | start
  | resolved (userID : UUID)
  | loaded (user : User)
  | deleted (user : User)
  | done (res : Except String LoginResponse)
  deriving DecidableEq, Repr

/-- Whether the call has returned a response. -/
def RefreshPhase.succeeded : RefreshPhase → Bool
  | .done (.ok _) => true
  | _ => false

/-- The body of `AuthService.RefreshToken`, cut at its repository steps: `Get`, `GetByID`,
`Delete`, and `generateJWT` with `generateRefreshToken`, whose last statement is `Store`.
A call that has returned takes no further step. -/
def AuthService.RefreshTokenStep (L : Libs) (s : AuthService) (req : RefreshTokenRequest) :
    RefreshPhase → World → RefreshPhase × World
  | .start, w =>
    match RefreshTokenRepositoryImpl.Get req.RefreshToken w with
    | (.error _, w1) => (.done (.error "invalid refresh token"), w1)
    | (.ok userID, w1) => (.resolved userID, w1)
  | .resolved userID, w1 =>
    match UserRepositoryImpl.GetByID userID w1 with
    | (.error _, w2) => (.done (.error "user not found"), w2)
    | (.ok user, w2) => (.loaded user, w2)
  | .loaded user, w2 =>
    match RefreshTokenRepositoryImpl.Delete req.RefreshToken w2 with
    | (.error err, w3) => (.done (.error err), w3)
    | (.ok (), w3) => (.deleted user, w3)
  | .deleted user, w3 =>
    match s.generateJWT L user w3 with
    | (.error err, w4) => (.done (.error err), w4)
    | (.ok (token, expiresAt), w4) =>
      match s.generateRefreshToken user.ID w4 with
      | (.error err, w5) => (.done (.error err), w5)
      | (.ok newRefreshToken, w5) =>
        (.done (.ok { Token := token
                      RefreshToken := newRefreshToken
                      User := { ID := user.ID, Email := user.Email, Name := user.Name,
                                Role := user.Role }
                      ExpiresAt := expiresAt }), w5)
  | .done res, w => (.done res, w)

/-- Two calls of `RefreshToken` in flight on one store. -/
structure RefreshRace where
  first : RefreshPhase
  second : RefreshPhase
  world : World

/-- The scheduler lets one of the two calls take its next step: the first call when `turn`
is `true`, the second when it is `false`. -/
def AuthService.raceStep (L : Libs) (s : AuthService) (req : RefreshTokenRequest)
    (r : RefreshRace) (turn : Bool) : RefreshRace :=
  if turn then
    { r with first := (s.RefreshTokenStep L req r.first r.world).1
             world := (s.RefreshTokenStep L req r.first r.world).2 }
  else
    { r with second := (s.RefreshTokenStep L req r.second r.world).1
             world := (s.RefreshTokenStep L req r.second r.world).2 }

/-- An interleaving of the two calls: the schedule lists whose turn it is, step by step. -/
def AuthService.race (L : Libs) (s : AuthService) (req : RefreshTokenRequest)
    (schedule : List Bool) (r : RefreshRace) : RefreshRace :=
  schedule.foldl (s.raceStep L req) r

/-- The same race with the two calls renamed. -/
def RefreshRace.swap (r : RefreshRace) : RefreshRace :=
  { first := r.second, second := r.first, world := r.world }

/-! ## Go strings and floats used by the job service -/

/-- The function `unicode.IsSpace`: the white space of Latin-1 and the characters with the
Unicode property `White_Space`. -/
def isSpace (c : Char) : Bool :=
  c == '\t' || c == '\n' || c.val == 0x0B || c.val == 0x0C || c == '\r' || c == ' '
    || c.val == 0x85 || c.val == 0xA0 || c.val == 0x1680
    || (decide (0x2000 ≤ c.val) && decide (c.val ≤ 0x200A))
    || c.val == 0x2028 || c.val == 0x2029 || c.val == 0x202F || c.val == 0x205F
    || c.val == 0x3000

/-- The function `strings.TrimSpace`: the string without its leading and trailing white
space. -/
def TrimSpace (s : String) : String :=
  String.mk ((s.toList.dropWhile isSpace).reverse.dropWhile isSpace).reverse

/-- The function `strings.ToLower`, which is also what SQL `LOWER` computes: every
character is mapped to its lower case. On ASCII that is the map of the letters `A` to `Z`;
outside ASCII it is `unicode.ToLower`, a table of the library, which is the parameter
`table`. -/
def ToLower (table : Char → Char) (s : String) : String :=
  String.mk (s.toList.map (fun c => if c.val < 128 then c.toLower else table c))

/-- The function `utils.SanitizeString`. -/
def SanitizeString (input : String) : String :=
  TrimSpace input

/-- The function `utils.IsEmptyOrWhitespace`. -/
def IsEmptyOrWhitespace (input : String) : Bool :=
  TrimSpace input == ""

/-- The function `utils.IsValidJobStatus`: the loop over `validStatuses`. -/
def IsValidJobStatus (status : String) : Bool :=
  ["open", "closed"].any (fun validStatus => status == validStatus)

/-- A `float64`: not-a-number, the two infinities, and the finite values, each of which
is a rational number (both zeros are the rational `0`). The service only copies and
compares salaries, and the comparisons of finite values are those of the rationals. -/
inductive Float64 where
  | nan
  | negInf
  | finite (q : ℚ)
  | posInf
  deriving DecidableEq

/-- Whether the value is not-a-number. -/
def Float64.isNaN : Float64 → Bool
  | .nan => true
  | _ => false

/-- The Go operator `<` on `float64`: false as soon as an operand is not-a-number. -/
def Float64.lt : Float64 → Float64 → Bool
  | .negInf, .finite _ => true
  | .negInf, .posInf => true
  | .finite p, .finite q => decide (p < q)
  | .finite _, .posInf => true
  | _, _ => false

/-- The Go operator `>` on `float64`. -/
def Float64.gt (a b : Float64) : Bool :=
  Float64.lt b a

/-- The Go operator `<=` on `float64`: false as soon as an operand is not-a-number. -/
def Float64.le : Float64 → Float64 → Bool
  | .nan, _ => false
  | _, .nan => false
  | a, b => !(Float64.lt b a)

/-! ## job-service/internal/domain -/

/-- The struct `domain.Skill`. -/
structure Skill where
  ID : UUID
  Name : String
  Category : String
  CreatedAt : Time
  deriving DecidableEq, Repr

/-- The struct `domain.JobSkill`; the pointer `Skill` is `none` when it is nil. -/
structure JobSkill where
  ID : UUID
  JobID : UUID
  SkillID : UUID
  RequiredLevel : String
  IsRequired : Bool
  CreatedAt : Time
  Skill : Option Skill
  deriving DecidableEq, Repr

/-- The struct `domain.Job`; a salary pointer is `none` when it is nil. -/
structure Job where
  ID : UUID
  Title : String
  Description : String
  Requirements : String
  Location : String
  SalaryMin : Option Float64
  SalaryMax : Option Float64
  Status : String
  CreatedBy : UUID
  CreatedAt : Time
  UpdatedAt : Time
  Skills : List JobSkill
  deriving DecidableEq

/-- The constant `domain.JobStatusOpen`. -/
def JobStatusOpen : String := "open"

/-- The struct `domain.CreateJobSkillRequest`. -/
structure CreateJobSkillRequest where
  SkillID : UUID
  RequiredLevel : String
  IsRequired : Bool
  deriving DecidableEq, Repr

/-- The struct `domain.CreateJobRequest`. -/
structure CreateJobRequest where
  Title : String
  Description : String
  Requirements : String
  Location : String
  SalaryMin : Option Float64
  SalaryMax : Option Float64
  Skills : List CreateJobSkillRequest
  deriving DecidableEq

/-- The struct `domain.UpdateJobRequest`. -/
structure UpdateJobRequest where
  Title : String
  Description : String
  Requirements : String
  Location : String
  SalaryMin : Option Float64
  SalaryMax : Option Float64
  deriving DecidableEq

/-- The struct `domain.SkillResponse`. -/
structure SkillResponse where
  ID : UUID
  Name : String
  Category : String
  deriving DecidableEq, Repr

/-- The struct `domain.JobSkillResponse`. -/
structure JobSkillResponse where
  Skill : SkillResponse
  RequiredLevel : String
  IsRequired : Bool
  deriving DecidableEq, Repr

/-- The struct `domain.JobResponse`. -/
structure JobResponse where
  ID : UUID
  Title : String
  Description : String
  Requirements : String
  Location : String
  SalaryMin : Option Float64
  SalaryMax : Option Float64
  Status : String
  CreatedBy : UUID
  CreatedAt : Time
  UpdatedAt : Time
  Skills : List JobSkillResponse
  deriving DecidableEq

/-! ## The world of the job service -/

/-- A call of a repository method of the job service, as recorded in the trace. -/
inductive JobRepoCall where
  | JobCreate (job : Job)
  | JobGetByID (id : UUID)
  | JobUpdate (job : Job)
  | JobDelete (id : UUID)
  | JobUpdateStatus (id : UUID) (status : String)
  | SkillGetByIDs (ids : List UUID)
  | SkillCreate (skill : Skill)
  | SkillExistsByName (name : String)
  | JobSkillCreateBatch (jobSkills : List JobSkill)
  | JobSkillGetByJobID (jobID : UUID)
  | JobSkillDeleteByJobID (jobID : UUID)
  deriving DecidableEq

/-- The state the job service threads through: the tables `jobs`, `skills` and
`job_skills`, the trace of repository calls, and the oracles of `World`. A row of `jobs`
holds no `Skills`, and a row of `job_skills` no `Skill`: they are loaded by queries. -/
structure JobWorld where
  jobs : List Job
  skills : List Skill
  jobSkills : List JobSkill
  calls : List JobRepoCall
  faults : Nat → Option String
  clock : Nat → Time
  ticks : Nat
  rand : Nat → Nat
  draws : Nat

/-- The function `time.Now`, in the job service. -/
def JobWorld.timeNow (w : JobWorld) : Time × JobWorld :=
  (w.clock w.ticks, { w with ticks := w.ticks + 1 })

/-- The function `uuid.New`, in the job service. -/
def JobWorld.uuidNew (w : JobWorld) : UUID × JobWorld :=
  ((⟨w.rand w.draws⟩ : UUID), { w with draws := w.draws + 1 })

/-- One statement sent to the database of the job service: it is recorded in the trace
and receives the storage fault scheduled for it, if any. -/
def JobWorld.dbExec (c : JobRepoCall) (w : JobWorld) : Option String × JobWorld :=
  (w.faults w.calls.length, { w with calls := w.calls ++ [c] })

/-! ## job-service/internal/infrastructure/job_repository.go -/

/-- The method `JobRepositoryImpl.Create`: an insert into `jobs`, refused when the primary
key `id` is already taken. The service creates jobs whose `Skills` are empty, for which
GORM writes no association. `Status` carries the tag `default:'open'`, and GORM writes the
default in place of a zero value, the empty string. -/
def JobRepositoryImpl.Create (job : Job) (w : JobWorld) : Except String Unit × JobWorld :=
  match w.dbExec (.JobCreate job) with
  | (some err, w1) => (.error err, w1)
  | (none, w1) =>
    if w1.jobs.any (fun j => j.ID == job.ID) then (.error ErrDuplicatedKey, w1)
    else
      (.ok (), { w1 with
        jobs := w1.jobs ++
          [{ job with Skills := [], Status := if job.Status == "" then "open" else job.Status }] })

/-- The method `JobRepositoryImpl.GetByID`; `Skills` is not preloaded. -/
def JobRepositoryImpl.GetByID (id : UUID) (w : JobWorld) : Except String Job × JobWorld :=
  match w.dbExec (.JobGetByID id) with
  | (some err, w1) => (.error err, w1)
  | (none, w1) =>
    match gormFirst Job.ID (fun j => j.ID == id) w1.jobs with
    | none => (.error ErrRecordNotFound, w1)
    | some job => (.ok job, w1)

/-- The method `JobRepositoryImpl.Update`: GORM `Save`. It stamps `UpdatedAt` with the
current time, rewrites the row carrying the primary key, and inserts the record when no
row carries it. -/
def JobRepositoryImpl.Update (job : Job) (w : JobWorld) : Except String Unit × JobWorld :=
  match w.timeNow with
  | (now, w0) =>
    match w0.dbExec (.JobUpdate job) with
    | (some err, w1) => (.error err, w1)
    | (none, w1) =>
      let saved : Job := { job with UpdatedAt := now, Skills := [] }
      if w1.jobs.any (fun j => j.ID == job.ID) then
        (.ok (), { w1 with jobs := w1.jobs.map (fun j => if j.ID == job.ID then saved else j) })
      else
        (.ok (), { w1 with jobs := w1.jobs ++ [saved] })

/-- The method `JobRepositoryImpl.Delete`: `Delete(&domain.Job{}, id)`, which removes the
rows whose primary key is `id`. -/
def JobRepositoryImpl.Delete (id : UUID) (w : JobWorld) : Except String Unit × JobWorld :=
  match w.dbExec (.JobDelete id) with
  | (some err, w1) => (.error err, w1)
  | (none, w1) => (.ok (), { w1 with jobs := w1.jobs.filter (fun j => !(j.ID == id)) })

/-- The method `JobRepositoryImpl.UpdateStatus`:
`Model(&domain.Job{}).Where("id = ?", id).Update("status", status)`, which also stamps
`updated_at`. -/
def JobRepositoryImpl.UpdateStatus (id : UUID) (status : String) (w : JobWorld) :
    Except String Unit × JobWorld :=
  match w.timeNow with
  | (now, w0) =>
    match w0.dbExec (.JobUpdateStatus id status) with
    | (some err, w1) => (.error err, w1)
    | (none, w1) =>
      (.ok (), { w1 with
        jobs := w1.jobs.map (fun j =>
          if j.ID == id then { j with Status := status, UpdatedAt := now } else j) })

/-! ## job-service/internal/infrastructure/skill_repository.go -/

/-- The method `SkillRepositoryImpl.GetByIDs`: `Where("id IN ?", ids).Find`. -/
def SkillRepositoryImpl.GetByIDs (ids : List UUID) (w : JobWorld) :
    Except String (List Skill) × JobWorld :=
  match w.dbExec (.SkillGetByIDs ids) with
  | (some err, w1) => (.error err, w1)
  | (none, w1) => (.ok (w1.skills.filter (fun sk => ids.contains sk.ID)), w1)

/-- The method `SkillRepositoryImpl.Create`: an insert into `skills`, refused when the
primary key `id` or the unique index on `name` is already taken. -/
def SkillRepositoryImpl.Create (skill : Skill) (w : JobWorld) : Except String Unit × JobWorld :=
  match w.dbExec (.SkillCreate skill) with
  | (some err, w1) => (.error err, w1)
  | (none, w1) =>
    if w1.skills.any (fun sk => sk.ID == skill.ID || sk.Name == skill.Name) then
      (.error ErrDuplicatedKey, w1)
    else
      (.ok (), { w1 with skills := w1.skills ++ [skill] })

/-- The method `SkillRepositoryImpl.ExistsByName`:
`Where("LOWER(name) = ?", strings.ToLower(name)).Count`; it returns `count > 0, err`, and
the count stays zero when the query fails; `table` is the case table of `ToLower`. -/
def SkillRepositoryImpl.ExistsByName (table : Char → Char) (name : String) (w : JobWorld) :
    (Bool × Option String) × JobWorld :=
  match w.dbExec (.SkillExistsByName name) with
  | (some err, w1) => ((false, some err), w1)
  | (none, w1) =>
    ((decide ((w1.skills.filter
        (fun sk => ToLower table sk.Name == ToLower table name)).length > 0), none), w1)

/-- The method `JobSkillRepositoryImpl.CreateBatch`: nothing for an empty slice, else one
insert of all the rows, refused when a primary key is already taken or occurs twice.
`IsRequired` carries the tag `default:true`, and GORM writes the default in place of a
zero value, so a requested `false` is stored as `true`. -/
def JobSkillRepositoryImpl.CreateBatch (jobSkills : List JobSkill) (w : JobWorld) :
    Except String Unit × JobWorld :=
  if jobSkills.length == 0 then (.ok (), w)
  else
    match w.dbExec (.JobSkillCreateBatch jobSkills) with
    | (some err, w1) => (.error err, w1)
    | (none, w1) =>
      if w1.jobSkills.any (fun r => jobSkills.any (fun js => js.ID == r.ID))
          || !((jobSkills.map JobSkill.ID).Nodup) then
        (.error ErrDuplicatedKey, w1)
      else
        (.ok (), { w1 with
          jobSkills := w1.jobSkills ++ jobSkills.map (fun js =>
            { js with Skill := none, IsRequired := if js.IsRequired then js.IsRequired else true }) })

/-- The method `JobSkillRepositoryImpl.GetByJobID`:
`Preload("Skill").Where("job_id = ?", jobID).Find`. The preload fills `Skill` with the
skill whose id is `skill_id`, and leaves it nil when there is none. -/
def JobSkillRepositoryImpl.GetByJobID (jobID : UUID) (w : JobWorld) :
    Except String (List JobSkill) × JobWorld :=
  match w.dbExec (.JobSkillGetByJobID jobID) with
  | (some err, w1) => (.error err, w1)
  | (none, w1) =>
    (.ok ((w1.jobSkills.filter (fun r => r.JobID == jobID)).map (fun r =>
      { r with Skill := gormFirst Skill.ID (fun sk => sk.ID == r.SkillID) w1.skills })), w1)

/-- The method `JobSkillRepositoryImpl.DeleteByJobID`. -/
def JobSkillRepositoryImpl.DeleteByJobID (jobID : UUID) (w : JobWorld) :
    Except String Unit × JobWorld :=
  match w.dbExec (.JobSkillDeleteByJobID jobID) with
  | (some err, w1) => (.error err, w1)
  | (none, w1) =>
    (.ok (), { w1 with jobSkills := w1.jobSkills.filter (fun r => !(r.JobID == jobID)) })

/-! ## job-service/internal/application/job_service.go

The struct `JobService` holds the three repositories, which are the tables of the world,
and the client of the auth service, which the methods below do not call. -/

/-- The condition `min != nil && max != nil && *min > *max` of `CreateJob` and
`UpdateJob`. -/
def salaryMinAboveMax (min max : Option Float64) : Bool :=
  match min, max with
  | some a, some b => Float64.gt a b
  | _, _ => false

/-- The first `if len(req.Skills) > 0` block of `CreateJob`: the requested skills are
looked up, and the error to return, if any, is the result. -/
def JobService.lookupSkills (req : CreateJobRequest) (w : JobWorld) : Option String × JobWorld :=
  if req.Skills.length > 0 then
    let skillIDs := req.Skills.map CreateJobSkillRequest.SkillID
    match SkillRepositoryImpl.GetByIDs skillIDs w with
    | (.error err, w1) => (some err, w1)
    | (.ok skills, w1) =>
      if skills.length != skillIDs.length then (some "one or more skills not found", w1)
      else (none, w1)
  else (none, w)

/-- The `domain.Job` literal of `CreateJob`, for the fresh id and the two readings of the
clock. -/
def JobService.newJob (req : CreateJobRequest) (createdBy : UUID) (id : UUID)
    (createdAt updatedAt : Time) : Job :=
  { ID := id
    Title := SanitizeString req.Title
    Description := SanitizeString req.Description
    Requirements := SanitizeString req.Requirements
    Location := SanitizeString req.Location
    SalaryMin := req.SalaryMin
    SalaryMax := req.SalaryMax
    Status := JobStatusOpen
    CreatedBy := createdBy
    CreatedAt := createdAt
    UpdatedAt := updatedAt
    Skills := [] }

/-- The loop of `CreateJob` that fills `jobSkills`: one `uuid.New()` and one `time.Now()`
for each requested skill, in order. -/
def JobService.newJobSkills (jobID : UUID) :
    List CreateJobSkillRequest → JobWorld → List JobSkill × JobWorld
  | [], w => ([], w)
  | skillReq :: rest, w =>
    match w.uuidNew with
    | (id, w1) =>
      match w1.timeNow with
      | (createdAt, w2) =>
        match JobService.newJobSkills jobID rest w2 with
        | (tail, w3) =>
          ({ ID := id, JobID := jobID, SkillID := skillReq.SkillID,
             RequiredLevel := skillReq.RequiredLevel, IsRequired := skillReq.IsRequired,
             CreatedAt := createdAt, Skill := none } :: tail, w3)

/-- The second `if len(req.Skills) > 0` block of `CreateJob`: the job skills are built and
inserted, and the error to return, if any, is the result. -/
def JobService.storeJobSkills (req : CreateJobRequest) (jobID : UUID) (w : JobWorld) :
    Option String × JobWorld :=
  if req.Skills.length > 0 then
    match JobService.newJobSkills jobID req.Skills w with
    | (jobSkills, w1) =>
      match JobSkillRepositoryImpl.CreateBatch jobSkills w1 with
      | (.error err, w2) => (some err, w2)
      | (.ok (), w2) => (none, w2)
  else (none, w)

/-- The method `JobService.GetJobByID`. -/
def JobService.GetJobByID (id : UUID) (w : JobWorld) : Except String Job × JobWorld :=
  match JobRepositoryImpl.GetByID id w with
  | (.error err, w1) => (.error err, w1)
  | (.ok job, w1) =>
    match JobSkillRepositoryImpl.GetByJobID job.ID w1 with
    | (.error err, w2) => (.error err, w2)
    | (.ok jobSkills, w2) => (.ok { job with Skills := jobSkills }, w2)

/-- The method `JobService.CreateJob`. -/
def JobService.CreateJob (req : CreateJobRequest) (createdBy : UUID) (w : JobWorld) :
    Except String Job × JobWorld :=
  if IsEmptyOrWhitespace req.Title then (.error "title is required", w)
  else if IsEmptyOrWhitespace req.Description then (.error "description is required", w)
  else if salaryMinAboveMax req.SalaryMin req.SalaryMax then
    (.error "minimum salary cannot be greater than maximum salary", w)
  else
    match JobService.lookupSkills req w with
    | (some err, w1) => (.error err, w1)
    | (none, w1) =>
      match w1.uuidNew with
      | (id, w2) =>
        match w2.timeNow with
        | (createdAt, w3) =>
          match w3.timeNow with
          | (updatedAt, w4) =>
            let job := JobService.newJob req createdBy id createdAt updatedAt
            match JobRepositoryImpl.Create job w4 with
            | (.error err, w5) => (.error err, w5)
            | (.ok (), w5) =>
              match JobService.storeJobSkills req job.ID w5 with
              | (some err, w6) => (.error err, w6)
              | (none, w6) => JobService.GetJobByID job.ID w6

/-- The six conditional assignments of `UpdateJob`: a text field of the request replaces
the stored one when it is not the empty string, a salary bound when it is not nil. -/
def JobService.mergeJob (job : Job) (req : UpdateJobRequest) : Job :=
  { job with
    Title := if req.Title != "" then SanitizeString req.Title else job.Title
    Description :=
      if req.Description != "" then SanitizeString req.Description else job.Description
    Requirements :=
      if req.Requirements != "" then SanitizeString req.Requirements else job.Requirements
    Location := if req.Location != "" then SanitizeString req.Location else job.Location
    SalaryMin := if req.SalaryMin != none then req.SalaryMin else job.SalaryMin
    SalaryMax := if req.SalaryMax != none then req.SalaryMax else job.SalaryMax }

/-- The method `JobService.UpdateJob`. -/
def JobService.UpdateJob (id : UUID) (req : UpdateJobRequest) (userID : UUID) (w : JobWorld) :
    Except String Job × JobWorld :=
  match JobRepositoryImpl.GetByID id w with
  | (.error err, w1) => (.error err, w1)
  | (.ok stored, w1) =>
    if stored.CreatedBy != userID then (.error "you can only update jobs you created", w1)
    else
      let job := JobService.mergeJob stored req
      if salaryMinAboveMax job.SalaryMin job.SalaryMax then
        (.error "minimum salary cannot be greater than maximum salary", w1)
      else
        match w1.timeNow with
        | (now, w2) =>
          match JobRepositoryImpl.Update { job with UpdatedAt := now } w2 with
          | (.error err, w3) => (.error err, w3)
          | (.ok (), w3) => JobService.GetJobByID job.ID w3

/-- The method `JobService.UpdateJobStatus`. -/
def JobService.UpdateJobStatus (id : UUID) (status : String) (userID : UUID) (w : JobWorld) :
    Except String Unit × JobWorld :=
  match JobRepositoryImpl.GetByID id w with
  | (.error err, w1) => (.error err, w1)
  | (.ok job, w1) =>
    if job.CreatedBy != userID then (.error "you can only update jobs you created", w1)
    else if !IsValidJobStatus status then (.error "invalid job status", w1)
    else JobRepositoryImpl.UpdateStatus id status w1

/-- The method `JobService.DeleteJob`. -/
def JobService.DeleteJob (id : UUID) (userID : UUID) (w : JobWorld) :
    Except String Unit × JobWorld :=
  match JobRepositoryImpl.GetByID id w with
  | (.error err, w1) => (.error err, w1)
  | (.ok job, w1) =>
    if job.CreatedBy != userID then (.error "you can only delete jobs you created", w1)
    else
      match JobSkillRepositoryImpl.DeleteByJobID id w1 with
      | (.error err, w2) => (.error err, w2)
      | (.ok (), w2) => JobRepositoryImpl.Delete id w2

/-- The method `JobService.CreateSkill`. `ExistsByName` receives `name` as it came, and
the skill stores the trimmed name; `table` is the case table of `ToLower`. -/
def JobService.CreateSkill (table : Char → Char) (name category : String) (w : JobWorld) :
    Except String Skill × JobWorld :=
  if IsEmptyOrWhitespace name then (.error "skill name is required", w)
  else
    match SkillRepositoryImpl.ExistsByName table name w with
    | ((_, some err), w1) => (.error err, w1)
    | ((true, none), w1) => (.error "skill with this name already exists", w1)
    | ((false, none), w1) =>
      match w1.uuidNew with
      | (id, w2) =>
        match w2.timeNow with
        | (createdAt, w3) =>
          let skill : Skill :=
            { ID := id, Name := SanitizeString name, Category := SanitizeString category,
              CreatedAt := createdAt }
          match SkillRepositoryImpl.Create skill w3 with
          | (.error err, w4) => (.error err, w4)
          | (.ok (), w4) => (.ok skill, w4)

/-! ## job-service/internal/interfaces/job_controller.go -/

/-- The message of the run-time panic of a nil pointer dereference. -/
def ErrNilDereference : String :=
  "runtime error: invalid memory address or nil pointer dereference"

/-- The body of the loop of `mapJobToResponse` for one job skill; a panic is an error.
The first `domain.SkillResponse` literal reads `jobSkill.Skill.ID` before the test
`jobSkill.Skill != nil` is reached, so a nil `Skill` panics there. -/
def JobController.mapJobSkill (jobSkill : JobSkill) : Except String JobSkillResponse :=
  match jobSkill.Skill with
  | none => .error ErrNilDereference
  | some skill =>
    let skillResponse : SkillResponse :=
      { ID := skill.ID, Name := skill.Name, Category := skill.Category }
    let skillResponse : SkillResponse :=
      if jobSkill.Skill != none then
        { ID := skill.ID, Name := skill.Name, Category := skill.Category }
      else skillResponse
    .ok { Skill := skillResponse
          RequiredLevel := jobSkill.RequiredLevel
          IsRequired := jobSkill.IsRequired }

/-- The loop `for i, jobSkill := range job.Skills` of `mapJobToResponse`. -/
def JobController.mapJobSkills : List JobSkill → Except String (List JobSkillResponse)
  | [] => .ok []
  | jobSkill :: rest =>
    match JobController.mapJobSkill jobSkill with
    | .error err => .error err
    | .ok first =>
      match JobController.mapJobSkills rest with
      | .error err => .error err
      | .ok tail => .ok (first :: tail)

/-- The method `JobController.mapJobToResponse`; a panic is an error. -/
def JobController.mapJobToResponse (job : Job) : Except String JobResponse :=
  let response : JobResponse :=
    { ID := job.ID
      Title := job.Title
      Description := job.Description
      Requirements := job.Requirements
      Location := job.Location
      SalaryMin := job.SalaryMin
      SalaryMax := job.SalaryMax
      Status := job.Status
      CreatedBy := job.CreatedBy
      CreatedAt := job.CreatedAt
      UpdatedAt := job.UpdatedAt
      Skills := [] }
  if job.Skills.length > 0 then
    match JobController.mapJobSkills job.Skills with
    | .error err => .error err
    | .ok skills => .ok { response with Skills := skills }
  else .ok response

/-! ## A small instance of the job service -/

/-- An empty job store, with the clock and random source of `demoEmpty`; nothing fails. -/
def jobEmpty : JobWorld where
  jobs := []
  skills := []
  jobSkills := []
  calls := []
  faults := fun _ => none
  clock := fun n => 1700000000 * Second + n
  ticks := 0
  rand := fun n => 1000 + n
  draws := 0

/-- A stored skill. -/
def demoSkill : Skill :=
  { ID := ⟨7⟩, Name := "Go", Category := "language", CreatedAt := 1700000000 * Second }

/-- A stored job, created by user 1001, with a salary range of 3000 to 5000. -/
def demoJob : Job :=
  { ID := ⟨500⟩, Title := "Engineer", Description := "Builds things", Requirements := "",
    Location := "Lisbon", SalaryMin := some (.finite 3000), SalaryMax := some (.finite 5000),
    Status := "open", CreatedBy := ⟨1001⟩, CreatedAt := 1700000000 * Second,
    UpdatedAt := 1700000000 * Second, Skills := [] }

/-- A row of `job_skills` that ties `demoJob` to `demoSkill`. -/
def demoJobSkill : JobSkill :=
  { ID := ⟨600⟩, JobID := ⟨500⟩, SkillID := ⟨7⟩, RequiredLevel := "expert", IsRequired := true,
    CreatedAt := 1700000000 * Second, Skill := none }

/-- A job store holding `demoJob`, `demoSkill` and `demoJobSkill`. -/
def jobStore : JobWorld :=
  { jobEmpty with jobs := [demoJob], skills := [demoSkill], jobSkills := [demoJobSkill] }

/-- The job `demoJob` as loaded with one job skill whose `Skill` is nil. -/
def jobWithNilSkill : Job :=
  { demoJob with Skills := [demoJobSkill] }

/-- The job `demoJob` as `GetJobByID` loads it from `jobStore`. -/
def jobWithSkill : Job :=
  { demoJob with Skills := [{ demoJobSkill with Skill := some demoSkill }] }

/-- A request to create a job with a salary range and no skills. -/
def demoCreateJob : CreateJobRequest :=
  { Title := " Engineer ", Description := "Builds things", Requirements := "",
    Location := "Lisbon", SalaryMin := some (.finite 3000), SalaryMax := some (.finite 5000),
    Skills := [] }

/-- An update request that changes nothing. -/
def emptyUpdate : UpdateJobRequest :=
  { Title := "", Description := "", Requirements := "", Location := "", SalaryMin := none,
    SalaryMax := none }

/-- The salary range of a job is in order: when both bounds are set and are numbers, the
minimum is at most the maximum (Go `<=`). -/
def Job.SalaryInRange (j : Job) : Prop :=
  ∀ a b, j.SalaryMin = some a → j.SalaryMax = some b → a.isNaN = false → b.isNaN = false →
    Float64.le a b = true

theorem leastKey_foldl_some {α : Type} (key : α → UUID) (l : List α) (b : α) :
    ∃ r, l.foldl (leastKey key) (some b) = some r ∧ (r = b ∨ r ∈ l) := by
  induction l generalizing b with
  | nil => exact ⟨b, rfl, Or.inl rfl⟩
  | cons a l ih =>
    simp only [List.foldl_cons, leastKey]
    by_cases h : (key a).val < (key b).val
    · obtain ⟨r, hr, hm⟩ := ih a
      refine ⟨r, by simpa [h] using hr, ?_⟩
      rcases hm with hm | hm
      · right; simp [hm]
      · right; simp [hm]
    · obtain ⟨r, hr, hm⟩ := ih b
      refine ⟨r, by simpa [h] using hr, ?_⟩
      rcases hm with hm | hm
      · left; exact hm
      · right; simp [hm]

theorem gormFirst_eq_none_iff {α : Type} (key : α → UUID) (p : α → Bool) (rows : List α) :
    gormFirst key p rows = none ↔ ∀ r ∈ rows, p r = false := by
  unfold gormFirst
  constructor
  · intro h r hr
    by_contra hp
    have hp' : p r = true := by simpa using hp
    have hmem : r ∈ rows.filter p := List.mem_filter.mpr ⟨hr, hp'⟩
    cases hl : rows.filter p with
    | nil => rw [hl] at hmem; simp at hmem
    | cons a l =>
      rw [hl] at h
      simp only [List.foldl_cons, leastKey] at h
      obtain ⟨x, hx, _⟩ := leastKey_foldl_some key l a
      rw [hx] at h
      cases h
  · intro h
    have : rows.filter p = [] := by
      rw [List.filter_eq_nil_iff]
      intro a ha
      simp [h a ha]
    rw [this]
    rfl

theorem gormFirst_some {α : Type} (key : α → UUID) (p : α → Bool) (rows : List α) (r : α)
    (h : gormFirst key p rows = some r) : r ∈ rows ∧ p r = true := by
  unfold gormFirst at h
  cases hl : rows.filter p with
  | nil => rw [hl] at h; cases h
  | cons a l =>
    rw [hl] at h
    simp only [List.foldl_cons, leastKey] at h
    obtain ⟨x, hx, hm⟩ := leastKey_foldl_some key l a
    rw [hx] at h
    cases h
    have : r ∈ rows.filter p := by
      rw [hl]
      rcases hm with hm | hm
      · simp [hm]
      · simp [hm]
    exact List.mem_filter.mp this

theorem gormFirst_isSome {α : Type} (key : α → UUID) (p : α → Bool) (rows : List α) (r : α)
    (hr : r ∈ rows) (hp : p r = true) : ∃ x, gormFirst key p rows = some x := by
  cases h : gormFirst key p rows with
  | some x => exact ⟨x, rfl⟩
  | none =>
    have := (gormFirst_eq_none_iff key p rows).mp h r hr
    rw [hp] at this
    cases this

/-! ## A token that does not resolve -/

theorem Get_missing (t : String) (w : World)
    (h : ∀ r ∈ w.refreshTokens, r.Token = t → r.ExpiresAt ≤ (w.nextNow 0).Unix) :
    ∃ err, RefreshTokenRepositoryImpl.Get t w
      = (.error err, { w with ticks := w.ticks + 1, calls := w.calls ++ [.TokenGet t] }) := by
  have hnone : gormFirst RefreshToken.ID
      (fun r => r.Token == t && decide (r.ExpiresAt > (w.clock w.ticks).Unix)) w.refreshTokens
        = none := by
    rw [gormFirst_eq_none_iff]
    intro r hr
    by_cases ht : r.Token = t
    · have := h r hr ht
      simp only [World.nextNow, Nat.add_zero] at this
      simp [ht]
      omega
    · simp [ht]
  cases hf : w.faults w.calls.length with
  | some e => exact ⟨e, by simp [RefreshTokenRepositoryImpl.Get, timeNow, dbExec, hf]⟩
  | none =>
    exact ⟨ErrRecordNotFound, by simp [RefreshTokenRepositoryImpl.Get, timeNow, dbExec, hf, hnone]⟩

theorem RefreshToken_missing (L : Libs) (s : AuthService) (t : String) (w : World)
    (h : ∀ r ∈ w.refreshTokens, r.Token = t → r.ExpiresAt ≤ (w.nextNow 0).Unix) :
    s.RefreshToken L ⟨t⟩ w
      = (.error "invalid refresh token",
          { w with ticks := w.ticks + 1, calls := w.calls ++ [.TokenGet t] }) := by
  obtain ⟨e, he⟩ := Get_missing t w h
  simp [AuthService.RefreshToken, he]

/-! ## The stand-in libraries meet the contract -/

theorem demoEmpty_noFault : demoEmpty.NoFault := fun _ _ => rfl

theorem demoStore_noFault : demoStore.NoFault := fun _ _ => rfl

/-! ## Tokens are not empty -/

theorem UUID_String_length (u : UUID) : u.String.length = 36 := by
  simp [UUID.String, String.length]

theorem UUID_String_ne_empty (u : UUID) : u.String ≠ "" := by
  intro h
  have := UUID_String_length u
  rw [h] at this
  simp at this

theorem SignedString_ne_empty (L : Libs) (key : String) (c : JWTClaims) (tok : String)
    (h : L.SignedString key c = .ok tok) : tok ≠ "" := by
  unfold Libs.SignedString at h
  cases h1 : L.SigningString c with
  | error e => simp [h1] at h
  | ok sstr =>
    cases h2 : L.Sign sstr key with
    | error e => simp [h1, h2] at h
    | ok sig =>
      simp [h1, h2] at h
      intro he
      rw [he] at h
      have := congrArg String.length h
      simp [String.length_append] at this
      exact absurd this.1.2 (by decide)

/-! ## Registration, when it succeeds -/

theorem Register_ok (L : Libs) (s : AuthService) (req : RegisterRequest) (w : World)
    (hashed : String)
    (h1 : IsValidEmail req.Email = true) (h2 : IsValidPassword req.Password = true)
    (h3 : IsValidRole req.Role = true)
    (hnew : ∀ u ∈ w.users, u.Email ≠ req.Email)
    (hf0 : w.faults w.calls.length = none) (hf1 : w.faults (w.calls.length + 1) = none)
    (hhash : L.GenerateFromPassword req.Password (w.rand w.draws) = .ok hashed)
    (hid : ∀ u ∈ w.users, u.ID ≠ w.nextUUID 1) :
    s.Register L req w
      = (.ok (AuthService.newUser req hashed (w.nextUUID 1) (w.nextNow 0) (w.nextNow 1)),
          { w with
            users := w.users ++
              [AuthService.newUser req hashed (w.nextUUID 1) (w.nextNow 0) (w.nextNow 1)]
            calls := w.calls ++ [.UserExistsByEmail req.Email,
              .UserCreate
                (AuthService.newUser req hashed (w.nextUUID 1) (w.nextNow 0) (w.nextNow 1))]
            ticks := w.ticks + 2
            draws := w.draws + 2 }) := by
  have hcount : (w.users.filter (fun u => u.Email == req.Email)) = [] := by
    rw [List.filter_eq_nil_iff]
    intro u hu
    simpa using hnew u hu
  have hany : ¬ ∃ x ∈ w.users, x.ID = { val := w.rand (w.draws + 1) } ∨ x.Email = req.Email := by
    rintro ⟨x, hx, h | h⟩
    · exact hid x hx (by simpa [World.nextUUID] using h)
    · exact hnew x hx h
  simp [AuthService.Register, h1, h2, h3, UserRepositoryImpl.ExistsByEmail, dbExec, hf0, hcount,
    randRead, hhash, uuidNew, timeNow, UserRepositoryImpl.Create, hf1, hany, World.nextUUID,
    World.nextNow, AuthService.newUser]

/-! ## Login and validation, when they succeed -/

theorem Login_ok (L : Libs) (s : AuthService) (req : LoginRequest) (w : World) (user : User)
    (tok : String)
    (hfound : gormFirst User.ID (fun u => u.Email == req.Email) w.users = some user)
    (hpw : L.CompareHashAndPassword user.PasswordHash req.Password = true)
    (f0 : w.faults w.calls.length = none) (f1 : w.faults (w.calls.length + 1) = none)
    (htok : L.SignedString s.jwtSecret
      (AuthService.accessClaims user (Time.Add (w.nextNow 0) s.tokenExpiration) (w.nextNow 1))
        = .ok tok)
    (hfresh : ∀ r ∈ w.refreshTokens, r.Token ≠ (w.nextUUID 0).String ∧ r.ID ≠ w.nextUUID 1) :
    s.Login L req w
      = (.ok { Token := tok, RefreshToken := (w.nextUUID 0).String,
               User := { ID := user.ID, Email := user.Email, Name := user.Name,
                         Role := user.Role },
               ExpiresAt := Time.Add (w.nextNow 0) s.tokenExpiration },
          { w with
            ticks := w.ticks + 4
            draws := w.draws + 2
            calls := w.calls ++ [.UserGetByEmail req.Email,
              .TokenStore user.ID (w.nextUUID 0).String
                (Time.Add (w.nextNow 2) (7 * 24 * Hour)).Unix]
            refreshTokens := w.refreshTokens ++
              [{ ID := w.nextUUID 1, UserID := user.ID, Token := (w.nextUUID 0).String,
                 ExpiresAt := (Time.Add (w.nextNow 2) (7 * 24 * Hour)).Unix,
                 CreatedAt := w.nextNow 3 }] }) := by
  have hany : w.refreshTokens.any
      (fun r => r.ID == w.nextUUID 1 || r.Token == (w.nextUUID 0).String) = false := by
    rw [List.any_eq_false]
    intro r hr
    have := hfresh r hr
    simp [this.1, this.2]
  simp only [World.nextNow, World.nextUUID, Nat.add_zero] at htok hany ⊢
  simp [AuthService.Login, UserRepositoryImpl.GetByEmail, dbExec, f0, hfound, hpw,
    AuthService.generateJWT, timeNow, htok, AuthService.generateRefreshToken, uuidNew, randRead,
    RefreshTokenRepositoryImpl.Store, f1, hany]

/-- C1. On a store where the refresh token `t` resolves (a row with `t` is unexpired at
the time of the lookup, and the rows with `t` are owned by stored users), provided no
storage fault occurs, the token library signs the access claims of the stored users, and
the generated replacement token and row id are not already taken, the first
`RefreshToken(t)` succeeds and a second `RefreshToken(t)` on the resulting store fails
with `"invalid refresh token"`. -/
theorem RefreshToken_succeeds_once (L : Libs) (s : AuthService) (t : String) (w : World)
    (hnf : w.NoFault)
    (hrow : ∃ r ∈ w.refreshTokens, r.Token = t ∧ r.ExpiresAt > (w.nextNow 0).Unix)
    (hown : ∀ r ∈ w.refreshTokens, r.Token = t → ∃ u ∈ w.users, u.ID = r.UserID)
    (hsign : ∀ user ∈ w.users, ∃ tok, L.SignedString s.jwtSecret
      (AuthService.accessClaims user (Time.Add (w.nextNow 1) s.tokenExpiration) (w.nextNow 2))
        = .ok tok)
    (hfresh : ∀ r ∈ w.refreshTokens, r.Token ≠ (w.nextUUID 0).String ∧ r.ID ≠ w.nextUUID 1) :
    ∃ resp w1, s.RefreshToken L ⟨t⟩ w = (.ok resp, w1)
      ∧ (s.RefreshToken L ⟨t⟩ w1).1 = .error "invalid refresh token" := by
  obtain ⟨r0, hr0, hr0t, hr0e⟩ := hrow
  obtain ⟨row, hrow⟩ := gormFirst_isSome RefreshToken.ID
    (fun r => r.Token == t && decide (r.ExpiresAt > (w.nextNow 0).Unix)) w.refreshTokens r0 hr0
    (by simpa [hr0t] using hr0e)
  have hrowp := gormFirst_some _ _ _ _ hrow
  have hrowt : row.Token = t := by
    have := hrowp.2
    simp at this
    exact this.1
  obtain ⟨u0, hu0, hu0id⟩ := hown row hrowp.1 hrowt
  obtain ⟨user, huser⟩ := gormFirst_isSome User.ID (fun u => u.ID == row.UserID) w.users u0 hu0
    (by simp [hu0id])
  have huserp := gormFirst_some _ _ _ _ huser
  obtain ⟨tok, htok⟩ := hsign user huserp.1
  have f0 := hnf w.calls.length (le_refl _)
  have f1 := hnf (w.calls.length + 1) (by omega)
  have f2 := hnf (w.calls.length + 2) (by omega)
  have f3 := hnf (w.calls.length + 3) (by omega)
  have hne : (w.nextUUID 0).String ≠ t := by
    intro h
    exact (hfresh r0 hr0).1 (by rw [h, hr0t])
  have hany : (w.refreshTokens.filter (fun r => !(r.Token == t))).any
      (fun r => r.ID == w.nextUUID 1 || r.Token == (w.nextUUID 0).String) = false := by
    rw [List.any_eq_false]
    intro r hr
    have := hfresh r (List.mem_filter.mp hr).1
    simp [this.1, this.2]
  simp only [World.nextNow, World.nextUUID, Nat.add_zero] at hrow htok hany hne
  generalize hres : s.RefreshToken L ⟨t⟩ w = res
  simp [AuthService.RefreshToken, RefreshTokenRepositoryImpl.Get, timeNow, dbExec, f0, hrow,
      UserRepositoryImpl.GetByID, f1, huser, RefreshTokenRepositoryImpl.Delete, f2,
      AuthService.generateJWT, htok, AuthService.generateRefreshToken, uuidNew, randRead,
      RefreshTokenRepositoryImpl.Store, f3, hany, Nat.add_assoc] at hres
  subst hres
  refine ⟨_, _, rfl, ?_⟩
  rw [RefreshToken_missing]
  intro r hr ht
  simp at hr
  rcases hr with hr | hr
  · exact absurd ht hr.2
  · rw [hr] at ht
    exact absurd ht hne

/-- C1, on `demoStore`: refreshing with `"rt-1"` succeeds, and refreshing with it again
on the store that results is refused. -/
theorem RefreshToken_succeeds_once_witness :
    ∃ resp w1,
      demoService.RefreshToken (demoLibs (demoClaims 1)) ⟨"rt-1"⟩ demoStore = (.ok resp, w1)
        ∧ (demoService.RefreshToken (demoLibs (demoClaims 1)) ⟨"rt-1"⟩ w1).1
            = .error "invalid refresh token" :=
  RefreshToken_succeeds_once (demoLibs (demoClaims 1)) demoService "rt-1" demoStore
    demoStore_noFault (by decide) (by decide)
    (by
      intro user hu
      have hu' : user = demoUser := by simpa [demoStore] using hu
      subst hu'
      exact ⟨"header.payload.hs256-test-secret", by decide⟩)
    (by decide)

/-! ## C2: login does not tell an unknown email from a wrong password -/

/-- C2. When no stored user has the email of the request, or the password of the request
does not verify against the hash of the stored users with that email, `Login` returns
`"invalid credentials"`; it stores no refresh token, leaves the users alone, and its one
repository call is `GetByEmail`. -/
theorem Login_invalid_credentials (L : Libs) (s : AuthService) (req : LoginRequest) (w : World)
    (h : (∀ u ∈ w.users, u.Email ≠ req.Email) ∨
      (∀ u ∈ w.users, u.Email = req.Email →
        L.CompareHashAndPassword u.PasswordHash req.Password = false)) :
    (s.Login L req w).1 = .error "invalid credentials"
      ∧ (s.Login L req w).2.refreshTokens = w.refreshTokens
      ∧ (s.Login L req w).2.users = w.users
      ∧ (s.Login L req w).2.calls = w.calls ++ [.UserGetByEmail req.Email] := by
  have h' : ∀ u ∈ w.users, u.Email = req.Email →
      L.CompareHashAndPassword u.PasswordHash req.Password = false := by
    rcases h with h | h
    · intro u hu he; exact absurd he (h u hu)
    · exact h
  unfold AuthService.Login UserRepositoryImpl.GetByEmail dbExec
  cases hf : w.faults w.calls.length with
  | some e => simp
  | none =>
    simp only []
    cases hg : gormFirst User.ID (fun u => u.Email == req.Email) w.users with
    | none => simp
    | some user =>
      have := gormFirst_some _ _ _ _ hg
      have hc := h' user this.1 (by simpa using this.2)
      simp [hc]

/-- C2, on `demoStore`: an unknown email and the known email with a wrong password
receive the same error. -/
theorem Login_invalid_credentials_witness :
    (demoService.Login (demoLibs (demoClaims 0)) ⟨"nobody@b.com", "secret1"⟩ demoStore).1
        = .error "invalid credentials"
      ∧ (demoService.Login (demoLibs (demoClaims 0)) ⟨"a@b.com", "secret2"⟩ demoStore).1
        = .error "invalid credentials" :=
  ⟨(Login_invalid_credentials (demoLibs (demoClaims 0)) demoService
      ⟨"nobody@b.com", "secret1"⟩ demoStore (Or.inl (by decide))).1,
   (Login_invalid_credentials (demoLibs (demoClaims 0)) demoService
      ⟨"a@b.com", "secret2"⟩ demoStore (Or.inr (by decide))).1⟩

/-! ## C3: an email registers once -/

/-- C3, as amended. When a stored user already holds the email of the request,
`Register` fails and creates no user; the failure is
`"user with this email already exists"` for a request that passes field validation,
when the existence query meets no storage fault. Registering twice with one request:
after a `Register` that succeeded, the same request is refused with that error and the
store holds exactly one user with the email. -/
theorem Register_duplicate_email (L : Libs) (s : AuthService) (req : RegisterRequest)
    (w : World) :
    ((∃ u ∈ w.users, u.Email = req.Email) →
        (∃ err, (s.Register L req w).1 = .error err)
          ∧ (s.Register L req w).2.users = w.users
          ∧ (IsValidEmail req.Email = true → IsValidPassword req.Password = true →
              IsValidRole req.Role = true → w.faults w.calls.length = none →
              (s.Register L req w).1 = .error "user with this email already exists"))
      ∧ (∀ user w1, s.Register L req w = (.ok user, w1) →
          w1.faults w1.calls.length = none →
          (s.Register L req w1).1 = .error "user with this email already exists"
            ∧ (s.Register L req w1).2.users = w1.users
            ∧ (w1.users.filter (fun u => u.Email == req.Email)).length = 1) := by
  have hdup : ∀ w' : World, (∃ u ∈ w'.users, u.Email = req.Email) →
      (∃ err, (s.Register L req w').1 = .error err)
        ∧ (s.Register L req w').2.users = w'.users
        ∧ (IsValidEmail req.Email = true → IsValidPassword req.Password = true →
            IsValidRole req.Role = true → w'.faults w'.calls.length = none →
            (s.Register L req w').1 = .error "user with this email already exists") := by
    intro w' hex
    obtain ⟨u, hu, hue⟩ := hex
    have hpos : 0 < (w'.users.filter (fun u => u.Email == req.Email)).length := by
      apply List.length_pos_of_mem (a := u)
      exact List.mem_filter.mpr ⟨hu, by simp [hue]⟩
    unfold AuthService.Register UserRepositoryImpl.ExistsByEmail dbExec
    by_cases h1 : IsValidEmail req.Email = true
    · by_cases h2 : IsValidPassword req.Password = true
      · by_cases h3 : IsValidRole req.Role = true
        · cases hf : w'.faults w'.calls.length with
          | some e => simp [h1, h2, h3]
          | none => simp [h1, h2, h3, hpos]
        · simp [h1, h2, h3]
      · simp [h1, h2]
    · simp [h1]
  refine ⟨hdup w, ?_⟩
  intro user w1 hreg hf1
  have h1 : IsValidEmail req.Email = true := by
    by_contra hc
    simp [AuthService.Register, hc] at hreg
  have h2 : IsValidPassword req.Password = true := by
    by_contra hc
    simp [AuthService.Register, h1, hc] at hreg
  have h3 : IsValidRole req.Role = true := by
    by_contra hc
    simp [AuthService.Register, h1, h2, hc] at hreg
  have hcount : (w.users.filter (fun u => u.Email == req.Email)).length = 0
      ∧ w1.users = w.users ++ [user] ∧ user.Email = req.Email := by
    simp only [AuthService.Register, h1, h2, h3, UserRepositoryImpl.ExistsByEmail, dbExec,
      randRead, uuidNew, timeNow, UserRepositoryImpl.Create] at hreg
    cases hf : w.faults w.calls.length with
    | some e => simp [hf] at hreg
    | none =>
      by_cases hc : 0 < (w.users.filter (fun u => u.Email == req.Email)).length
      · simp [hf, hc] at hreg
      · cases hh : L.GenerateFromPassword req.Password (w.rand w.draws) with
        | error e => simp [hf, hc, hh] at hreg
        | ok hashed =>
          cases hf' : w.faults (w.calls.length + 1) with
          | some e => simp [hf, hc, hh, hf'] at hreg
          | none =>
            simp [hf, hc, hh, hf'] at hreg
            split_ifs at hreg with hd
            · simp at hreg
            · simp at hreg
              obtain ⟨hu, hw⟩ := hreg
              subst hw
              subst hu
              exact ⟨by omega, by simp, rfl⟩
  obtain ⟨hzero, hw1, hue⟩ := hcount
  have hex : ∃ u ∈ w1.users, u.Email = req.Email := ⟨user, by simp [hw1], hue⟩
  have := hdup w1 hex
  refine ⟨this.2.2 h1 h2 h3 hf1, this.2.1, ?_⟩
  rw [hw1, List.filter_append, List.length_append, hzero]
  simp [hue]

/-- C3, on `demoEmpty` and `demoStore`: the request registers once, and repeated on the
resulting store it is refused and one user holds the email; on `demoStore`, where
`demoUser` holds the email, the request is refused as well. -/
theorem Register_duplicate_email_witness :
    ((demoService.Register (demoLibs (demoClaims 2)) demoRegister
        (demoService.Register (demoLibs (demoClaims 2)) demoRegister demoEmpty).2).1
        = .error "user with this email already exists"
      ∧ (demoService.Register (demoLibs (demoClaims 2)) demoRegister
          (demoService.Register (demoLibs (demoClaims 2)) demoRegister demoEmpty).2).2.users
        = (demoService.Register (demoLibs (demoClaims 2)) demoRegister demoEmpty).2.users
      ∧ ((demoService.Register (demoLibs (demoClaims 2)) demoRegister demoEmpty).2.users.filter
          (fun u => u.Email == demoRegister.Email)).length = 1)
      ∧ (demoService.Register (demoLibs (demoClaims 2)) demoRegister demoStore).1
        = .error "user with this email already exists" :=
  ⟨(Register_duplicate_email (demoLibs (demoClaims 2)) demoService demoRegister demoEmpty).2
      demoUser (demoService.Register (demoLibs (demoClaims 2)) demoRegister demoEmpty).2
      rfl rfl,
   ((Register_duplicate_email (demoLibs (demoClaims 2)) demoService demoRegister demoStore).1
      (by decide)).2.2 (by decide) (by decide) (by decide) rfl⟩

/-- C3 as first stated fails: `demoUser` holds `"a@b.com"`, yet a request with that email
and a five-byte password is refused for its password, not as a duplicate. -/
theorem Register_duplicate_email_counterexample :
    (∃ u ∈ demoStore.users, u.Email = "a@b.com")
      ∧ (demoService.Register (demoLibs (demoClaims 0)) ⟨"a@b.com", "short", "A", "candidate"⟩
          demoStore).1 = .error "password must be at least 6 characters long"
      ∧ (demoService.Register (demoLibs (demoClaims 0)) ⟨"a@b.com", "short", "A", "candidate"⟩
          demoStore).1 ≠ .error "user with this email already exists" := by
  decide

/-! ## C4: field validation comes before the store -/

/-- C4. A register request whose email fails the format check, or whose password has
fewer than 6 bytes, or whose role is neither `"admin"` nor `"candidate"`, makes
`Register` return one of the three validation errors and hand back the world as it
received it: no repository call is recorded and no table has changed. -/
theorem Register_validates_first (L : Libs) (s : AuthService) (req : RegisterRequest)
    (w : World)
    (h : IsValidEmail req.Email = false ∨ req.Password.utf8ByteSize < 6 ∨
      (req.Role ≠ "admin" ∧ req.Role ≠ "candidate")) :
    ∃ err, s.Register L req w = (.error err, w)
      ∧ err ∈ ["invalid email format", "password must be at least 6 characters long",
          "invalid role"] := by
  unfold AuthService.Register
  by_cases h1 : IsValidEmail req.Email = true
  · by_cases h2 : IsValidPassword req.Password = true
    · have h3 : IsValidRole req.Role = false := by
        rcases h with h | h | h
        · rw [h] at h1; cases h1
        · simp [IsValidPassword] at h2; omega
        · simp [IsValidRole, h.1, h.2]
      exact ⟨"invalid role", by simp [h1, h2, h3], by simp⟩
    · exact ⟨"password must be at least 6 characters long", by simp [h1, h2], by simp⟩
  · exact ⟨"invalid email format", by simp [h1], by simp⟩

/-- C4, on `demoStore`: a five-byte password is refused and the world comes back as it
was. -/
theorem Register_validates_first_witness :
    ∃ err, demoService.Register (demoLibs (demoClaims 0))
        ⟨"c@d.org", "short", "C", "admin"⟩ demoStore = (.error err, demoStore)
      ∧ err ∈ ["invalid email format", "password must be at least 6 characters long",
          "invalid role"] :=
  Register_validates_first (demoLibs (demoClaims 0)) demoService
    ⟨"c@d.org", "short", "C", "admin"⟩ demoStore (Or.inr (Or.inl (by decide)))

/-! ## C5: register, then log in with the same credentials -/

/-- C7. For a stored user, the only one with its email, and a login request with that
email and a password that verifies against the stored hash, provided no storage fault
occurs, the token library signs the access claims, and the generated refresh token and
row id are not already taken: `Login` returns no error, a non-empty access token, a
non-empty refresh token and the summary of that user; it adds exactly one refresh-token
row, owned by the user's id and holding the returned refresh token. -/
theorem Login_success (L : Libs) (s : AuthService) (req : LoginRequest) (w : World)
    (user : User)
    (hu : user ∈ w.users) (he : req.Email = user.Email)
    (huniq : ∀ u ∈ w.users, u.Email = user.Email → u = user)
    (hpw : L.CompareHashAndPassword user.PasswordHash req.Password = true)
    (hnf : w.NoFault)
    (hsign : ∃ tok, L.SignedString s.jwtSecret
      (AuthService.accessClaims user (Time.Add (w.nextNow 0) s.tokenExpiration) (w.nextNow 1))
        = .ok tok)
    (hfresh : ∀ r ∈ w.refreshTokens, r.Token ≠ (w.nextUUID 0).String ∧ r.ID ≠ w.nextUUID 1) :
    ∃ resp w1, s.Login L req w = (.ok resp, w1)
      ∧ resp.Token ≠ "" ∧ resp.RefreshToken ≠ ""
      ∧ resp.User = { ID := user.ID, Email := user.Email, Name := user.Name, Role := user.Role }
      ∧ (∃ row, w1.refreshTokens = w.refreshTokens ++ [row]
          ∧ row.UserID = user.ID ∧ row.Token = resp.RefreshToken)
      ∧ w1.users = w.users := by
  obtain ⟨found, hfound⟩ := gormFirst_isSome User.ID (fun u => u.Email == req.Email) w.users
    user hu (by simp [he])
  have hfp := gormFirst_some _ _ _ _ hfound
  have hfu : found = user := huniq found hfp.1 (by
    have := hfp.2
    simp at this
    rw [this, he])
  subst hfu
  obtain ⟨tok, htok⟩ := hsign
  exact ⟨_, _, Login_ok L s req w found tok hfound hpw (hnf _ (le_refl _)) (hnf _ (by omega))
    htok hfresh, SignedString_ne_empty L _ _ _ htok, UUID_String_ne_empty _, rfl,
    ⟨_, rfl, rfl, rfl⟩, rfl⟩

/-- C7, on `demoStore`: `demoUser` logs in with `"secret1"`. -/
theorem Login_success_witness :
    ∃ resp w1, demoService.Login (demoLibs (demoClaims 0)) ⟨"a@b.com", "secret1"⟩ demoStore
        = (.ok resp, w1)
      ∧ resp.Token ≠ "" ∧ resp.RefreshToken ≠ ""
      ∧ resp.User = { ID := demoUser.ID, Email := demoUser.Email, Name := demoUser.Name,
                      Role := demoUser.Role }
      ∧ (∃ row, w1.refreshTokens = demoStore.refreshTokens ++ [row]
          ∧ row.UserID = demoUser.ID ∧ row.Token = resp.RefreshToken)
      ∧ w1.users = demoStore.users :=
  Login_success (demoLibs (demoClaims 0)) demoService ⟨"a@b.com", "secret1"⟩ demoStore demoUser
    (by decide) (by decide) (by decide) (by decide) demoStore_noFault
    ⟨"header.payload.hs256-test-secret", by decide⟩ (by decide)

/-! ## C8: what a successful registration returns -/

/-- C8. For a register request that passes field validation, whose email no stored user
holds, whose password the hasher accepts, and whose `ExistsByEmail` and `Create` succeed
(no storage fault, and the generated id is not taken), `Register` returns no error and a
user carrying the email, name and role of the request; that user is the argument of the
`Create` call and the one row added to `users`; the refresh-token table is untouched. -/
theorem Register_returns_created_user (L : Libs) (s : AuthService) (req : RegisterRequest)
    (w : World) (hashed : String)
    (h1 : IsValidEmail req.Email = true) (h2 : IsValidPassword req.Password = true)
    (h3 : IsValidRole req.Role = true)
    (hnew : ∀ u ∈ w.users, u.Email ≠ req.Email)
    (hhash : L.GenerateFromPassword req.Password (w.rand w.draws) = .ok hashed)
    (hnf : w.NoFault)
    (hid : ∀ u ∈ w.users, u.ID ≠ w.nextUUID 1) :
    ∃ user w1, s.Register L req w = (.ok user, w1)
      ∧ user.Email = req.Email ∧ user.Name = req.Name ∧ user.Role = req.Role
      ∧ w1.calls = w.calls ++ [.UserExistsByEmail req.Email, .UserCreate user]
      ∧ w1.users = w.users ++ [user]
      ∧ w1.refreshTokens = w.refreshTokens := by
  refine ⟨_, _, Register_ok L s req w hashed h1 h2 h3 hnew (hnf _ (le_refl _))
    (hnf _ (by omega)) hhash hid, rfl, rfl, rfl, rfl, rfl, rfl⟩

/-- C8, on `demoEmpty`: the request of the specification registers `demoUser`. -/
theorem Register_returns_created_user_witness :
    ∃ user w1, demoService.Register (demoLibs (demoClaims 2)) demoRegister demoEmpty
        = (.ok user, w1)
      ∧ user.Email = "a@b.com" ∧ user.Name = "A" ∧ user.Role = "candidate"
      ∧ w1.calls = demoEmpty.calls ++ [.UserExistsByEmail "a@b.com", .UserCreate user]
      ∧ w1.users = demoEmpty.users ++ [user]
      ∧ w1.refreshTokens = demoEmpty.refreshTokens :=
  Register_returns_created_user (demoLibs (demoClaims 2)) demoService demoRegister demoEmpty
    "$2a$10$secret1" (by decide) (by decide) (by decide) (by decide) (by decide)
    demoEmpty_noFault (by decide)

/-! ## C9: the presented refresh token is burned before the replacements are issued -/

theorem generateJWT_refreshTokens (L : Libs) (s : AuthService) (user : User) (w : World) :
    (s.generateJWT L user w).2.refreshTokens = w.refreshTokens := by
  cases h : L.SignedString s.jwtSecret (AuthService.accessClaims user
    (Time.Add (w.clock w.ticks) s.tokenExpiration) (w.clock (w.ticks + 1))) <;>
    simp [AuthService.generateJWT, timeNow, h]

theorem generateRefreshToken_error_refreshTokens (s : AuthService) (userID : UUID) (w : World)
    (err : String) (h : (s.generateRefreshToken userID w).1 = .error err) :
    (s.generateRefreshToken userID w).2.refreshTokens = w.refreshTokens := by
  simp only [AuthService.generateRefreshToken, RefreshTokenRepositoryImpl.Store, uuidNew,
    randRead, timeNow, dbExec] at h ⊢
  cases hf : w.faults w.calls.length with
  | some e => simp
  | none =>
    simp only [hf] at h ⊢
    split_ifs at h ⊢ with hc
    rfl

/-- C9. In a `RefreshToken` whose token lookup, user load and deletion of the presented
token have succeeded, if issuing the access token fails or persisting the replacement
refresh token fails, then `RefreshToken` returns an error and no row of the refresh-token
table holds the presented token. -/
theorem RefreshToken_burns_presented_token (L : Libs) (s : AuthService) (t : String)
    (w : World) (userID : UUID) (w1 : World) (user : User) (w2 w3 : World)
    (hget : RefreshTokenRepositoryImpl.Get t w = (.ok userID, w1))
    (huser : UserRepositoryImpl.GetByID userID w1 = (.ok user, w2))
    (hdel : RefreshTokenRepositoryImpl.Delete t w2 = (.ok (), w3))
    (hfail : (∃ err, (s.generateJWT L user w3).1 = .error err)
      ∨ (∃ err, (s.generateRefreshToken user.ID (s.generateJWT L user w3).2).1 = .error err)) :
    (∃ err, (s.RefreshToken L ⟨t⟩ w).1 = .error err)
      ∧ ∀ r ∈ (s.RefreshToken L ⟨t⟩ w).2.refreshTokens, r.Token ≠ t := by
  have hgone : ∀ r ∈ w3.refreshTokens, r.Token ≠ t := by
    simp only [RefreshTokenRepositoryImpl.Delete, dbExec] at hdel
    cases hf : w2.faults w2.calls.length with
    | some e => simp [hf] at hdel
    | none =>
      simp [hf] at hdel
      subst hdel
      intro r hr
      simp at hr
      exact hr.2
  have hjwt := generateJWT_refreshTokens L s user w3
  simp only [AuthService.RefreshToken, hget, huser, hdel]
  cases hj : s.generateJWT L user w3 with
  | mk rj w4 =>
    rw [hj] at hjwt hfail
    simp only [] at hjwt hfail
    cases rj with
    | error e =>
      refine ⟨⟨e, rfl⟩, ?_⟩
      simp only []
      rw [hjwt]
      exact hgone
    | ok pair =>
      obtain ⟨tok, exp⟩ := pair
      rcases hfail with ⟨e, he⟩ | ⟨e, he⟩
      · cases he
      · have hkeep := generateRefreshToken_error_refreshTokens s user.ID w4 e he
        cases hg : s.generateRefreshToken user.ID w4 with
        | mk rg w5 =>
          rw [hg] at he hkeep
          simp only [] at he hkeep
          subst he
          simp only [hg]
          refine ⟨⟨e, rfl⟩, ?_⟩
          rw [hkeep, hjwt]
          exact hgone

/-- C9, on `faultyStore`: the insert of the replacement token meets a storage fault;
`RefreshToken` returns an error and `"rt-1"` is gone from the table. -/
theorem RefreshToken_burns_presented_token_witness :
    (∃ err, (demoService.RefreshToken (demoLibs (demoClaims 1)) ⟨"rt-1"⟩ faultyStore).1
        = .error err)
      ∧ ∀ r ∈ (demoService.RefreshToken (demoLibs (demoClaims 1)) ⟨"rt-1"⟩
          faultyStore).2.refreshTokens, r.Token ≠ "rt-1" :=
  RefreshToken_burns_presented_token (demoLibs (demoClaims 1)) demoService "rt-1" faultyStore
    ⟨1001⟩ (RefreshTokenRepositoryImpl.Get "rt-1" faultyStore).2
    demoUser
    (UserRepositoryImpl.GetByID ⟨1001⟩ (RefreshTokenRepositoryImpl.Get "rt-1" faultyStore).2).2
    (RefreshTokenRepositoryImpl.Delete "rt-1"
      (UserRepositoryImpl.GetByID ⟨1001⟩
        (RefreshTokenRepositoryImpl.Get "rt-1" faultyStore).2).2).2
    rfl rfl rfl (Or.inr ⟨"connection refused", by decide⟩)

/-! ## C10: expiry is checked when the token is read -/

/-- C10. `Get` returns a user id only when the store holds a row with that token whose
`expires_at` is greater than the second at which the clock is read, and the id is that
row's owner. When every row with the token has `expires_at <= now` (equality included),
`Get` returns an error and `RefreshToken` fails with `"invalid refresh token"`. -/
theorem Get_filters_on_expiry (L : Libs) (s : AuthService) (t : String) (w : World) :
    (∀ uid, (RefreshTokenRepositoryImpl.Get t w).1 = .ok uid →
        ∃ r ∈ w.refreshTokens, r.Token = t ∧ r.ExpiresAt > (w.nextNow 0).Unix ∧ r.UserID = uid)
      ∧ ((∀ r ∈ w.refreshTokens, r.Token = t → r.ExpiresAt ≤ (w.nextNow 0).Unix) →
          (∃ err, (RefreshTokenRepositoryImpl.Get t w).1 = .error err)
            ∧ (s.RefreshToken L ⟨t⟩ w).1 = .error "invalid refresh token") := by
  constructor
  · intro uid h
    simp only [RefreshTokenRepositoryImpl.Get, timeNow, dbExec] at h
    cases hf : w.faults w.calls.length with
    | some e => simp [hf] at h
    | none =>
      cases hg : gormFirst RefreshToken.ID
          (fun r => r.Token == t && decide (r.ExpiresAt > (w.clock w.ticks).Unix))
          w.refreshTokens with
      | none => simp [hf, hg] at h
      | some row =>
        simp [hf, hg] at h
        have hp := gormFirst_some _ _ _ _ hg
        have h2 := hp.2
        simp at h2
        exact ⟨row, hp.1, h2.1, by simpa [World.nextNow] using h2.2, h⟩
  · intro h
    obtain ⟨e, he⟩ := Get_missing t w h
    exact ⟨⟨e, by rw [he]⟩, by rw [RefreshToken_missing L s t w h]⟩

/-- C10, on `expiredStore`: the row with `expires_at = now` does not authenticate. -/
theorem Get_filters_on_expiry_witness :
    (∀ r ∈ expiredStore.refreshTokens, r.Token = "rt-1" →
        r.ExpiresAt ≤ (expiredStore.nextNow 0).Unix)
      ∧ (demoService.RefreshToken (demoLibs (demoClaims 1)) ⟨"rt-1"⟩ expiredStore).1
          = .error "invalid refresh token" :=
  ⟨by decide,
   ((Get_filters_on_expiry (demoLibs (demoClaims 1)) demoService "rt-1" expiredStore).2
      (by decide)).2⟩

/-! ## A change of password, when it succeeds -/

theorem ChangePassword_ok_inv (L : Libs) (s : AuthService) (userID : UUID)
    (req : ChangePasswordRequest) (w w1 : World)
    (h : s.ChangePassword L userID req w = (.ok (), w1)) :
    ∃ user hashed,
      gormFirst User.ID (fun u => u.ID == userID) w.users = some user
      ∧ L.CompareHashAndPassword user.PasswordHash req.CurrentPassword = true
      ∧ IsValidPassword req.NewPassword = true
      ∧ L.GenerateFromPassword req.NewPassword (w.rand w.draws) = .ok hashed
      ∧ w1 = { w with
          users := w.users.map (fun u => if u.ID == user.ID then
            { user with PasswordHash := hashed, UpdatedAt := w.nextNow 1 } else u)
          calls := w.calls ++ [.UserGetByID userID,
            .UserUpdate { user with PasswordHash := hashed, UpdatedAt := w.nextNow 0 }]
          ticks := w.ticks + 2
          draws := w.draws + 1 } := by
  simp only [AuthService.ChangePassword, UserRepositoryImpl.GetByID, dbExec] at h
  cases hf : w.faults w.calls.length with
  | some e => simp [hf] at h
  | none =>
    cases hg : gormFirst User.ID (fun u => u.ID == userID) w.users with
    | none => simp [hf, hg] at h
    | some user =>
      cases hc : L.CompareHashAndPassword user.PasswordHash req.CurrentPassword with
      | false => simp [hf, hg, hc] at h
      | true =>
        cases hv : IsValidPassword req.NewPassword with
        | false => simp [hf, hg, hc, hv] at h
        | true =>
          cases hh : L.GenerateFromPassword req.NewPassword (w.rand w.draws) with
          | error e => simp [hf, hg, hc, hv, randRead, hh] at h
          | ok hashed =>
            refine ⟨user, hashed, rfl, hc, rfl, rfl, ?_⟩
            have hmem := (gormFirst_some _ _ _ _ hg).1
            cases hf1 : w.faults (w.calls.length + 1) with
            | some e =>
              simp [hf, hg, hc, hv, randRead, hh, timeNow, UserRepositoryImpl.Update, dbExec,
                hf1] at h
            | none =>
              simp [hf, hg, hc, hv, randRead, hh, timeNow, UserRepositoryImpl.Update, dbExec,
                hf1] at h
              split_ifs at h with h1 h2
              · simp at h
              · simp at h
                rw [← h]
                simp [World.nextNow]
              · exact absurd ⟨user, hmem, rfl⟩ h2

/-! ## What a login and a lookup depend on -/

theorem Login_rejects (L : Libs) (s : AuthService) (req : LoginRequest) (w : World)
    (h : ∀ u ∈ w.users, u.Email = req.Email →
      L.CompareHashAndPassword u.PasswordHash req.Password = false) :
    (s.Login L req w).1 = .error "invalid credentials" := by
  unfold AuthService.Login UserRepositoryImpl.GetByEmail dbExec
  cases hf : w.faults w.calls.length with
  | some e => simp
  | none =>
    simp only []
    cases hg : gormFirst User.ID (fun u => u.Email == req.Email) w.users with
    | none => simp
    | some user =>
      have := gormFirst_some _ _ _ _ hg
      have hc := h user this.1 (by simpa using this.2)
      simp [hc]

theorem gormFirst_token_rows (t : String) (now : Int) (rows rows' : List RefreshToken)
    (h : rows.filter (fun r => r.Token == t) = rows'.filter (fun r => r.Token == t)) :
    gormFirst RefreshToken.ID (fun r => r.Token == t && decide (r.ExpiresAt > now)) rows
      = gormFirst RefreshToken.ID (fun r => r.Token == t && decide (r.ExpiresAt > now)) rows' := by
  have hsplit : ∀ l : List RefreshToken,
      l.filter (fun r => r.Token == t && decide (r.ExpiresAt > now))
        = (l.filter (fun r => r.Token == t)).filter (fun r => decide (r.ExpiresAt > now)) := by
    intro l
    rw [List.filter_filter]
    apply List.filter_congr
    intro x _
    exact Bool.and_comm _ _
  unfold gormFirst
  rw [hsplit rows, hsplit rows', h]

theorem Get_congr_rows (t : String) (wa wb : World)
    (hrows : wa.refreshTokens.filter (fun r => r.Token == t)
      = wb.refreshTokens.filter (fun r => r.Token == t))
    (hnow : wa.nextNow 0 = wb.nextNow 0)
    (hfault : wa.faults wa.calls.length = wb.faults wb.calls.length) :
    (RefreshTokenRepositoryImpl.Get t wa).1 = (RefreshTokenRepositoryImpl.Get t wb).1 := by
  simp only [World.nextNow, Nat.add_zero] at hnow
  have hg := gormFirst_token_rows t (wb.clock wb.ticks).Unix _ _ hrows
  simp only [RefreshTokenRepositoryImpl.Get, timeNow, dbExec, hnow, hfault]
  cases wb.faults wb.calls.length with
  | some e => rfl
  | none =>
    simp only []
    rw [hg]
    cases gormFirst RefreshToken.ID
      (fun r => r.Token == t && decide (r.ExpiresAt > (wb.clock wb.ticks).Unix))
      wb.refreshTokens <;> rfl

theorem Get_congr (t : String) (wa wb : World)
    (hrows : wa.refreshTokens = wb.refreshTokens)
    (hnow : wa.nextNow 0 = wb.nextNow 0)
    (hfault : wa.faults wa.calls.length = wb.faults wb.calls.length) :
    (RefreshTokenRepositoryImpl.Get t wa).1 = (RefreshTokenRepositoryImpl.Get t wb).1 :=
  Get_congr_rows t wa wb (by rw [hrows]) hnow hfault

theorem Get_ok_row (t : String) (w : World) (uid : UUID)
    (h : (RefreshTokenRepositoryImpl.Get t w).1 = .ok uid) :
    ∃ r ∈ w.refreshTokens, r.Token = t ∧ r.UserID = uid := by
  simp only [RefreshTokenRepositoryImpl.Get, timeNow, dbExec] at h
  cases hf : w.faults w.calls.length with
  | some e => simp [hf] at h
  | none =>
    cases hg : gormFirst RefreshToken.ID
        (fun r => r.Token == t && decide (r.ExpiresAt > (w.clock w.ticks).Unix))
        w.refreshTokens with
    | none => simp [hf, hg] at h
    | some row =>
      simp [hf, hg] at h
      have hp := gormFirst_some _ _ _ _ hg
      have h2 := hp.2
      simp at h2
      exact ⟨row, hp.1, h2.1, h⟩

/-! ## Truncation to the second, and what `generateJWT` signs -/

theorem NewNumericDate_bounds (t : Time) :
    NewNumericDate t ≤ t ∧ t < NewNumericDate t + Second := by
  have h : ∀ x : Int, x - x % 1000000000 ≤ x ∧ x < x - x % 1000000000 + 1000000000 := by
    intro x; omega
  exact h t

theorem NewNumericDate_add_day (t : Time) :
    NewNumericDate (t + 24 * Hour) = NewNumericDate t + 24 * Hour := by
  have h : ∀ x : Int, (x + 24 * (3600 * 1000000000)) - (x + 24 * (3600 * 1000000000)) % 1000000000
      = x - x % 1000000000 + 24 * (3600 * 1000000000) := by
    intro x; omega
  exact h t

theorem NewNumericDate_whole (t : Time) (h : t % Second = 0) : NewNumericDate t = t := by
  have h' : ∀ x : Int, x % 1000000000 = 0 → x - x % 1000000000 = x := by
    intro x hx; omega
  exact h' t h

theorem generateJWT_ok_inv (L : Libs) (s : AuthService) (user : User) (w : World)
    (tok : String) (expiresAt : Time)
    (h : (s.generateJWT L user w).1 = .ok (tok, expiresAt)) :
    expiresAt = Time.Add (w.nextNow 0) s.tokenExpiration
      ∧ L.SignedString s.jwtSecret
          (AuthService.accessClaims user expiresAt (w.nextNow 1)) = .ok tok := by
  simp only [AuthService.generateJWT, timeNow, World.nextNow, Nat.add_zero] at h ⊢
  cases hs : L.SignedString s.jwtSecret (AuthService.accessClaims user
      (Time.Add (w.clock w.ticks) s.tokenExpiration) (w.clock (w.ticks + 1))) with
  | error e => simp [hs] at h
  | ok tok' =>
    simp [hs] at h
    obtain ⟨htok, hexp⟩ := h
    subst htok
    subst hexp
    exact ⟨rfl, hs⟩

/-! ## C11: a wrong current password changes nothing -/

/-- C11. For a stored user whose hash does not verify the `CurrentPassword` of the
request, `ChangePassword` makes one repository call, `GetByID`, and so never calls
`Update`; the user table and the refresh-token table are unchanged; and, when that
`GetByID` meets no storage fault, the error is `"current password is incorrect"`. -/
theorem ChangePassword_wrong_current (L : Libs) (s : AuthService) (userID : UUID)
    (req : ChangePasswordRequest) (w : World)
    (hstored : ∃ u ∈ w.users, u.ID = userID)
    (hwrong : ∀ u ∈ w.users, u.ID = userID →
      L.CompareHashAndPassword u.PasswordHash req.CurrentPassword = false) :
    (w.faults w.calls.length = none →
        (s.ChangePassword L userID req w).1 = .error "current password is incorrect")
      ∧ (s.ChangePassword L userID req w).2.calls = w.calls ++ [.UserGetByID userID]
      ∧ (s.ChangePassword L userID req w).2.users = w.users
      ∧ (s.ChangePassword L userID req w).2.refreshTokens = w.refreshTokens := by
  obtain ⟨u0, hu0, hu0id⟩ := hstored
  obtain ⟨user, huser⟩ := gormFirst_isSome User.ID (fun u => u.ID == userID) w.users u0 hu0
    (by simp [hu0id])
  have hp := gormFirst_some _ _ _ _ huser
  have hc := hwrong user hp.1 (by simpa using hp.2)
  unfold AuthService.ChangePassword UserRepositoryImpl.GetByID dbExec
  cases hf : w.faults w.calls.length with
  | some e => simp
  | none => simp [huser, hc]

/-- C11, on `demoStore`: `demoUser` presents `"guess99"` as current password. -/
theorem ChangePassword_wrong_current_witness :
    (demoService.ChangePassword (demoLibs (demoClaims 0)) ⟨1001⟩ ⟨"guess99", "secret2"⟩
        demoStore).1 = .error "current password is incorrect"
      ∧ (demoService.ChangePassword (demoLibs (demoClaims 0)) ⟨1001⟩ ⟨"guess99", "secret2"⟩
          demoStore).2.users = demoStore.users :=
  ⟨(ChangePassword_wrong_current (demoLibs (demoClaims 0)) demoService ⟨1001⟩
      ⟨"guess99", "secret2"⟩ demoStore (by decide) (by decide)).1 rfl,
   (ChangePassword_wrong_current (demoLibs (demoClaims 0)) demoService ⟨1001⟩
      ⟨"guess99", "secret2"⟩ demoStore (by decide) (by decide)).2.2.1⟩

/-! ## C12: after a change of password only the new one logs in -/

/-- C12. After a `ChangePassword` that succeeded for the stored user with id `userID`
(the only row with that primary key and with its email), provided the hash generated
from the new password verifies the new password and not the old one, and the following
`Login` meets no storage fault, has its access claims signed, and generates a refresh
token and row id not already taken: `Login` with the user's email and the new password
succeeds, for that user, and `Login` with the email and the old password fails with
`"invalid credentials"`. -/
theorem ChangePassword_then_Login (L : Libs) (s : AuthService) (userID : UUID)
    (req : ChangePasswordRequest) (w w1 : World) (user : User)
    (hcp : s.ChangePassword L userID req w = (.ok (), w1))
    (hu : user ∈ w.users) (hid : user.ID = userID)
    (huid : ∀ x ∈ w.users, x.ID = userID → x = user)
    (huem : ∀ x ∈ w.users, x.Email = user.Email → x = user)
    (hlib : ∀ hashed, L.GenerateFromPassword req.NewPassword (w.rand w.draws) = .ok hashed →
      L.CompareHashAndPassword hashed req.NewPassword = true
        ∧ L.CompareHashAndPassword hashed req.CurrentPassword = false)
    (hnf : w1.NoFault)
    (hsign : ∃ tok, L.SignedString s.jwtSecret
      (AuthService.accessClaims user (Time.Add (w1.nextNow 0) s.tokenExpiration) (w1.nextNow 1))
        = .ok tok)
    (hfresh : ∀ r ∈ w1.refreshTokens,
      r.Token ≠ (w1.nextUUID 0).String ∧ r.ID ≠ w1.nextUUID 1) :
    (∃ resp w2, s.Login L ⟨user.Email, req.NewPassword⟩ w1 = (.ok resp, w2)
        ∧ resp.User = { ID := user.ID, Email := user.Email, Name := user.Name,
                        Role := user.Role })
      ∧ (s.Login L ⟨user.Email, req.CurrentPassword⟩ w1).1 = .error "invalid credentials" := by
  obtain ⟨found, hashed, hfound, _, _, hhash, hw1⟩ :=
    ChangePassword_ok_inv L s userID req w w1 hcp
  have hp := gormFirst_some _ _ _ _ hfound
  have hfu : found = user := huid found hp.1 (by simpa using hp.2)
  subst hfu
  obtain ⟨hnew, hold⟩ := hlib hashed hhash
  obtain ⟨tok, htok⟩ := hsign
  have husers : w1.users = w.users.map (fun x => if x.ID == found.ID then
      { found with PasswordHash := hashed, UpdatedAt := w.nextNow 1 } else x) := by
    rw [hw1]
  have hrows : ∀ x ∈ w1.users, x.Email = found.Email →
      x = { found with PasswordHash := hashed, UpdatedAt := w.nextNow 1 } := by
    intro x hx hxe
    rw [husers, List.mem_map] at hx
    obtain ⟨y, hy, hyx⟩ := hx
    by_cases hyid : y.ID = found.ID
    · simp [hyid] at hyx
      exact hyx.symm
    · simp [hyid] at hyx
      subst hyx
      exact absurd (congrArg User.ID (huem y hy hxe)) hyid
  have hin : ({ found with PasswordHash := hashed, UpdatedAt := w.nextNow 1 } : User)
      ∈ w1.users := by
    rw [husers, List.mem_map]
    exact ⟨found, hu, by simp⟩
  constructor
  · obtain ⟨got, hgot⟩ := gormFirst_isSome User.ID (fun u => u.Email == found.Email) w1.users
      _ hin (by simp)
    have hgp := gormFirst_some _ _ _ _ hgot
    have hge := hrows got hgp.1 (by simpa using hgp.2)
    rw [hge] at hgot
    exact ⟨_, _, Login_ok L s ⟨found.Email, req.NewPassword⟩ w1 _ tok hgot hnew
      (hnf _ (le_refl _)) (hnf _ (by omega)) htok hfresh, rfl⟩
  · apply Login_rejects
    intro x hx hxe
    rw [hrows x hx hxe]
    exact hold

/-- C12, on `demoStore`: after `demoUser` changed `"secret1"` into `"secret2"`, the login
with `"secret2"` succeeds and the login with `"secret1"` is refused. -/
theorem ChangePassword_then_Login_witness :
    (∃ resp w2, demoService.Login (demoLibs (demoClaims 2)) ⟨"a@b.com", "secret2"⟩
        (demoService.ChangePassword (demoLibs (demoClaims 2)) ⟨1001⟩ ⟨"secret1", "secret2"⟩
          demoStore).2 = (.ok resp, w2)
        ∧ resp.User = { ID := ⟨1001⟩, Email := "a@b.com", Name := "A", Role := "candidate" })
      ∧ (demoService.Login (demoLibs (demoClaims 2)) ⟨"a@b.com", "secret1"⟩
        (demoService.ChangePassword (demoLibs (demoClaims 2)) ⟨1001⟩ ⟨"secret1", "secret2"⟩
          demoStore).2).1 = .error "invalid credentials" :=
  ChangePassword_then_Login (demoLibs (demoClaims 2)) demoService ⟨1001⟩
    ⟨"secret1", "secret2"⟩ demoStore
    (demoService.ChangePassword (demoLibs (demoClaims 2)) ⟨1001⟩ ⟨"secret1", "secret2"⟩
      demoStore).2
    demoUser rfl (by decide) rfl (by decide) (by decide)
    (by
      intro hashed hh
      have hgen : (demoLibs (demoClaims 2)).GenerateFromPassword "secret2"
          (demoStore.rand demoStore.draws) = .ok "$2a$10$secret2" := by decide
      have heq : hashed = "$2a$10$secret2" :=
        (Except.ok.inj (hh.symm.trans hgen))
      subst heq
      decide)
    (fun _ _ => rfl) ⟨"header.payload.hs256-test-secret", by decide⟩ (by decide)

/-! ## C13: logout deletes the refresh tokens of one user -/

/-- C13. When no storage fault occurs, `Logout(u)` returns no error and the refresh-token
table afterwards holds exactly the old rows not owned by `u`, the user table being
untouched. On that table no lookup returns `u`, and a token all of whose rows were owned
by `u` does not resolve; a token none of whose rows was owned by `u` resolves exactly as
on the old table (same reading of the clock). A second `Logout(u)` returns no error and
leaves both tables as the first left them. -/
theorem Logout_deletes_tokens_of_user (s : AuthService) (u : UUID) (w : World)
    (hnf : w.NoFault) :
    (s.Logout u w).1 = .ok ()
      ∧ (∀ r, r ∈ (s.Logout u w).2.refreshTokens ↔ r ∈ w.refreshTokens ∧ r.UserID ≠ u)
      ∧ (s.Logout u w).2.users = w.users
      ∧ (∀ t wb uid, wb.refreshTokens = (s.Logout u w).2.refreshTokens →
          (RefreshTokenRepositoryImpl.Get t wb).1 = .ok uid → uid ≠ u)
      ∧ (∀ t wb, (∀ r ∈ w.refreshTokens, r.Token = t → r.UserID = u) →
          wb.refreshTokens = (s.Logout u w).2.refreshTokens →
          ∃ err, (RefreshTokenRepositoryImpl.Get t wb).1 = .error err)
      ∧ (∀ t wa wb, (∀ r ∈ w.refreshTokens, r.Token = t → r.UserID ≠ u) →
          wa.refreshTokens = w.refreshTokens →
          wb.refreshTokens = (s.Logout u w).2.refreshTokens →
          wa.nextNow 0 = wb.nextNow 0 →
          wa.faults wa.calls.length = wb.faults wb.calls.length →
          (RefreshTokenRepositoryImpl.Get t wa).1 = (RefreshTokenRepositoryImpl.Get t wb).1)
      ∧ (s.Logout u (s.Logout u w).2).1 = .ok ()
      ∧ (s.Logout u (s.Logout u w).2).2.refreshTokens = (s.Logout u w).2.refreshTokens
      ∧ (s.Logout u (s.Logout u w).2).2.users = (s.Logout u w).2.users := by
  have f0 := hnf w.calls.length (le_refl _)
  have f1 := hnf (w.calls.length + 1) (by omega)
  have hrun : s.Logout u w = (.ok (), { w with
      calls := w.calls ++ [.TokenDeleteByUserID u]
      refreshTokens := w.refreshTokens.filter (fun r => !(r.UserID == u)) }) := by
    simp [AuthService.Logout, RefreshTokenRepositoryImpl.DeleteByUserID, dbExec, f0]
  have hmem : ∀ r, r ∈ (s.Logout u w).2.refreshTokens ↔ r ∈ w.refreshTokens ∧ r.UserID ≠ u := by
    intro r
    rw [hrun]
    simp [List.mem_filter]
  refine ⟨by rw [hrun], hmem, by rw [hrun], ?_, ?_, ?_, ?_, ?_, ?_⟩
  · intro t wb uid hb hget
    obtain ⟨r, hr, _, hru⟩ := Get_ok_row t wb uid hget
    rw [hb] at hr
    rw [← hru]
    exact ((hmem r).mp hr).2
  · intro t wb hall hb
    obtain ⟨e, he⟩ := Get_missing t wb (by
      intro r hr ht
      rw [hb] at hr
      have := (hmem r).mp hr
      exact absurd (hall r this.1 ht) this.2)
    exact ⟨e, by rw [he]⟩
  · intro t wa wb hnone ha hb hnow hfault
    apply Get_congr_rows t wa wb _ hnow hfault
    rw [ha, hb, hrun]
    simp only []
    rw [List.filter_filter]
    apply List.filter_congr
    intro x hx
    by_cases hxt : x.Token = t
    · simp [hxt, hnone x hx hxt]
    · simp [hxt]
  · rw [hrun]
    simp [AuthService.Logout, RefreshTokenRepositoryImpl.DeleteByUserID, dbExec, f1]
  · rw [hrun]
    simp [AuthService.Logout, RefreshTokenRepositoryImpl.DeleteByUserID, dbExec, f1]
  · rw [hrun]
    simp [AuthService.Logout, RefreshTokenRepositoryImpl.DeleteByUserID, dbExec, f1]

/-- C13, on `demoStore`: logging `demoUser` out empties the refresh-token table, and a
second logout returns no error. -/
theorem Logout_deletes_tokens_of_user_witness :
    (demoService.Logout ⟨1001⟩ demoStore).1 = .ok ()
      ∧ (demoService.Logout ⟨1001⟩ demoStore).2.refreshTokens = []
      ∧ (demoService.Logout ⟨1001⟩ (demoService.Logout ⟨1001⟩ demoStore).2).1 = .ok () :=
  ⟨(Logout_deletes_tokens_of_user demoService ⟨1001⟩ demoStore demoStore_noFault).1,
   by decide,
   (Logout_deletes_tokens_of_user demoService ⟨1001⟩ demoStore demoStore_noFault).2.2.2.2.2.2.1⟩

/-! ## C14: what becomes of a storage failure -/

theorem Register_fault (L : Libs) (s : AuthService) (req : RegisterRequest) (w : World)
    (e : String) (k : Nat)
    (hbefore : ∀ j, j < k → w.faults (w.calls.length + j) = none)
    (hfault : w.faults (w.calls.length + k) = some e)
    (hmade : w.calls.length + k < (s.Register L req w).2.calls.length) :
    (s.Register L req w).1 = .error e := by
  simp only [AuthService.Register, UserRepositoryImpl.ExistsByEmail, dbExec, randRead, uuidNew,
    timeNow, UserRepositoryImpl.Create] at hmade ⊢
  by_cases h1 : IsValidEmail req.Email = true
  · by_cases h2 : IsValidPassword req.Password = true
    · by_cases h3 : IsValidRole req.Role = true
      · match k, hbefore, hfault with
        | 0, _, hfault =>
          simp only [Nat.add_zero] at hfault
          simp [h1, h2, h3, hfault]
        | k + 1, hbefore, hfault =>
          have f0 := hbefore 0 (by omega)
          simp only [Nat.add_zero] at f0
          simp only [h1, h2, h3, f0] at hmade ⊢
          by_cases hc : 0 < (w.users.filter (fun u => u.Email == req.Email)).length
          · simp [hc] at hmade
          · cases hh : L.GenerateFromPassword req.Password (w.rand w.draws) with
            | error err => simp [hc, hh] at hmade
            | ok hashed =>
              match k, hbefore, hfault with
              | 0, _, hfault =>
                simp [hc, hh, hfault]
              | k + 1, hbefore, hfault =>
                have f1 := hbefore 1 (by omega)
                simp [hc, hh, f1] at hmade
                split_ifs at hmade <;> simp at hmade <;> omega
      · simp [h1, h2, h3] at hmade
    · simp [h1, h2] at hmade
  · simp [h1] at hmade

theorem Logout_fault (s : AuthService) (u : UUID) (w : World) (e : String) (k : Nat)
    (hfault : w.faults (w.calls.length + k) = some e)
    (hmade : w.calls.length + k < (s.Logout u w).2.calls.length) :
    (s.Logout u w).1 = .error e := by
  simp only [AuthService.Logout, RefreshTokenRepositoryImpl.DeleteByUserID, dbExec] at hmade ⊢
  match k, hfault with
  | 0, hfault =>
    simp only [Nat.add_zero] at hfault
    simp [hfault]
  | k + 1, _ =>
    cases hf : w.faults w.calls.length <;> simp [hf] at hmade

theorem ChangePassword_fault (L : Libs) (s : AuthService) (u : UUID)
    (req : ChangePasswordRequest) (w : World) (e : String) (k : Nat)
    (hbefore : ∀ j, j < k → w.faults (w.calls.length + j) = none)
    (hfault : w.faults (w.calls.length + k) = some e)
    (hmade : w.calls.length + k < (s.ChangePassword L u req w).2.calls.length) :
    (s.ChangePassword L u req w).1 = .error e := by
  simp only [AuthService.ChangePassword, UserRepositoryImpl.GetByID, dbExec, randRead, timeNow,
    UserRepositoryImpl.Update] at hmade ⊢
  match k, hbefore, hfault with
  | 0, _, hfault =>
    simp only [Nat.add_zero] at hfault
    simp [hfault]
  | k + 1, hbefore, hfault =>
    have f0 := hbefore 0 (by omega)
    simp only [Nat.add_zero] at f0
    simp only [f0] at hmade ⊢
    cases hg : gormFirst User.ID (fun x => x.ID == u) w.users with
    | none => simp [hg] at hmade
    | some user =>
      cases hc : L.CompareHashAndPassword user.PasswordHash req.CurrentPassword with
      | false => simp [hg, hc] at hmade
      | true =>
        cases hv : IsValidPassword req.NewPassword with
        | false => simp [hg, hc, hv] at hmade
        | true =>
          cases hh : L.GenerateFromPassword req.NewPassword (w.rand w.draws) with
          | error err => simp [hg, hc, hv, hh] at hmade
          | ok hashed =>
            match k, hbefore, hfault with
            | 0, _, hfault => simp [hg, hc, hv, hh, hfault]
            | k + 1, hbefore, hfault =>
              have f1 := hbefore 1 (by omega)
              simp [hg, hc, hv, hh, f1] at hmade
              split_ifs at hmade <;> simp at hmade <;> omega

theorem Login_fault (L : Libs) (s : AuthService) (req : LoginRequest) (w : World)
    (e : String) (k : Nat)
    (hbefore : ∀ j, j < k → w.faults (w.calls.length + j) = none)
    (hfault : w.faults (w.calls.length + k) = some e)
    (hmade : w.calls.length + k < (s.Login L req w).2.calls.length) :
    (s.Login L req w).1 = .error (if k = 0 then "invalid credentials" else e) := by
  simp only [AuthService.Login, UserRepositoryImpl.GetByEmail, dbExec, AuthService.generateJWT,
    AuthService.generateRefreshToken, RefreshTokenRepositoryImpl.Store, uuidNew, randRead,
    timeNow] at hmade ⊢
  match k, hbefore, hfault with
  | 0, _, hfault =>
    simp only [Nat.add_zero] at hfault
    simp [hfault]
  | k + 1, hbefore, hfault =>
    have f0 := hbefore 0 (by omega)
    simp only [Nat.add_zero] at f0
    simp only [f0] at hmade ⊢
    cases hg : gormFirst User.ID (fun x => x.Email == req.Email) w.users with
    | none => simp [hg] at hmade
    | some user =>
      cases hc : L.CompareHashAndPassword user.PasswordHash req.Password with
      | false => simp [hg, hc] at hmade
      | true =>
        cases hs : L.SignedString s.jwtSecret (AuthService.accessClaims user
            (Time.Add (w.clock w.ticks) s.tokenExpiration) (w.clock (w.ticks + 1))) with
        | error err => simp [hg, hc, hs] at hmade
        | ok tok =>
          match k, hbefore, hfault with
          | 0, _, hfault => simp [hg, hc, hs, hfault]
          | k + 1, hbefore, hfault =>
            have f1 := hbefore 1 (by omega)
            simp [hg, hc, hs, f1] at hmade
            split_ifs at hmade <;> simp at hmade <;> omega

theorem RefreshToken_fault (L : Libs) (s : AuthService) (req : RefreshTokenRequest)
    (w : World) (e : String) (k : Nat)
    (hbefore : ∀ j, j < k → w.faults (w.calls.length + j) = none)
    (hfault : w.faults (w.calls.length + k) = some e)
    (hmade : w.calls.length + k < (s.RefreshToken L req w).2.calls.length) :
    (s.RefreshToken L req w).1
      = .error (if k = 0 then "invalid refresh token" else if k = 1 then "user not found"
          else e) := by
  simp only [AuthService.RefreshToken, RefreshTokenRepositoryImpl.Get,
    UserRepositoryImpl.GetByID, RefreshTokenRepositoryImpl.Delete, dbExec,
    AuthService.generateJWT, AuthService.generateRefreshToken, RefreshTokenRepositoryImpl.Store,
    uuidNew, randRead, timeNow] at hmade ⊢
  match k, hbefore, hfault with
  | 0, _, hfault =>
    simp only [Nat.add_zero] at hfault
    simp [hfault]
  | k + 1, hbefore, hfault =>
    have f0 := hbefore 0 (by omega)
    simp only [Nat.add_zero] at f0
    simp only [f0] at hmade ⊢
    cases hg : gormFirst RefreshToken.ID
        (fun r => r.Token == req.RefreshToken && decide (r.ExpiresAt > (w.clock w.ticks).Unix))
        w.refreshTokens with
    | none => simp [hg] at hmade
    | some row =>
      match k, hbefore, hfault with
      | 0, _, hfault => simp [hg, hfault]
      | k + 1, hbefore, hfault =>
        have f1 := hbefore 1 (by omega)
        cases hu : gormFirst User.ID (fun x => x.ID == row.UserID) w.users with
        | none =>
          simp [hg, f1, hu] at hmade
          omega
        | some user =>
          match k, hbefore, hfault with
          | 0, _, hfault => simp [hg, f1, hu, hfault]
          | k + 1, hbefore, hfault =>
            have f2 := hbefore 2 (by omega)
            cases hs : L.SignedString s.jwtSecret (AuthService.accessClaims user
                (Time.Add (w.clock (w.ticks + 1)) s.tokenExpiration)
                (w.clock (w.ticks + 1 + 1))) with
            | error err =>
              simp [hg, f1, hu, f2, hs] at hmade
              omega
            | ok tok =>
              match k, hbefore, hfault with
              | 0, _, hfault => simp [hg, f1, hu, f2, hs, hfault]
              | k + 1, hbefore, hfault =>
                have f3 := hbefore 3 (by omega)
                simp [hg, f1, hu, f2, hs, f3] at hmade
                split_ifs at hmade <;> simp at hmade <;> omega

/-- C14, as amended. Let the repository call number `k` from now (counting from 0) be the
first to meet a storage fault, with error `e`, and let the operation get as far as making
that call. Then `Register`, `Logout` and `ChangePassword` return `e` itself; `Login`
returns `e` for its `Store` but `"invalid credentials"` when the failing call is its
`GetByEmail`; `RefreshToken` returns `e` for its `Delete` and `Store` but
`"invalid refresh token"` when the failing call is its `Get` and `"user not found"` when
it is its `GetByID`. More generally `Login` answers every error of `GetByEmail` with
`"invalid credentials"`, and `RefreshToken` every error of `Get` with
`"invalid refresh token"` and every error of `GetByID` with `"user not found"`. -/
theorem storage_failure_results (L : Libs) (s : AuthService) (w : World) (e : String)
    (k : Nat)
    (hbefore : ∀ j, j < k → w.faults (w.calls.length + j) = none)
    (hfault : w.faults (w.calls.length + k) = some e) :
    (∀ req, w.calls.length + k < (s.Register L req w).2.calls.length →
        (s.Register L req w).1 = .error e)
      ∧ (∀ u, w.calls.length + k < (s.Logout u w).2.calls.length →
        (s.Logout u w).1 = .error e)
      ∧ (∀ u req, w.calls.length + k < (s.ChangePassword L u req w).2.calls.length →
        (s.ChangePassword L u req w).1 = .error e)
      ∧ (∀ req, w.calls.length + k < (s.Login L req w).2.calls.length →
        (s.Login L req w).1 = .error (if k = 0 then "invalid credentials" else e))
      ∧ (∀ req, w.calls.length + k < (s.RefreshToken L req w).2.calls.length →
        (s.RefreshToken L req w).1
          = .error (if k = 0 then "invalid refresh token"
              else if k = 1 then "user not found" else e))
      ∧ (∀ req err, (UserRepositoryImpl.GetByEmail req.Email w).1 = .error err →
        (s.Login L req w).1 = .error "invalid credentials")
      ∧ (∀ req err, (RefreshTokenRepositoryImpl.Get req.RefreshToken w).1 = .error err →
        (s.RefreshToken L req w).1 = .error "invalid refresh token")
      ∧ (∀ req userID w1 err,
        RefreshTokenRepositoryImpl.Get req.RefreshToken w = (.ok userID, w1) →
        (UserRepositoryImpl.GetByID userID w1).1 = .error err →
        (s.RefreshToken L req w).1 = .error "user not found") := by
  refine ⟨fun req h => Register_fault L s req w e k hbefore hfault h,
    fun u h => Logout_fault s u w e k hfault h,
    fun u req h => ChangePassword_fault L s u req w e k hbefore hfault h,
    fun req h => Login_fault L s req w e k hbefore hfault h,
    fun req h => RefreshToken_fault L s req w e k hbefore hfault h, ?_, ?_, ?_⟩
  · intro req err h
    unfold AuthService.Login
    cases hg : UserRepositoryImpl.GetByEmail req.Email w with
    | mk r w1 =>
      rw [hg] at h
      simp only [] at h
      subst h
      rfl
  · intro req err h
    unfold AuthService.RefreshToken
    cases hg : RefreshTokenRepositoryImpl.Get req.RefreshToken w with
    | mk r w1 =>
      rw [hg] at h
      simp only [] at h
      subst h
      rfl
  · intro req userID w1 err hget h
    unfold AuthService.RefreshToken
    rw [hget]
    simp only []
    cases hg : UserRepositoryImpl.GetByID userID w1 with
    | mk r w2 =>
      rw [hg] at h
      simp only [] at h
      subst h
      rfl

/-- C14 as amended, on `brokenStore` and `faultyStore`: when the first call fails, `Logout`
returns the storage error and `Login` returns `"invalid credentials"`; when the fourth
call fails, `RefreshToken` returns the storage error. -/
theorem storage_failure_results_witness :
    (demoService.Logout ⟨1001⟩ brokenStore).1 = .error "connection refused"
      ∧ (demoService.Login (demoLibs (demoClaims 0)) ⟨"a@b.com", "secret1"⟩ brokenStore).1
        = .error "invalid credentials"
      ∧ (demoService.RefreshToken (demoLibs (demoClaims 1)) ⟨"rt-1"⟩ faultyStore).1
        = .error "connection refused" :=
  ⟨(storage_failure_results (demoLibs (demoClaims 0)) demoService brokenStore
      "connection refused" 0 (fun _ h => absurd h (Nat.not_lt_zero _)) rfl).2.1 ⟨1001⟩
      (by decide),
   (storage_failure_results (demoLibs (demoClaims 0)) demoService brokenStore
      "connection refused" 0 (fun _ h => absurd h (Nat.not_lt_zero _)) rfl).2.2.2.1
      ⟨"a@b.com", "secret1"⟩ (by decide),
   (storage_failure_results (demoLibs (demoClaims 1)) demoService faultyStore
      "connection refused" 3 (by decide) rfl).2.2.2.2.1 ⟨"rt-1"⟩ (by decide)⟩

/-- C14 as first stated fails. `GetByEmail` returns `"record not found"` for an unknown
email, and `"connection refused"` when the store is down, and `Login` answers both with
`"invalid credentials"`; `Get` returns `"connection refused"` when the store is down and
`RefreshToken` answers with `"invalid refresh token"`. -/
theorem storage_failure_results_counterexample :
    (UserRepositoryImpl.GetByEmail "nobody@b.com" demoStore).1 = .error "record not found"
      ∧ (demoService.Login (demoLibs (demoClaims 0)) ⟨"nobody@b.com", "secret1"⟩ demoStore).1
        = .error "invalid credentials"
      ∧ (UserRepositoryImpl.GetByEmail "a@b.com" brokenStore).1 = .error "connection refused"
      ∧ (demoService.Login (demoLibs (demoClaims 0)) ⟨"a@b.com", "secret1"⟩ brokenStore).1
        = .error "invalid credentials"
      ∧ (RefreshTokenRepositoryImpl.Get "rt-1" brokenStore).1 = .error "connection refused"
      ∧ (demoService.RefreshToken (demoLibs (demoClaims 1)) ⟨"rt-1"⟩ brokenStore).1
        = .error "invalid refresh token" := by
  decide

/-! ## C15: what an access token embeds -/

/-- C15, as amended. `generateJWT` of a service built by `NewAuthService` reads the clock
twice, `t1` then `t2`. The `expiresAt` it returns is `t1 + 24 h`, untruncated. The token
is the signed form of claims whose user id and subject are the user's id string, whose
email and role are the user's, whose issued-at is `t2` truncated to the second and whose
expires-at is the returned `expiresAt` truncated to the second. The returned value
exceeds the embedded one by less than a second and equals it when `t1` is a whole number
of seconds; the embedded expires-at is 24 hours after the embedded issued-at when the two
readings fall in the same second. -/
theorem generateJWT_claims (L : Libs) (secret : String) (user : User) (w : World)
    (tok : String) (expiresAt : Time)
    (hgen : ((NewAuthService secret).generateJWT L user w).1 = .ok (tok, expiresAt)) :
    expiresAt = w.nextNow 0 + 24 * Hour
      ∧ (∃ claims, L.SignedString secret claims = .ok tok
          ∧ claims.UserID = user.ID.String ∧ claims.Email = user.Email
          ∧ claims.Role = user.Role ∧ claims.Subject = user.ID.String
          ∧ claims.IssuedAt = some (NewNumericDate (w.nextNow 1))
          ∧ claims.ExpiresAt = some (NewNumericDate expiresAt))
      ∧ (NewNumericDate expiresAt ≤ expiresAt ∧ expiresAt < NewNumericDate expiresAt + Second)
      ∧ (w.nextNow 0 % Second = 0 → NewNumericDate expiresAt = expiresAt)
      ∧ (NewNumericDate (w.nextNow 1) = NewNumericDate (w.nextNow 0) →
          NewNumericDate expiresAt = NewNumericDate (w.nextNow 1) + 24 * Hour) := by
  obtain ⟨hexp, hsig⟩ := generateJWT_ok_inv L _ user w tok expiresAt hgen
  have hexp' : expiresAt = w.nextNow 0 + 24 * Hour := hexp
  refine ⟨hexp', ⟨_, hsig, rfl, rfl, rfl, rfl, rfl, rfl⟩, NewNumericDate_bounds _, ?_, ?_⟩
  · intro hwhole
    rw [hexp', NewNumericDate_add_day, NewNumericDate_whole _ hwhole]
  · intro hsame
    rw [hexp', NewNumericDate_add_day, hsame]

/-- C15 as amended, on `demoEmpty`: issued at second 1700000000 sharp, the token expires
24 hours later and embeds the very expiry that is returned. -/
theorem generateJWT_claims_witness :
    (1700086400 * Second : Time) = demoEmpty.nextNow 0 + 24 * Hour
      ∧ NewNumericDate (1700086400 * Second) = 1700086400 * Second :=
  ⟨(generateJWT_claims (demoLibs (demoClaims 0)) "test-secret" demoUser demoEmpty
      "header.payload.hs256-test-secret" (1700086400 * Second) (by decide)).1,
   (generateJWT_claims (demoLibs (demoClaims 0)) "test-secret" demoUser demoEmpty
      "header.payload.hs256-test-secret" (1700086400 * Second) (by decide)).2.2.2.1
      (by decide)⟩

/-- C15 as first stated fails. With the clock stopped half a second past a second, the
token embeds expiry 1700086400 s and issued-at 1700000000 s, while the returned
`expiresAt` is 1700086400.5 s and the issue time 1700000000.5 s. With a clock that passes
a second boundary between the two readings, the embedded expiry is 86399 s, not 24 hours,
after the embedded issued-at. -/
theorem generateJWT_claims_counterexample :
    ((demoService.generateJWT (demoLibs (claimsOn halfSecondStore)) demoUser halfSecondStore).1
        = .ok ("header.payload.hs256-test-secret", 1700086400500000000)
      ∧ (demoService.ValidateToken (demoLibs (claimsOn halfSecondStore))
          "header.payload.hs256-test-secret" halfSecondStore).1
          = .ok (claimsOn halfSecondStore)
      ∧ (claimsOn halfSecondStore).ExpiresAt = some 1700086400000000000
      ∧ (claimsOn halfSecondStore).IssuedAt = some 1700000000000000000
      ∧ halfSecondStore.nextNow 0 = 1700000000500000000)
    ∧ ((demoService.generateJWT (demoLibs (claimsOn straddleStore)) demoUser straddleStore).1
        = .ok ("header.payload.hs256-test-secret", 1700086400999999999)
      ∧ (demoService.ValidateToken (demoLibs (claimsOn straddleStore))
          "header.payload.hs256-test-secret" straddleStore).1 = .ok (claimsOn straddleStore)
      ∧ (claimsOn straddleStore).ExpiresAt = some (1700086400 * Second)
      ∧ (claimsOn straddleStore).IssuedAt = some (1700000001 * Second)
      ∧ (1700086400 * Second - 1700000001 * Second : Int) = 86399 * Second) := by
  decide

/-! ## C16: the last second and the first second past the lifetime of a token -/

theorem utf8ByteSize_pos_of_ne_empty (t : String) (h : t ≠ "") : 0 < t.utf8ByteSize := by
  obtain ⟨cs⟩ := t
  cases cs with
  | nil => exact absurd rfl h
  | cons c cs =>
    simp only [String.utf8ByteSize_mk, String.utf8Len_cons]
    have := Char.utf8Size_pos c
    omega

theorem stripBearer_prefixed (t : String) (h : t ≠ "") : stripBearer ("Bearer " ++ t) = t := by
  have hsize : ("Bearer " ++ t).utf8ByteSize = 7 + t.utf8ByteSize := by
    obtain ⟨cs⟩ := t
    show String.utf8ByteSize ⟨"Bearer ".data ++ cs⟩ = _
    rw [String.utf8ByteSize_mk, String.utf8Len_append]
    rfl
  have hpos := utf8ByteSize_pos_of_ne_empty t h
  have hlist : ("Bearer " ++ t).toList = "Bearer ".toList ++ t.toList := String.data_append _ _
  have htake : ("Bearer " ++ t).toList.take 7 = "Bearer ".toList := by
    rw [hlist]
    exact List.take_left' rfl
  have hdrop : ("Bearer " ++ t).toList.drop 7 = t.toList := by
    rw [hlist]
    exact List.drop_left' rfl
  unfold stripBearer
  rw [htake, hdrop, hsize]
  have hgt : 7 + t.utf8ByteSize > 7 := by omega
  simp [hgt]

theorem stripBearer_unprefixed (h : String)
    (hno : ¬ (h.utf8ByteSize > 7 ∧ h.toList.take 7 = "Bearer ".toList)) :
    stripBearer h = h := by
  unfold stripBearer
  by_cases h1 : h.utf8ByteSize > 7
  · have h2 : (h.toList.take 7 == "Bearer ".toList) = false := by
      simpa using fun hc => hno ⟨h1, hc⟩
    rw [h2]
    simp
  · simp [h1]

/-- C17, as amended. The prefix is stripped by `AuthController.ValidateToken`, not by
`AuthService.ValidateToken`, whose result depends on its argument only through what the
parser makes of that very string. For every non-empty token string `t`, the controller
given the header `"Bearer " + t` answers with the result of the service on `t`: 200 and
the claims, or 401 and the error; so it answers as for the header `t` when `t` is not
itself a strippable header. A header of at most 7 bytes, or not beginning with
`"Bearer "`, is validated unchanged; the empty header is refused with 400 before any
validation. -/
theorem ValidateToken_strips_bearer (L : Libs) (c : AuthController) (w : World) :
    (∀ t, t ≠ "" →
        (∀ claims, (c.authService.ValidateToken L t w).1 = .ok claims →
          (AuthController.ValidateToken L c ("Bearer " ++ t) w).1
            = SuccessResponse StatusOK "Token is valid"
                (some [("user_id", claims.UserID), ("email", claims.Email),
                  ("role", claims.Role)]))
        ∧ (∀ err, (c.authService.ValidateToken L t w).1 = .error err →
          (AuthController.ValidateToken L c ("Bearer " ++ t) w).1
            = ErrorResponse StatusUnauthorized "Invalid token" (some err)))
      ∧ (∀ t, t ≠ "" → stripBearer t = t →
          AuthController.ValidateToken L c ("Bearer " ++ t) w
            = AuthController.ValidateToken L c t w)
      ∧ (∀ h, ¬ (h.utf8ByteSize > 7 ∧ h.toList.take 7 = "Bearer ".toList) → stripBearer h = h)
      ∧ (∀ a b, L.ParseSigned c.authService.jwtSecret a = L.ParseSigned c.authService.jwtSecret b →
          c.authService.ValidateToken L a w = c.authService.ValidateToken L b w)
      ∧ AuthController.ValidateToken L c "" w
          = (ErrorResponse StatusBadRequest "Authorization header required" none, w) := by
  have hne : ∀ t : String, t ≠ "" → (("Bearer " ++ t) == "") = false := by
    intro t ht
    simp only [beq_eq_false_iff_ne, ne_eq]
    intro hc
    have := congrArg String.length hc
    simp [String.length_append] at this
    exact absurd this.1 (by decide)
  refine ⟨?_, ?_, stripBearer_unprefixed, ?_, ?_⟩
  · intro t ht
    constructor
    · intro claims h
      simp only [AuthController.ValidateToken, hne t ht, stripBearer_prefixed t ht]
      cases hv : c.authService.ValidateToken L t w with
      | mk r w1 =>
        rw [hv] at h
        simp only [] at h
        subst h
        rfl
    · intro err h
      simp only [AuthController.ValidateToken, hne t ht, stripBearer_prefixed t ht]
      cases hv : c.authService.ValidateToken L t w with
      | mk r w1 =>
        rw [hv] at h
        simp only [] at h
        subst h
        rfl
  · intro t ht hs
    have hte : (t == "") = false := by simpa using ht
    simp only [AuthController.ValidateToken, hne t ht, stripBearer_prefixed t ht, hte, hs]
  · intro a b hab
    simp only [AuthService.ValidateToken, hab]
  · rfl

/-- C17 as amended, on `demoStore`: the header `"Bearer "` followed by the token of
`demoUser` is answered with 200 and the claims of `demoUser`. -/
theorem ValidateToken_strips_bearer_witness :
    (AuthController.ValidateToken (demoLibs (demoClaims 0)) demoController
        ("Bearer " ++ "header.payload.hs256-test-secret") demoStore).1
      = SuccessResponse StatusOK "Token is valid"
          (some [("user_id", "00000000-0000-0000-0000-0000000003e9"), ("email", "a@b.com"),
            ("role", "candidate")]) :=
  ((ValidateToken_strips_bearer (demoLibs (demoClaims 0)) demoController demoStore).1
    "header.payload.hs256-test-secret" (by decide)).1 (demoClaims 0) (by decide)

/-- C17 as first stated fails. `AuthService.ValidateToken` refuses `"Bearer "` followed by
a token that it accepts bare; and the controller answers the header `"Bearer "`, which it
does not strip, with 401, while it answers the empty header with 400. -/
theorem ValidateToken_strips_bearer_counterexample :
    (demoService.ValidateToken (demoLibs (demoClaims 0))
        ("Bearer " ++ "header.payload.hs256-test-secret") demoStore).1
        = .error "token is malformed"
      ∧ (demoService.ValidateToken (demoLibs (demoClaims 0))
          "header.payload.hs256-test-secret" demoStore).1 = .ok (demoClaims 0)
      ∧ (AuthController.ValidateToken (demoLibs (demoClaims 0)) demoController
          ("Bearer " ++ "") demoStore).1
          = ErrorResponse StatusUnauthorized "Invalid token" (some "token is malformed")
      ∧ (AuthController.ValidateToken (demoLibs (demoClaims 0)) demoController "" demoStore).1
          = ErrorResponse StatusBadRequest "Authorization header required" none := by
  decide

/-! ## C18: validation looks at the token, the secret and the clock only -/

theorem validateClaims_later (now later : Time) (claims : JWTClaims)
    (h : validateClaims now claims = .ok ())
    (hle : now ≤ later)
    (hexp : ∀ exp, claims.ExpiresAt = some exp → later < exp) :
    validateClaims later claims = .ok () := by
  unfold validateClaims at h ⊢
  cases he : claims.ExpiresAt with
  | none =>
    cases hn : claims.NotBefore with
    | none => simp
    | some nbf =>
      simp [he, hn, Time.Before] at h ⊢
      exact le_trans h hle
  | some exp =>
    have hlt := hexp exp he
    cases hn : claims.NotBefore with
    | none => simp [Time.Before, hlt]
    | some nbf =>
      simp [he, hn, Time.Before] at h ⊢
      split_ifs at h with h1 h2 h3
      have h4 : ¬ exp ≤ later := not_le.mpr hlt
      have h5 : ¬ later < nbf := not_lt.mpr (le_trans (not_lt.mp h3) hle)
      simp [h4, h5]

theorem ValidateToken_accepts_inv (L : Libs) (s : AuthService) (tok : String) (w : World)
    (claims : JWTClaims) (h : (s.ValidateToken L tok w).1 = .ok claims) :
    L.ParseSigned s.jwtSecret tok = .ok claims ∧ validateClaims (w.nextNow 0) claims = .ok () := by
  simp only [AuthService.ValidateToken, timeNow, World.nextNow, Nat.add_zero] at h ⊢
  cases hp : L.ParseSigned s.jwtSecret tok with
  | error e => simp [hp] at h
  | ok c =>
    cases hv : validateClaims (w.clock w.ticks) c with
    | error e => simp [hp, hv] at h
    | ok u =>
      simp [hp, hv] at h
      subst h
      exact ⟨rfl, hv⟩

theorem ValidateToken_same_reading (L : Libs) (s : AuthService) (tok : String) (w w' : World)
    (h : w.nextNow 0 = w'.nextNow 0) :
    (s.ValidateToken L tok w).1 = (s.ValidateToken L tok w').1 := by
  simp only [World.nextNow, Nat.add_zero] at h
  simp only [AuthService.ValidateToken, timeNow, h]
  cases L.ParseSigned s.jwtSecret tok with
  | error e => rfl
  | ok c =>
    simp only []
    cases validateClaims (w'.clock w'.ticks) c <;> rfl

theorem ValidateToken_later (L : Libs) (s : AuthService) (tok : String) (w w' : World)
    (claims : JWTClaims) (h : (s.ValidateToken L tok w).1 = .ok claims)
    (hle : w.nextNow 0 ≤ w'.nextNow 0)
    (hexp : ∀ exp, claims.ExpiresAt = some exp → w'.nextNow 0 < exp) :
    (s.ValidateToken L tok w').1 = .ok claims := by
  obtain ⟨hp, hv⟩ := ValidateToken_accepts_inv L s tok w claims h
  have hv' := validateClaims_later _ _ claims hv hle hexp
  simp only [World.nextNow, Nat.add_zero] at hv'
  simp [AuthService.ValidateToken, timeNow, hp, hv']

/-- C18. The result of `ValidateToken` is the same on any two worlds whose clocks show the
same instant, whatever their user and refresh-token tables: it is a function of the
token, the service (its secret) and the reading of the clock. It is unchanged by a
`Logout` and by the deletion of a user; and a token accepted before a `ChangePassword`,
or before anything else, is accepted with the same claims at any later reading of the
clock that is still earlier than its expiry. -/
theorem ValidateToken_no_revocation (L : Libs) (s : AuthService) (tok : String) :
    (∀ w w', w.nextNow 0 = w'.nextNow 0 →
        (s.ValidateToken L tok w).1 = (s.ValidateToken L tok w').1)
      ∧ (∀ u w, (s.ValidateToken L tok (s.Logout u w).2).1 = (s.ValidateToken L tok w).1)
      ∧ (∀ id w, (s.ValidateToken L tok (UserRepositoryImpl.Delete id w).2).1
          = (s.ValidateToken L tok w).1)
      ∧ (∀ w w' claims, (s.ValidateToken L tok w).1 = .ok claims →
          w.nextNow 0 ≤ w'.nextNow 0 →
          (∀ exp, claims.ExpiresAt = some exp → w'.nextNow 0 < exp) →
          (s.ValidateToken L tok w').1 = .ok claims)
      ∧ (∀ u req w claims, (s.ValidateToken L tok w).1 = .ok claims →
          w.nextNow 0 ≤ (s.ChangePassword L u req w).2.nextNow 0 →
          (∀ exp, claims.ExpiresAt = some exp →
            (s.ChangePassword L u req w).2.nextNow 0 < exp) →
          (s.ValidateToken L tok (s.ChangePassword L u req w).2).1 = .ok claims) := by
  refine ⟨ValidateToken_same_reading L s tok, ?_, ?_, ValidateToken_later L s tok, ?_⟩
  · intro u w
    apply ValidateToken_same_reading
    simp only [AuthService.Logout, RefreshTokenRepositoryImpl.DeleteByUserID, dbExec, World.nextNow]
    cases w.faults w.calls.length <;> rfl
  · intro id w
    apply ValidateToken_same_reading
    simp only [UserRepositoryImpl.Delete, dbExec, World.nextNow]
    cases w.faults w.calls.length <;> rfl
  · intro u req w claims h hle hexp
    exact ValidateToken_later L s tok w _ claims h hle hexp

/-- C18, on `demoStore`: the token of `demoUser` is accepted before and after the user
is deleted, before and after a logout, and after a change of password. -/
theorem ValidateToken_no_revocation_witness :
    (demoService.ValidateToken (demoLibs (demoClaims 0)) "header.payload.hs256-test-secret"
        (UserRepositoryImpl.Delete ⟨1001⟩ demoStore).2).1 = .ok (demoClaims 0)
      ∧ (demoService.ValidateToken (demoLibs (demoClaims 0)) "header.payload.hs256-test-secret"
        (demoService.Logout ⟨1001⟩ demoStore).2).1 = .ok (demoClaims 0)
      ∧ (demoService.ValidateToken (demoLibs (demoClaims 0)) "header.payload.hs256-test-secret"
        (demoService.ChangePassword (demoLibs (demoClaims 0)) ⟨1001⟩ ⟨"secret1", "secret2"⟩
          demoStore).2).1 = .ok (demoClaims 0) :=
  ⟨((ValidateToken_no_revocation (demoLibs (demoClaims 0)) demoService
      "header.payload.hs256-test-secret").2.2.1 ⟨1001⟩ demoStore).trans (by decide),
   ((ValidateToken_no_revocation (demoLibs (demoClaims 0)) demoService
      "header.payload.hs256-test-secret").2.1 ⟨1001⟩ demoStore).trans (by decide),
   (ValidateToken_no_revocation (demoLibs (demoClaims 0)) demoService
      "header.payload.hs256-test-secret").2.2.2.2 ⟨1001⟩ ⟨"secret1", "secret2"⟩ demoStore
      (demoClaims 0) (by decide) (by decide) (by decide)⟩

/-! ## C19: what a successful change of password touches -/

/-- C19. After a `ChangePassword` that succeeded for the stored user with id `userID`
(the only row with that primary key), the user table is the old one with that row
replaced by a record of the same id, email, role, name and creation time, whose hash is
the one generated from the new password and whose update time is the reading of the clock
at the save, every other row being as it was; the refresh-token table is unchanged, so that a lookup of any token
gives the same result on it as on the old table at the same reading of the clock. -/
theorem ChangePassword_frame (L : Libs) (s : AuthService) (userID : UUID)
    (req : ChangePasswordRequest) (w w1 : World) (user : User)
    (hcp : s.ChangePassword L userID req w = (.ok (), w1))
    (hu : user ∈ w.users) (hid : user.ID = userID)
    (huniq : ∀ x ∈ w.users, x.ID = userID → x = user) :
    (∃ saved, saved.ID = user.ID ∧ saved.Email = user.Email ∧ saved.Role = user.Role
        ∧ saved.Name = user.Name ∧ saved.CreatedAt = user.CreatedAt
        ∧ L.GenerateFromPassword req.NewPassword (w.rand w.draws) = .ok saved.PasswordHash
        ∧ saved.UpdatedAt = w.nextNow 1
        ∧ w1.users = w.users.map (fun x => if x = user then saved else x))
      ∧ (∀ x ∈ w.users, x ≠ user → x ∈ w1.users)
      ∧ w1.refreshTokens = w.refreshTokens
      ∧ (∀ t wa wb, wa.refreshTokens = w.refreshTokens → wb.refreshTokens = w1.refreshTokens →
          wa.nextNow 0 = wb.nextNow 0 → wa.faults wa.calls.length = wb.faults wb.calls.length →
          (RefreshTokenRepositoryImpl.Get t wa).1 = (RefreshTokenRepositoryImpl.Get t wb).1) := by
  obtain ⟨found, hashed, hfound, _, _, hhash, hw1⟩ :=
    ChangePassword_ok_inv L s userID req w w1 hcp
  have hp := gormFirst_some _ _ _ _ hfound
  have hfu : found = user := huniq found hp.1 (by simpa using hp.2)
  subst hfu
  have hmap : w1.users = w.users.map (fun x => if x = found then
      { found with PasswordHash := hashed, UpdatedAt := w.nextNow 1 } else x) := by
    rw [hw1]
    simp only []
    apply List.map_congr_left
    intro x hx
    by_cases hxx : x = found
    · simp [hxx]
    · have : ¬ x.ID = found.ID := fun hc => hxx (huniq x hx (hc.trans hid))
      simp [hxx, this]
  have hrt : w1.refreshTokens = w.refreshTokens := by rw [hw1]
  refine ⟨⟨{ found with PasswordHash := hashed, UpdatedAt := w.nextNow 1 },
    rfl, rfl, rfl, rfl, rfl, hhash, rfl, hmap⟩, ?_, hrt, ?_⟩
  · intro x hx hne
    rw [hmap, List.mem_map]
    exact ⟨x, hx, by simp [hne]⟩
  · intro t wa wb ha hb hnow hfault
    exact Get_congr t wa wb (by rw [ha, hb, hrt]) hnow hfault

/-- C19, on `demoStore`: `demoUser` changes `"secret1"` into `"secret2"`; the row
`demoRow` is still the whole refresh-token table. -/
theorem ChangePassword_frame_witness :
    (demoService.ChangePassword (demoLibs (demoClaims 0)) ⟨1001⟩ ⟨"secret1", "secret2"⟩
        demoStore).2.refreshTokens = [demoRow] :=
  (ChangePassword_frame (demoLibs (demoClaims 0)) demoService ⟨1001⟩ ⟨"secret1", "secret2"⟩
    demoStore
    (demoService.ChangePassword (demoLibs (demoClaims 0)) ⟨1001⟩ ⟨"secret1", "secret2"⟩
      demoStore).2
    demoUser rfl (by decide) rfl (by decide)).2.2.1

/-! ## C20: the current password is checked before the length of the new one -/

/-- C20. For a stored user, a `GetByID` that meets no storage fault, and a new password of
fewer than 6 bytes: when the current password verifies against the stored hash,
`ChangePassword` fails with `"new password must be at least 6 characters long"`, its one
repository call is `GetByID` (no `Update`) and the user table is unchanged; when the
current password does not verify, it fails with `"current password is incorrect"`. -/
theorem ChangePassword_checks_current_first (L : Libs) (s : AuthService) (userID : UUID)
    (req : ChangePasswordRequest) (w : World)
    (hstored : ∃ u ∈ w.users, u.ID = userID)
    (hf : w.faults w.calls.length = none)
    (hshort : req.NewPassword.utf8ByteSize < 6) :
    ((∀ u ∈ w.users, u.ID = userID →
          L.CompareHashAndPassword u.PasswordHash req.CurrentPassword = true) →
        (s.ChangePassword L userID req w).1
            = .error "new password must be at least 6 characters long"
          ∧ (s.ChangePassword L userID req w).2.calls = w.calls ++ [.UserGetByID userID]
          ∧ (s.ChangePassword L userID req w).2.users = w.users)
      ∧ ((∀ u ∈ w.users, u.ID = userID →
          L.CompareHashAndPassword u.PasswordHash req.CurrentPassword = false) →
        (s.ChangePassword L userID req w).1 = .error "current password is incorrect") := by
  obtain ⟨u0, hu0, hu0id⟩ := hstored
  obtain ⟨user, huser⟩ := gormFirst_isSome User.ID (fun u => u.ID == userID) w.users u0 hu0
    (by simp [hu0id])
  have hp := gormFirst_some _ _ _ _ huser
  have hinv : IsValidPassword req.NewPassword = false := by
    simp [IsValidPassword]; omega
  constructor
  · intro hok
    have hc := hok user hp.1 (by simpa using hp.2)
    simp [AuthService.ChangePassword, UserRepositoryImpl.GetByID, dbExec, hf, huser, hc, hinv]
  · intro hwrong
    have hc := hwrong user hp.1 (by simpa using hp.2)
    simp [AuthService.ChangePassword, UserRepositoryImpl.GetByID, dbExec, hf, huser, hc]

/-- C20, on `demoStore`: with the new password `"abc"`, the correct current password
`"secret1"` meets the length error and the wrong one `"guess99"` the password error. -/
theorem ChangePassword_checks_current_first_witness :
    (demoService.ChangePassword (demoLibs (demoClaims 0)) ⟨1001⟩ ⟨"secret1", "abc"⟩
        demoStore).1 = .error "new password must be at least 6 characters long"
      ∧ (demoService.ChangePassword (demoLibs (demoClaims 0)) ⟨1001⟩ ⟨"guess99", "abc"⟩
          demoStore).1 = .error "current password is incorrect" :=
  ⟨((ChangePassword_checks_current_first (demoLibs (demoClaims 0)) demoService ⟨1001⟩
      ⟨"secret1", "abc"⟩ demoStore (by decide) rfl (by decide)).1 (by decide)).1,
   (ChangePassword_checks_current_first (demoLibs (demoClaims 0)) demoService ⟨1001⟩
      ⟨"guess99", "abc"⟩ demoStore (by decide) rfl (by decide)).2 (by decide)⟩

/-! ## C21: the password length is a count of bytes -/

/-- C21, as amended. `IsValidPassword p` holds exactly when the UTF-8 encoding of `p` has at
least 6 bytes (`len(p) >= 6`), which every password of 6 or more characters has. On a
request with a well-formed email, `Register` answers a password of fewer than 6 bytes with
`"password must be at least 6 characters long"` and leaves the world as it was; a password
of 6 or more bytes passes the check: the next check is the role (`"invalid role"`), and
with a valid role the first repository call, `ExistsByEmail`, is made. -/
theorem IsValidPassword_counts_bytes (L : Libs) (s : AuthService) (req : RegisterRequest)
    (w : World) :
    (IsValidPassword req.Password = true ↔ 6 ≤ req.Password.utf8ByteSize)
      ∧ (6 ≤ req.Password.length → IsValidPassword req.Password = true)
      ∧ (IsValidEmail req.Email = true → req.Password.utf8ByteSize < 6 →
          s.Register L req w = (.error "password must be at least 6 characters long", w))
      ∧ (IsValidEmail req.Email = true → 6 ≤ req.Password.utf8ByteSize →
          (IsValidRole req.Role = false → s.Register L req w = (.error "invalid role", w))
            ∧ (IsValidRole req.Role = true →
                ∃ rest, (s.Register L req w).2.calls
                  = w.calls ++ RepoCall.UserExistsByEmail req.Email :: rest)) := by
  have hlen : ∀ cs : List Char, cs.length ≤ (String.mk cs).utf8ByteSize := by
    intro cs
    induction cs with
    | nil => simp [String.utf8ByteSize, String.utf8ByteSize.go]
    | cons c cs ih =>
      simp only [String.utf8ByteSize, String.utf8ByteSize.go, List.length_cons] at ih ⊢
      have := Char.utf8Size_pos c
      omega
  refine ⟨by simp [IsValidPassword], ?_, ?_, ?_⟩
  · intro h
    have := hlen req.Password.data
    simp only [IsValidPassword, ge_iff_le, decide_eq_true_eq]
    have h2 : req.Password.length = req.Password.data.length := rfl
    have h3 : String.mk req.Password.data = req.Password := rfl
    rw [h3] at this
    omega
  · intro he hp
    have : IsValidPassword req.Password = false := by
      simp [IsValidPassword]; omega
    simp [AuthService.Register, he, this]
  · intro he hp
    have hv : IsValidPassword req.Password = true := by simp [IsValidPassword]; omega
    constructor
    · intro hr
      simp [AuthService.Register, he, hv, hr]
    · intro hr
      cases hf : w.faults w.calls.length with
      | some e =>
        exact ⟨[], by simp [AuthService.Register, he, hv, hr, UserRepositoryImpl.ExistsByEmail,
          dbExec, hf]⟩
      | none =>
        cases hx : decide ((w.users.filter (fun u => u.Email == req.Email)).length > 0) with
        | true =>
          exact ⟨[], by simp [AuthService.Register, he, hv, hr,
            UserRepositoryImpl.ExistsByEmail, dbExec, hf, hx]⟩
        | false =>
          cases hg : L.GenerateFromPassword req.Password (w.rand w.draws) with
          | error e =>
            exact ⟨[], by simp [AuthService.Register, he, hv, hr,
              UserRepositoryImpl.ExistsByEmail, dbExec, hf, hx, randRead, hg]⟩
          | ok h =>
            refine ⟨[RepoCall.UserCreate (AuthService.newUser req h ⟨w.rand (w.draws + 1)⟩
              (w.clock w.ticks) (w.clock (w.ticks + 1)))], ?_⟩
            cases hf2 : w.faults (w.calls.length + 1) with
            | some e =>
              simp [AuthService.Register, he, hv, hr, UserRepositoryImpl.ExistsByEmail,
                dbExec, hf, hx, randRead, hg, uuidNew, timeNow, UserRepositoryImpl.Create, hf2]
            | none =>
              by_cases hany : w.users.any (fun u => u.ID == (⟨w.rand (w.draws + 1)⟩ : UUID)
                  || u.Email == req.Email) = true
              · simp [AuthService.Register, he, hv, hr, UserRepositoryImpl.ExistsByEmail,
                  dbExec, hf, hx, randRead, hg, uuidNew, timeNow, UserRepositoryImpl.Create, hf2,
                  AuthService.newUser, hany]
              · simp [AuthService.Register, he, hv, hr, UserRepositoryImpl.ExistsByEmail,
                  dbExec, hf, hx, randRead, hg, uuidNew, timeNow, UserRepositoryImpl.Create, hf2,
                  AuthService.newUser, hany]

/-- C21, on `demoEmpty`: the three-byte password `"abc"` is refused and nothing changes. -/
theorem IsValidPassword_counts_bytes_witness :
    IsValidEmail demoRegister.Email = true ∧ "abc".utf8ByteSize < 6
      ∧ demoService.Register (demoLibs (demoClaims 0))
          { demoRegister with Password := "abc" } demoEmpty
          = (.error "password must be at least 6 characters long", demoEmpty) :=
  ⟨by decide, by decide,
   (IsValidPassword_counts_bytes (demoLibs (demoClaims 0)) demoService
      { demoRegister with Password := "abc" } demoEmpty).2.2.1 (by decide) (by decide)⟩

/-- C21 as stated fails: `"ééé"` has three characters, which take six bytes, so
`IsValidPassword` accepts it and `Register` does not answer with the password error. -/
theorem IsValidPassword_counts_bytes_counterexample :
    "ééé".length = 3 ∧ IsValidPassword "ééé" = true
      ∧ (demoService.Register (demoLibs (demoClaims 0))
          { demoRegister with Password := "ééé" } demoEmpty).1
          ≠ .error "password must be at least 6 characters long" := by
  decide

/-! ## C22: the sweep of expired rows does not change what a lookup returns -/

theorem gormFirst_filter_of_imp {α : Type} (key : α → UUID) (p q : α → Bool) (rows : List α)
    (h : ∀ r ∈ rows, p r = true → q r = true) :
    gormFirst key p (rows.filter q) = gormFirst key p rows := by
  unfold gormFirst
  rw [List.filter_filter]
  congr 1
  apply List.filter_congr
  intro r hr
  cases hp : p r with
  | false => simp
  | true => simp [h r hr hp]

/-- C22. Let `CleanupExpired` and a following `Get(token)` both read the instant `now`
from the clock, and let no storage fault hit them. Then `CleanupExpired` succeeds, the
rows it leaves are exactly the rows whose `expires_at` is greater than the second of `now`
(those with `expires_at <= now` are removed, the others kept in their order), the users
are untouched, and `Get(token)` returns after the sweep what it returns, at the same
`now`, before it. -/
theorem CleanupExpired_keeps_Get (token : String) (now : Time) (w : World)
    (hnow0 : w.nextNow 0 = now) (hnow1 : w.nextNow 1 = now)
    (hf0 : w.faults w.calls.length = none) (hf1 : w.faults (w.calls.length + 1) = none) :
    ∃ w1, RefreshTokenRepositoryImpl.CleanupExpired w = (.ok (), w1)
      ∧ w1.refreshTokens = w.refreshTokens.filter (fun r => !(decide (r.ExpiresAt ≤ now.Unix)))
      ∧ (∀ r, r ∈ w1.refreshTokens ↔ r ∈ w.refreshTokens ∧ ¬ r.ExpiresAt ≤ now.Unix)
      ∧ w1.users = w.users
      ∧ (RefreshTokenRepositoryImpl.Get token w1).1 = (RefreshTokenRepositoryImpl.Get token w).1 := by
  simp only [World.nextNow, Nat.add_zero] at hnow0 hnow1
  have hc : RefreshTokenRepositoryImpl.CleanupExpired w
      = (.ok (), { w with
          ticks := w.ticks + 1
          calls := w.calls ++ [RepoCall.TokenCleanupExpired]
          refreshTokens :=
            w.refreshTokens.filter (fun r => !(decide (r.ExpiresAt ≤ now.Unix))) }) := by
    simp only [RefreshTokenRepositoryImpl.CleanupExpired, timeNow, dbExec, hf0, hnow0]
  refine ⟨_, hc, rfl, ?_, rfl, ?_⟩
  · intro r
    simp [List.mem_filter]
  · have hg := gormFirst_filter_of_imp RefreshToken.ID
      (fun r => r.Token == token && decide (r.ExpiresAt > now.Unix))
      (fun r => !(decide (r.ExpiresAt ≤ now.Unix))) w.refreshTokens
      (by
        intro r _ hp
        simp at hp ⊢
        exact hp.2)
    simp only [RefreshTokenRepositoryImpl.Get, timeNow, dbExec, hf0, hnow0, hnow1,
      List.length_append, List.length_singleton, hf1, hg]
    cases gormFirst RefreshToken.ID
      (fun r => r.Token == token && decide (r.ExpiresAt > now.Unix)) w.refreshTokens <;> rfl

/-- C22, on `halfSecondExpired`: the sweep removes the row that expired at second
1700000000 and the lookup of `"rt-1"` is as before. -/
theorem CleanupExpired_keeps_Get_witness :
    ∃ w1, RefreshTokenRepositoryImpl.CleanupExpired halfSecondExpired = (.ok (), w1)
      ∧ w1.refreshTokens = halfSecondExpired.refreshTokens.filter
          (fun r => !(decide (r.ExpiresAt ≤ Time.Unix (1700000000 * Second + 500000000))))
      ∧ (∀ r, r ∈ w1.refreshTokens ↔ r ∈ halfSecondExpired.refreshTokens
          ∧ ¬ r.ExpiresAt ≤ Time.Unix (1700000000 * Second + 500000000))
      ∧ w1.users = halfSecondExpired.users
      ∧ (RefreshTokenRepositoryImpl.Get "rt-1" w1).1
          = (RefreshTokenRepositoryImpl.Get "rt-1" halfSecondExpired).1 :=
  CleanupExpired_keeps_Get "rt-1" (1700000000 * Second + 500000000) halfSecondExpired
    (by decide) (by decide) (by decide) (by decide)

/-! ## C24: two concurrent refreshes with one token -/

/-- The four steps, taken in a row, are `AuthService.RefreshToken`. -/
theorem RefreshTokenStep_sequential (L : Libs) (s : AuthService) (req : RefreshTokenRequest)
    (w : World) (other : RefreshPhase) :
    s.race L req [true, true, true, true] ⟨.start, other, w⟩
      = ⟨.done (s.RefreshToken L req w).1, other, (s.RefreshToken L req w).2⟩ := by
  simp only [AuthService.race, List.foldl, AuthService.raceStep, if_true,
    AuthService.RefreshToken]
  rcases hg : RefreshTokenRepositoryImpl.Get req.RefreshToken w with ⟨_ | uid, w1⟩
  · simp [AuthService.RefreshTokenStep, hg]
  rcases hu : UserRepositoryImpl.GetByID uid w1 with ⟨_ | user, w2⟩
  · simp [AuthService.RefreshTokenStep, hg, hu]
  rcases hd : RefreshTokenRepositoryImpl.Delete req.RefreshToken w2 with ⟨_ | _, w3⟩
  · simp [AuthService.RefreshTokenStep, hg, hu, hd]
  rcases hj : s.generateJWT L user w3 with ⟨_ | ⟨token, exp⟩, w4⟩
  · simp [AuthService.RefreshTokenStep, hg, hu, hd, hj]
  rcases hr : s.generateRefreshToken user.ID w4 with ⟨_ | tok, w5⟩
  · simp [AuthService.RefreshTokenStep, hg, hu, hd, hj, hr]
  · simp [AuthService.RefreshTokenStep, hg, hu, hd, hj, hr]

theorem RefreshTokenStep_loser (L : Libs) (s : AuthService) (req : RefreshTokenRequest)
    (p : RefreshPhase) (w : World)
    (hno : ∀ r ∈ w.refreshTokens, r.Token ≠ req.RefreshToken)
    (hp : p = .start ∨ p = .done (.error "invalid refresh token")) :
    (s.RefreshTokenStep L req p w).1 = .done (.error "invalid refresh token")
      ∧ (s.RefreshTokenStep L req p w).2.refreshTokens = w.refreshTokens
      ∧ (s.RefreshTokenStep L req p w).2.draws = w.draws
      ∧ (s.RefreshTokenStep L req p w).2.rand = w.rand := by
  rcases hp with hp | hp
  · subst hp
    obtain ⟨e, he⟩ := Get_missing req.RefreshToken w (fun r hr ht => absurd ht (hno r hr))
    simp [AuthService.RefreshTokenStep, he]
  · subst hp
    simp [AuthService.RefreshTokenStep]

theorem RefreshTokenStep_winner (L : Libs) (s : AuthService) (req : RefreshTokenRequest)
    (p : RefreshPhase) (w : World)
    (hno : ∀ r ∈ w.refreshTokens, r.Token ≠ req.RefreshToken)
    (hp : (∃ res, p = .done res)
      ∨ (∃ user, p = .deleted user) ∧ (w.nextUUID 0).String ≠ req.RefreshToken) :
    (∃ res, (s.RefreshTokenStep L req p w).1 = .done res)
      ∧ ∀ r ∈ (s.RefreshTokenStep L req p w).2.refreshTokens, r.Token ≠ req.RefreshToken := by
  rcases hp with ⟨res, hp⟩ | ⟨⟨user, hp⟩, hfresh⟩
  · subst hp
    exact ⟨⟨res, rfl⟩, hno⟩
  · subst hp
    simp only [World.nextUUID, Nat.add_zero] at hfresh
    simp only [AuthService.RefreshTokenStep, AuthService.generateJWT, timeNow]
    cases L.SignedString s.jwtSecret (AuthService.accessClaims user
        (Time.Add (w.clock w.ticks) s.tokenExpiration) (w.clock (w.ticks + 1))) with
    | error e => exact ⟨⟨_, rfl⟩, hno⟩
    | ok tok =>
      simp only [AuthService.generateRefreshToken, uuidNew, randRead, timeNow,
        RefreshTokenRepositoryImpl.Store, dbExec]
      cases w.faults w.calls.length with
      | some e => exact ⟨⟨_, rfl⟩, hno⟩
      | none =>
        simp only []
        split_ifs
        · exact ⟨⟨_, rfl⟩, hno⟩
        · refine ⟨⟨_, rfl⟩, ?_⟩
          intro r hr
          simp only [List.mem_append, List.mem_singleton] at hr
          rcases hr with hr | hr
          · exact hno r hr
          · subst hr
            exact hfresh

theorem race_second_lost (L : Libs) (s : AuthService) (req : RefreshTokenRequest)
    (schedule : List Bool) (r : RefreshRace)
    (hno : ∀ x ∈ r.world.refreshTokens, x.Token ≠ req.RefreshToken)
    (hfirst : (∃ res, r.first = .done res)
      ∨ (∃ user, r.first = .deleted user) ∧ (r.world.nextUUID 0).String ≠ req.RefreshToken)
    (hsecond : r.second = .start ∨ r.second = .done (.error "invalid refresh token")) :
    (s.race L req schedule r).second = .start
      ∨ (s.race L req schedule r).second = .done (.error "invalid refresh token") := by
  induction schedule generalizing r with
  | nil => exact hsecond
  | cons turn rest ih =>
    simp only [AuthService.race, List.foldl_cons]
    apply ih
    · cases turn with
      | true => exact (RefreshTokenStep_winner L s req r.first r.world hno hfirst).2
      | false =>
        simp only [AuthService.raceStep, Bool.false_eq_true, if_false]
        rw [(RefreshTokenStep_loser L s req r.second r.world hno hsecond).2.1]
        exact hno
    · cases turn with
      | true =>
        exact Or.inl (RefreshTokenStep_winner L s req r.first r.world hno hfirst).1
      | false =>
        simp only [AuthService.raceStep, Bool.false_eq_true, if_false]
        have h := RefreshTokenStep_loser L s req r.second r.world hno hsecond
        rcases hfirst with hf | ⟨hf, hfresh⟩
        · exact Or.inl hf
        · refine Or.inr ⟨hf, ?_⟩
          simp only [World.nextUUID, h.2.2.1, h.2.2.2]
          exact hfresh
    · cases turn with
      | true => exact hsecond
      | false =>
        exact Or.inr (RefreshTokenStep_loser L s req r.second r.world hno hsecond).1

theorem race_first_done (L : Libs) (s : AuthService) (req : RefreshTokenRequest)
    (schedule : List Bool) (r : RefreshRace) (res : Except String LoginResponse)
    (h : r.first = .done res) : (s.race L req schedule r).first = .done res := by
  induction schedule generalizing r with
  | nil => exact h
  | cons turn rest ih =>
    simp only [AuthService.race, List.foldl_cons]
    apply ih
    cases turn with
    | true => simp [AuthService.raceStep, h, AuthService.RefreshTokenStep]
    | false => simpa [AuthService.raceStep] using h

theorem race_swap (L : Libs) (s : AuthService) (req : RefreshTokenRequest)
    (schedule : List Bool) (r : RefreshRace) :
    s.race L req (schedule.map (fun turn => !turn)) r.swap = (s.race L req schedule r).swap := by
  induction schedule generalizing r with
  | nil => rfl
  | cons turn rest ih =>
    simp only [AuthService.race, List.map_cons, List.foldl_cons] at ih ⊢
    rw [← ih]
    congr 1
    cases turn <;> rfl

theorem race_three (L : Libs) (s : AuthService) (req : RefreshTokenRequest) (w : World) :
    (s.race L req [true, true, true] ⟨.start, .start, w⟩).second = .start
      ∧ ((∃ e, (s.race L req [true, true, true] ⟨.start, .start, w⟩).first = .done (.error e))
        ∨ ((∃ user, (s.race L req [true, true, true] ⟨.start, .start, w⟩).first = .deleted user)
          ∧ (∀ x ∈ (s.race L req [true, true, true] ⟨.start, .start, w⟩).world.refreshTokens,
              x.Token ≠ req.RefreshToken)
          ∧ (s.race L req [true, true, true] ⟨.start, .start, w⟩).world.draws = w.draws
          ∧ (s.race L req [true, true, true] ⟨.start, .start, w⟩).world.rand = w.rand)) := by
  refine ⟨rfl, ?_⟩
  simp only [AuthService.race, List.foldl, AuthService.raceStep, if_true]
  simp only [AuthService.RefreshTokenStep, RefreshTokenRepositoryImpl.Get, timeNow, dbExec]
  cases w.faults w.calls.length with
  | some e => exact Or.inl ⟨_, rfl⟩
  | none =>
    simp only []
    cases gormFirst RefreshToken.ID (fun r => r.Token == req.RefreshToken
        && decide (r.ExpiresAt > (w.clock w.ticks).Unix)) w.refreshTokens with
    | none => exact Or.inl ⟨_, rfl⟩
    | some row =>
      simp only [AuthService.RefreshTokenStep, UserRepositoryImpl.GetByID, dbExec,
        List.length_append, List.length_singleton]
      cases w.faults (w.calls.length + 1) with
      | some e => exact Or.inl ⟨_, rfl⟩
      | none =>
        simp only []
        cases gormFirst User.ID (fun u => u.ID == row.UserID) w.users with
        | none => exact Or.inl ⟨_, rfl⟩
        | some user =>
          simp only [AuthService.RefreshTokenStep, RefreshTokenRepositoryImpl.Delete, dbExec,
            List.length_append, List.length_singleton]
          cases w.faults (w.calls.length + 1 + 1) with
          | some e => exact Or.inl ⟨_, rfl⟩
          | none =>
            refine Or.inr ⟨⟨user, rfl⟩, ?_, rfl, rfl⟩
            intro x hx
            simp only [List.mem_filter] at hx
            simpa using hx.2

theorem race_first_wins (L : Libs) (s : AuthService) (req : RefreshTokenRequest) (w : World)
    (rest : List Bool) (hfresh : (w.nextUUID 0).String ≠ req.RefreshToken) :
    ((s.race L req ([true, true, true] ++ rest) ⟨.start, .start, w⟩).first.succeeded
      && (s.race L req ([true, true, true] ++ rest) ⟨.start, .start, w⟩).second.succeeded)
      = false := by
  have happ : s.race L req ([true, true, true] ++ rest) ⟨.start, .start, w⟩
      = s.race L req rest (s.race L req [true, true, true] ⟨.start, .start, w⟩) := by
    simp only [AuthService.race, List.foldl_append]
  rw [happ]
  obtain ⟨h2, h1⟩ := race_three L s req w
  rcases h1 with ⟨e, he⟩ | ⟨hdel, hno, hd, hr⟩
  · rw [race_first_done L s req rest _ _ he]
    rfl
  · have hlost := race_second_lost L s req rest _ hno
      (Or.inr ⟨hdel, by simpa only [World.nextUUID, hd, hr] using hfresh⟩) (Or.inl h2)
    rcases hlost with h | h <;> rw [h] <;> simp [RefreshPhase.succeeded]

/-- C24, as amended. Two calls of `RefreshToken` present the same token on one store and
interleave between repository steps. Under every schedule in which one of the calls (the
`leader`) takes its first three steps, `Get`, `GetByID` and `Delete`, before the other
takes its first, at most one of the two calls succeeds, provided the replacement token
that is generated differs from the presented one: the other call's `Get` finds no row. -/
theorem RefreshToken_race_at_most_one (L : Libs) (s : AuthService) (req : RefreshTokenRequest)
    (w : World) (leader : Bool) (rest : List Bool)
    (hfresh : (w.nextUUID 0).String ≠ req.RefreshToken) :
    ((s.race L req ([leader, leader, leader] ++ rest) ⟨.start, .start, w⟩).first.succeeded
      && (s.race L req ([leader, leader, leader] ++ rest) ⟨.start, .start, w⟩).second.succeeded)
      = false := by
  cases leader with
  | true => exact race_first_wins L s req w rest hfresh
  | false =>
    have h := race_first_wins L s req w (rest.map (fun turn => !turn)) hfresh
    have hs := race_swap L s req ([true, true, true] ++ rest.map (fun turn => !turn))
      ⟨.start, .start, w⟩
    have hmap : ([true, true, true] ++ rest.map (fun turn => !turn)).map (fun turn => !turn)
        = [false, false, false] ++ rest := by
      simp [List.map_map, Function.comp_def]
    rw [hmap] at hs
    have hswap : (⟨.start, .start, w⟩ : RefreshRace).swap = ⟨.start, .start, w⟩ := rfl
    rw [hswap] at hs
    rw [hs]
    simp only [RefreshRace.swap]
    rw [Bool.and_comm]
    exact h

/-- C24, on `demoStore`: the first call deletes `"rt-1"` before the second call looks it
up, and the second call does not succeed. -/
theorem RefreshToken_race_at_most_one_witness :
    (demoStore.nextUUID 0).String ≠ "rt-1"
      ∧ ((demoService.race (demoLibs (demoClaims 1)) ⟨"rt-1"⟩
            ([true, true, true] ++ [false, true, false, false, false])
            ⟨.start, .start, demoStore⟩).first.succeeded
          && (demoService.race (demoLibs (demoClaims 1)) ⟨"rt-1"⟩
            ([true, true, true] ++ [false, true, false, false, false])
            ⟨.start, .start, demoStore⟩).second.succeeded) = false :=
  ⟨by decide,
   RefreshToken_race_at_most_one (demoLibs (demoClaims 1)) demoService ⟨"rt-1"⟩ demoStore
     true [false, true, false, false, false] (by decide)⟩

/-- C24 as stated fails. On `demoStore` the two calls present `"rt-1"` and take turns: both
run `Get` before either runs `Delete`, the second `Delete` removes no row and reports no
error, and both calls return a response. -/
theorem RefreshToken_race_at_most_one_counterexample :
    (demoService.race (demoLibs (demoClaims 1)) ⟨"rt-1"⟩
        [true, false, true, false, true, false, true, false]
        ⟨.start, .start, demoStore⟩).first.succeeded = true
      ∧ (demoService.race (demoLibs (demoClaims 1)) ⟨"rt-1"⟩
        [true, false, true, false, true, false, true, false]
        ⟨.start, .start, demoStore⟩).second.succeeded = true := by
  decide

/-! ## C25: a refresh whose user cannot be loaded keeps the token -/

/-- C25. When `Get` resolves the presented refresh token to `userID` and `GetByID` then
fails (no such user, or a storage fault), `RefreshToken` fails with `"user not found"`;
the two lookups are the only repository calls made, so the presented token is not
deleted: the refresh-token table and the users are as before, and on every store with
that table a fault-free `Get` of the token within the same second resolves to `userID`
again. -/
theorem RefreshToken_user_not_loaded (L : Libs) (s : AuthService) (req : RefreshTokenRequest)
    (w : World) (userID : UUID) (e : String)
    (hget : (RefreshTokenRepositoryImpl.Get req.RefreshToken w).1 = .ok userID)
    (hload : (UserRepositoryImpl.GetByID userID
      (RefreshTokenRepositoryImpl.Get req.RefreshToken w).2).1 = .error e) :
    (s.RefreshToken L req w).1 = .error "user not found"
      ∧ (s.RefreshToken L req w).2.refreshTokens = w.refreshTokens
      ∧ (s.RefreshToken L req w).2.users = w.users
      ∧ (s.RefreshToken L req w).2.calls
          = w.calls ++ [RepoCall.TokenGet req.RefreshToken, RepoCall.UserGetByID userID]
      ∧ ∀ w2 : World, w2.refreshTokens = (s.RefreshToken L req w).2.refreshTokens →
          (w2.nextNow 0).Unix = (w.nextNow 0).Unix → w2.faults w2.calls.length = none →
          (RefreshTokenRepositoryImpl.Get req.RefreshToken w2).1 = .ok userID := by
  simp only [World.nextNow, Nat.add_zero]
  simp only [RefreshTokenRepositoryImpl.Get, timeNow, dbExec] at hget hload
  cases hf : w.faults w.calls.length with
  | some e0 => simp [hf] at hget
  | none =>
    cases hg : gormFirst RefreshToken.ID
        (fun r => r.Token == req.RefreshToken && decide (r.ExpiresAt > (w.clock w.ticks).Unix))
        w.refreshTokens with
    | none => simp [hf, hg] at hget
    | some row =>
      simp [hf, hg] at hget hload
      subst hget
      simp only [UserRepositoryImpl.GetByID, dbExec, List.length_append,
        List.length_singleton] at hload
      have hw2 : ∀ w2 : World, w2.refreshTokens = w.refreshTokens →
          (w2.clock w2.ticks).Unix = (w.clock w.ticks).Unix →
          w2.faults w2.calls.length = none →
          (RefreshTokenRepositoryImpl.Get req.RefreshToken w2).1 = .ok row.UserID := by
        intro w2 h1 h2 h3
        simp [RefreshTokenRepositoryImpl.Get, timeNow, dbExec, h1, h2, h3, hg]
      cases hf1 : w.faults (w.calls.length + 1) with
      | some e1 =>
        simp [AuthService.RefreshToken, RefreshTokenRepositoryImpl.Get, timeNow, dbExec, hf, hg,
          UserRepositoryImpl.GetByID, hf1]
        exact hw2
      | none =>
        cases hu : gormFirst User.ID (fun u => u.ID == row.UserID) w.users with
        | some user => simp [hf1, hu] at hload
        | none =>
          simp [AuthService.RefreshToken, RefreshTokenRepositoryImpl.Get, timeNow, dbExec, hf,
            hg, UserRepositoryImpl.GetByID, hf1, hu]
          exact hw2

/-- C25, on `orphanStore`: the owner of `"rt-1"` is missing, the refresh fails with
`"user not found"`, the row stays and still resolves. -/
theorem RefreshToken_user_not_loaded_witness :
    (RefreshTokenRepositoryImpl.Get "rt-1" orphanStore).1 = .ok ⟨1001⟩
      ∧ (demoService.RefreshToken (demoLibs (demoClaims 1)) ⟨"rt-1"⟩ orphanStore).1
          = .error "user not found"
      ∧ (demoService.RefreshToken (demoLibs (demoClaims 1)) ⟨"rt-1"⟩ orphanStore).2.refreshTokens
          = [demoRow]
      ∧ (RefreshTokenRepositoryImpl.Get "rt-1"
          (demoService.RefreshToken (demoLibs (demoClaims 1)) ⟨"rt-1"⟩ orphanStore).2).1
          = .ok ⟨1001⟩ :=
  have h := RefreshToken_user_not_loaded (demoLibs (demoClaims 1)) demoService ⟨"rt-1"⟩
    orphanStore ⟨1001⟩ ErrRecordNotFound (by decide) (by decide)
  ⟨by decide, h.1, h.2.1, h.2.2.2.2 _ rfl (by decide) (by decide)⟩

/-! ## C26: `mapJobToResponse` on a job skill without its skill -/

theorem mapJobSkills_loaded (l : List JobSkill) (h : ∀ js ∈ l, js.Skill ≠ none) :
    ∃ out, JobController.mapJobSkills l = .ok out
      ∧ out.map (fun r => (r.RequiredLevel, r.IsRequired))
          = l.map (fun js => (js.RequiredLevel, js.IsRequired)) := by
  induction l with
  | nil => exact ⟨[], rfl, rfl⟩
  | cons js rest ih =>
    obtain ⟨tail, ht, hm⟩ := ih (fun x hx => h x (List.mem_cons_of_mem _ hx))
    have hjs := h js (List.mem_cons_self _ _)
    cases hsk : js.Skill with
    | none => exact absurd hsk hjs
    | some skill =>
      refine ⟨{ Skill := { ID := skill.ID, Name := skill.Name, Category := skill.Category }
                RequiredLevel := js.RequiredLevel
                IsRequired := js.IsRequired } :: tail,
        by simp [JobController.mapJobSkills, JobController.mapJobSkill, hsk, ht], ?_⟩
      simp [hm]

theorem mapJobSkills_nil_skill (l : List JobSkill) (h : ∃ js ∈ l, js.Skill = none) :
    JobController.mapJobSkills l = .error ErrNilDereference := by
  induction l with
  | nil => simp at h
  | cons js rest ih =>
    cases hsk : js.Skill with
    | none => simp [JobController.mapJobSkills, JobController.mapJobSkill, hsk]
    | some skill =>
      have hr : ∃ x ∈ rest, x.Skill = none := by
        obtain ⟨x, hx, hxs⟩ := h
        rcases List.mem_cons.mp hx with hx | hx
        · rw [hx, hsk] at hxs
          cases hxs
        · exact ⟨x, hx, hxs⟩
      simp [JobController.mapJobSkills, JobController.mapJobSkill, hsk, ih hr]

theorem mapJobToResponse_panics (job : Job) (h : ∃ js ∈ job.Skills, js.Skill = none) :
    JobController.mapJobToResponse job = .error ErrNilDereference := by
  have hpos : 0 < job.Skills.length := by
    obtain ⟨js, hjs, _⟩ := h
    exact List.length_pos_of_mem hjs
  simp [JobController.mapJobToResponse, hpos, mapJobSkills_nil_skill job.Skills h]

/-- C26, at the failing input. On `jobWithNilSkill`, a job with one job skill whose
`Skill` is nil, `mapJobToResponse` does not return a response: evaluating
`jobSkill.Skill.ID` panics with a nil pointer dereference. On `jobWithSkill`, the same job
with the skill loaded, it returns a response whose one entry carries the level and the
flag of the job skill. -/
theorem mapJobToResponse_nil_skill :
    JobController.mapJobToResponse jobWithNilSkill = .error ErrNilDereference
      ∧ (∃ resp, JobController.mapJobToResponse jobWithSkill = .ok resp
          ∧ resp.Skills = [{ Skill := { ID := ⟨7⟩, Name := "Go", Category := "language" }
                             RequiredLevel := "expert", IsRequired := true }]) := by
  exact ⟨by decide, _, rfl, by decide⟩

/-! ## C27: only the creator modifies a job -/

theorem JobGetByID_stored (job : Job) (w : JobWorld) (hmem : job ∈ w.jobs)
    (hkey : ∀ j ∈ w.jobs, j.ID = job.ID → j = job) :
    gormFirst Job.ID (fun j => j.ID == job.ID) w.jobs = some job := by
  obtain ⟨row, hrow⟩ := gormFirst_isSome Job.ID (fun j => j.ID == job.ID) w.jobs job hmem
    (by simp)
  have hp := gormFirst_some _ _ _ _ hrow
  have hid : row.ID = job.ID := by simpa using hp.2
  rw [hrow, hkey row hp.1 hid]

/-- C27. Let `job` be stored (it is the row of `jobs` with its id) and let `userID` differ
from `job.CreatedBy`. Then `UpdateJob`, `UpdateJobStatus` and `DeleteJob` on the id of the
job each return an error and make one repository call, the lookup `GetByID`: the tables
`jobs`, `job_skills` and `skills` are as before and no write is sent. When no storage
fault hits the lookup, the error is `"you can only update jobs you created"` for the two
updates and `"you can only delete jobs you created"` for the deletion. -/
theorem only_creator_modifies (job : Job) (userID : UUID) (req : UpdateJobRequest)
    (status : String) (w : JobWorld) (hmem : job ∈ w.jobs)
    (hkey : ∀ j ∈ w.jobs, j.ID = job.ID → j = job) (hne : job.CreatedBy ≠ userID) :
    (∃ err, JobService.UpdateJob job.ID req userID w
        = (.error err, { w with calls := w.calls ++ [.JobGetByID job.ID] })
      ∧ (w.faults w.calls.length = none → err = "you can only update jobs you created"))
    ∧ (∃ err, JobService.UpdateJobStatus job.ID status userID w
        = (.error err, { w with calls := w.calls ++ [.JobGetByID job.ID] })
      ∧ (w.faults w.calls.length = none → err = "you can only update jobs you created"))
    ∧ (∃ err, JobService.DeleteJob job.ID userID w
        = (.error err, { w with calls := w.calls ++ [.JobGetByID job.ID] })
      ∧ (w.faults w.calls.length = none → err = "you can only delete jobs you created")) := by
  have hg := JobGetByID_stored job w hmem hkey
  cases hf : w.faults w.calls.length with
  | some e =>
    exact ⟨⟨e, by simp [JobService.UpdateJob, JobRepositoryImpl.GetByID, JobWorld.dbExec, hf]⟩,
      ⟨e, by simp [JobService.UpdateJobStatus, JobRepositoryImpl.GetByID, JobWorld.dbExec, hf]⟩,
      ⟨e, by simp [JobService.DeleteJob, JobRepositoryImpl.GetByID, JobWorld.dbExec, hf]⟩⟩
  | none =>
    exact ⟨⟨"you can only update jobs you created", by
        simp [JobService.UpdateJob, JobRepositoryImpl.GetByID, JobWorld.dbExec, hf, hg, hne],
        fun _ => rfl⟩,
      ⟨"you can only update jobs you created", by
        simp [JobService.UpdateJobStatus, JobRepositoryImpl.GetByID, JobWorld.dbExec, hf, hg,
          hne],
        fun _ => rfl⟩,
      ⟨"you can only delete jobs you created", by
        simp [JobService.DeleteJob, JobRepositoryImpl.GetByID, JobWorld.dbExec, hf, hg, hne],
        fun _ => rfl⟩⟩

/-- C27, on `jobStore`: user 1002 did not create `demoJob`, and the three operations are
refused without a write. -/
theorem only_creator_modifies_witness :
    (∃ err, JobService.UpdateJob ⟨500⟩ { emptyUpdate with Title := "Taken over" } ⟨1002⟩ jobStore
        = (.error err, { jobStore with calls := [.JobGetByID ⟨500⟩] })
      ∧ (jobStore.faults jobStore.calls.length = none
          → err = "you can only update jobs you created"))
    ∧ (∃ err, JobService.UpdateJobStatus ⟨500⟩ "closed" ⟨1002⟩ jobStore
        = (.error err, { jobStore with calls := [.JobGetByID ⟨500⟩] })
      ∧ (jobStore.faults jobStore.calls.length = none
          → err = "you can only update jobs you created"))
    ∧ (∃ err, JobService.DeleteJob ⟨500⟩ ⟨1002⟩ jobStore
        = (.error err, { jobStore with calls := [.JobGetByID ⟨500⟩] })
      ∧ (jobStore.faults jobStore.calls.length = none
          → err = "you can only delete jobs you created")) :=
  only_creator_modifies demoJob ⟨1002⟩ { emptyUpdate with Title := "Taken over" } "closed"
    jobStore (by decide) (by decide) (by decide)

/-! ## What `CreateJob` and `UpdateJob` write to the table `jobs` -/

theorem lookupSkills_jobs (req : CreateJobRequest) (w : JobWorld) :
    (JobService.lookupSkills req w).2.jobs = w.jobs := by
  unfold JobService.lookupSkills SkillRepositoryImpl.GetByIDs JobWorld.dbExec
  split_ifs
  · cases w.faults w.calls.length with
    | some e => rfl
    | none =>
      simp only []
      split_ifs <;> rfl
  · rfl

theorem newJobSkills_jobs (jobID : UUID) (l : List CreateJobSkillRequest) (w : JobWorld) :
    (JobService.newJobSkills jobID l w).2.jobs = w.jobs := by
  induction l generalizing w with
  | nil => rfl
  | cons skillReq rest ih =>
    simp only [JobService.newJobSkills, JobWorld.uuidNew, JobWorld.timeNow]
    rw [ih]

theorem CreateBatch_jobs (jobSkills : List JobSkill) (w : JobWorld) :
    (JobSkillRepositoryImpl.CreateBatch jobSkills w).2.jobs = w.jobs := by
  unfold JobSkillRepositoryImpl.CreateBatch JobWorld.dbExec
  split_ifs
  · rfl
  · cases w.faults w.calls.length with
    | some e => rfl
    | none =>
      simp only []
      split_ifs <;> rfl

theorem storeJobSkills_jobs (req : CreateJobRequest) (jobID : UUID) (w : JobWorld) :
    (JobService.storeJobSkills req jobID w).2.jobs = w.jobs := by
  unfold JobService.storeJobSkills
  split_ifs
  · have h1 := newJobSkills_jobs jobID req.Skills w
    have h2 := CreateBatch_jobs (JobService.newJobSkills jobID req.Skills w).1
      (JobService.newJobSkills jobID req.Skills w).2
    rcases hb : JobSkillRepositoryImpl.CreateBatch (JobService.newJobSkills jobID req.Skills w).1
      (JobService.newJobSkills jobID req.Skills w).2 with ⟨_ | _, w2⟩ <;>
    · rw [hb] at h2
      simp only [hb]
      exact h2.trans h1
  · rfl

theorem GetJobByID_jobs (id : UUID) (w : JobWorld) :
    (JobService.GetJobByID id w).2.jobs = w.jobs := by
  simp only [JobService.GetJobByID, JobRepositoryImpl.GetByID, JobWorld.dbExec,
    JobSkillRepositoryImpl.GetByJobID]
  cases w.faults w.calls.length with
  | some e => rfl
  | none =>
    simp only []
    cases gormFirst Job.ID (fun j => j.ID == id) w.jobs with
    | none => rfl
    | some job =>
      simp only [List.length_append, List.length_singleton]
      cases w.faults (w.calls.length + 1) <;> rfl

theorem JobCreate_jobs (job : Job) (w : JobWorld) :
    (JobRepositoryImpl.Create job w).2.jobs = w.jobs
      ∨ (JobRepositoryImpl.Create job w).2.jobs = w.jobs ++
          [{ job with Skills := [], Status := if job.Status == "" then "open" else job.Status }] := by
  simp only [JobRepositoryImpl.Create, JobWorld.dbExec]
  cases w.faults w.calls.length with
  | some e => exact Or.inl rfl
  | none =>
    simp only []
    by_cases hdup : (w.jobs.any fun j => j.ID == job.ID) = true
    · rw [if_pos hdup]
      exact Or.inl rfl
    · rw [if_neg hdup]
      exact Or.inr rfl

theorem CreateJob_jobs (req : CreateJobRequest) (createdBy : UUID) (w : JobWorld) :
    (JobService.CreateJob req createdBy w).2.jobs = w.jobs
      ∨ (IsEmptyOrWhitespace req.Title = false ∧ IsEmptyOrWhitespace req.Description = false
        ∧ salaryMinAboveMax req.SalaryMin req.SalaryMax = false
        ∧ ∃ id createdAt updatedAt, (JobService.CreateJob req createdBy w).2.jobs
            = w.jobs ++ [JobService.newJob req createdBy id createdAt updatedAt]) := by
  unfold JobService.CreateJob
  split_ifs with h1 h2 h3
  · exact Or.inl rfl
  · exact Or.inl rfl
  · exact Or.inl rfl
  · have hl := lookupSkills_jobs req w
    rcases hlk : JobService.lookupSkills req w with ⟨_ | e, w1⟩
    · rw [hlk] at hl
      simp only [JobWorld.uuidNew, JobWorld.timeNow]
      have hc := JobCreate_jobs (JobService.newJob req createdBy ⟨w1.rand w1.draws⟩
        (w1.clock w1.ticks) (w1.clock (w1.ticks + 1)))
        { w1 with draws := w1.draws + 1, ticks := w1.ticks + 1 + 1 }
      have hrow : ({ JobService.newJob req createdBy ⟨w1.rand w1.draws⟩
          (w1.clock w1.ticks) (w1.clock (w1.ticks + 1)) with
            Skills := []
            Status := if (JobService.newJob req createdBy ⟨w1.rand w1.draws⟩
              (w1.clock w1.ticks) (w1.clock (w1.ticks + 1))).Status == "" then "open"
              else (JobService.newJob req createdBy ⟨w1.rand w1.draws⟩
              (w1.clock w1.ticks) (w1.clock (w1.ticks + 1))).Status } : Job)
          = JobService.newJob req createdBy ⟨w1.rand w1.draws⟩
              (w1.clock w1.ticks) (w1.clock (w1.ticks + 1)) := rfl
      rw [hrow] at hc
      have hw : ({ w1 with draws := w1.draws + 1, ticks := w1.ticks + 1 + 1 } : JobWorld).jobs
          = w.jobs := hl
      split
      · rename_i err w5 hcr
        rw [hcr] at hc
        rw [hw] at hc
        rcases hc with hc | hc
        · exact Or.inl hc
        · exact Or.inr ⟨by simpa using h1, by simpa using h2, by simpa using h3, _, _, _, hc⟩
      · rename_i w5 hcr
        rw [hcr] at hc
        rw [hw] at hc
        have hs := storeJobSkills_jobs req (JobService.newJob req createdBy
            ⟨w1.rand w1.draws⟩ (w1.clock w1.ticks) (w1.clock (w1.ticks + 1))).ID w5
        have hfin : ∀ r : Option String × JobWorld, r.2.jobs = w5.jobs →
            (match r with
              | (some err, w6) => ((.error err : Except String Job), w6)
              | (none, w6) => JobService.GetJobByID (JobService.newJob req createdBy
                  ⟨w1.rand w1.draws⟩ (w1.clock w1.ticks) (w1.clock (w1.ticks + 1))).ID w6).2.jobs
              = w5.jobs := by
          rintro ⟨_ | e, w6⟩ h
          · simp only []
            rw [GetJobByID_jobs]
            exact h
          · exact h
        have hres := hfin _ hs
        rcases hc with hc | hc
        · exact Or.inl (hres.trans hc)
        · exact Or.inr ⟨by simpa using h1, by simpa using h2, by simpa using h3, _, _, _,
            hres.trans hc⟩
    · rw [hlk] at hl
      exact Or.inl hl

theorem UpdateJob_jobs (id : UUID) (req : UpdateJobRequest) (userID : UUID) (w : JobWorld) :
    (JobService.UpdateJob id req userID w).2.jobs = w.jobs
      ∨ ∃ stored now, stored ∈ w.jobs ∧ stored.ID = id ∧ stored.CreatedBy = userID
          ∧ salaryMinAboveMax (JobService.mergeJob stored req).SalaryMin
              (JobService.mergeJob stored req).SalaryMax = false
          ∧ ∀ j ∈ (JobService.UpdateJob id req userID w).2.jobs, j ∈ w.jobs
              ∨ j = { JobService.mergeJob stored req with UpdatedAt := now, Skills := [] } := by
  simp only [JobService.UpdateJob, JobRepositoryImpl.GetByID, JobWorld.dbExec]
  cases w.faults w.calls.length with
  | some e => exact Or.inl rfl
  | none =>
    simp only []
    cases hg : gormFirst Job.ID (fun j => j.ID == id) w.jobs with
    | none => exact Or.inl rfl
    | some stored =>
      have hp := gormFirst_some _ _ _ _ hg
      simp only []
      split_ifs with hc hsal
      · exact Or.inl rfl
      · exact Or.inl rfl
      · simp only [JobWorld.timeNow, JobRepositoryImpl.Update, JobWorld.dbExec,
          List.length_append, List.length_singleton]
        cases w.faults (w.calls.length + 1) with
        | some e => exact Or.inl rfl
        | none =>
          refine Or.inr ⟨stored, w.clock (w.ticks + 1), hp.1, by simpa using hp.2,
            by simpa using hc, by simpa using hsal, ?_⟩
          simp only []
          split_ifs
          · rw [GetJobByID_jobs]
            intro j hj
            simp only [List.mem_map] at hj
            obtain ⟨j0, hj0, hje⟩ := hj
            split_ifs at hje
            · exact Or.inr hje.symm
            · exact Or.inl (hje ▸ hj0)
          · rw [GetJobByID_jobs]
            intro j hj
            simp only [List.mem_append, List.mem_singleton] at hj
            rcases hj with hj | hj
            · exact Or.inl hj
            · exact Or.inr hj

/-! ## C28: the salary range -/

theorem Float64_le_of_not_gt (a b : Float64) (ha : a.isNaN = false) (hb : b.isNaN = false)
    (h : Float64.gt a b = false) : Float64.le a b = true := by
  cases a <;> cases b <;> simp_all [Float64.gt, Float64.le, Float64.lt, Float64.isNaN]

theorem SalaryInRange_of_check (j : Job) (h : salaryMinAboveMax j.SalaryMin j.SalaryMax = false) :
    j.SalaryInRange := by
  intro a b ha hb hna hnb
  rw [ha, hb] at h
  exact Float64_le_of_not_gt a b hna hnb h

/-- C28. Every row of `jobs` after `CreateJob` or `UpdateJob` is a row that was there
before the call or has its salary range in order: when `SalaryMin` and `SalaryMax` are
both set (to numbers: a JSON body carries no NaN), `SalaryMin <= SalaryMax`. `UpdateJob`
checks the merged bounds: on a stored job, called by its creator with no storage fault at
the lookup, a request that sets only a minimum above the stored maximum, or only a maximum
below the stored minimum, fails with
`"minimum salary cannot be greater than maximum salary"`, and the lookup is the only
repository call, so nothing is written. -/
theorem salary_range_invariant (w : JobWorld) :
    (∀ req createdBy, ∀ j ∈ (JobService.CreateJob req createdBy w).2.jobs,
        j ∈ w.jobs ∨ j.SalaryInRange)
      ∧ (∀ id req userID, ∀ j ∈ (JobService.UpdateJob id req userID w).2.jobs,
        j ∈ w.jobs ∨ j.SalaryInRange)
      ∧ (∀ (job : Job) (req : UpdateJobRequest) (lo hi : Float64), job ∈ w.jobs →
        (∀ j ∈ w.jobs, j.ID = job.ID → j = job) → w.faults w.calls.length = none →
        Float64.gt lo hi = true →
        (req.SalaryMin = some lo ∧ req.SalaryMax = none ∧ job.SalaryMax = some hi)
          ∨ (req.SalaryMin = none ∧ req.SalaryMax = some hi ∧ job.SalaryMin = some lo) →
        JobService.UpdateJob job.ID req job.CreatedBy w
          = (.error "minimum salary cannot be greater than maximum salary",
              { w with calls := w.calls ++ [.JobGetByID job.ID] })) := by
  refine ⟨?_, ?_, ?_⟩
  · intro req createdBy j hj
    rcases CreateJob_jobs req createdBy w with h | ⟨_, _, h3, id, t1, t2, h⟩
    · exact Or.inl (h ▸ hj)
    · rw [h] at hj
      simp only [List.mem_append, List.mem_singleton] at hj
      rcases hj with hj | hj
      · exact Or.inl hj
      · subst hj
        exact Or.inr (SalaryInRange_of_check _ h3)
  · intro id req userID j hj
    rcases UpdateJob_jobs id req userID w with h | ⟨stored, now, _, _, _, hsal, h⟩
    · exact Or.inl (h ▸ hj)
    · rcases h j hj with hj | hj
      · exact Or.inl hj
      · subst hj
        exact Or.inr (SalaryInRange_of_check _ hsal)
  · intro job req lo hi hmem hkey hf hgt hreq
    have hg := JobGetByID_stored job w hmem hkey
    have hsal : salaryMinAboveMax (JobService.mergeJob job req).SalaryMin
        (JobService.mergeJob job req).SalaryMax = true := by
      rcases hreq with ⟨h1, h2, h3⟩ | ⟨h1, h2, h3⟩ <;>
        simp [JobService.mergeJob, h1, h2, h3, salaryMinAboveMax, hgt]
    simp [JobService.UpdateJob, JobRepositoryImpl.GetByID, JobWorld.dbExec, hf, hg, hsal]

/-- C28, on `jobStore`: the creator of `demoJob`, whose maximum is 5000, asks for a minimum
of 6000 alone and is refused; the store is as before. -/
theorem salary_range_invariant_witness :
    demoJob ∈ jobStore.jobs ∧ Float64.gt (.finite 6000) (.finite 5000) = true
      ∧ JobService.UpdateJob ⟨500⟩ { emptyUpdate with SalaryMin := some (.finite 6000) } ⟨1001⟩
          jobStore
        = (.error "minimum salary cannot be greater than maximum salary",
            { jobStore with calls := [.JobGetByID ⟨500⟩] }) :=
  ⟨by decide, by decide,
   (salary_range_invariant jobStore).2.2 demoJob
     { emptyUpdate with SalaryMin := some (.finite 6000) } (.finite 6000) (.finite 5000)
     (by decide) (by decide) rfl (by decide) (Or.inl ⟨rfl, rfl, rfl⟩)⟩

/-! ## C29: a blank title through `UpdateJob` -/

theorem dropWhile_rdrop_self (p : Char → Bool) (l : List Char) :
    ((l.dropWhile p).reverse.dropWhile p).reverse.dropWhile p
      = ((l.dropWhile p).reverse.dropWhile p).reverse := by
  rw [List.dropWhile_eq_self_iff]
  intro hlen
  have hpre : ((l.dropWhile p).reverse.dropWhile p).reverse <+: l.dropWhile p :=
    List.rdropWhile_prefix p (l.dropWhile p)
  obtain ⟨t, ht⟩ := hpre
  generalize hm : ((l.dropWhile p).reverse.dropWhile p).reverse = m at ht hlen
  cases m with
  | nil => simp at hlen
  | cons c cs =>
    simp only [List.get_eq_getElem, List.getElem_cons_zero]
    have hh : (l.dropWhile p).head? = some c := by rw [← ht]; rfl
    have := List.head?_dropWhile_not p l
    rw [hh] at this
    simpa using this

theorem TrimSpace_idem (s : String) : TrimSpace (TrimSpace s) = TrimSpace s := by
  have h1 := dropWhile_rdrop_self isSpace s.toList
  have h2 : ((s.toList.dropWhile isSpace).reverse.dropWhile isSpace).dropWhile isSpace
      = (s.toList.dropWhile isSpace).reverse.dropWhile isSpace := List.dropWhile_idempotent _ _
  show String.mk (((String.mk ((s.toList.dropWhile isSpace).reverse.dropWhile
    isSpace).reverse).toList.dropWhile isSpace).reverse.dropWhile isSpace).reverse = _
  simp only [String.toList] at h1 h2 ⊢
  rw [h1, List.reverse_reverse, h2]
  rfl

theorem IsEmptyOrWhitespace_SanitizeString (s : String) :
    IsEmptyOrWhitespace (SanitizeString s) = IsEmptyOrWhitespace s := by
  simp only [IsEmptyOrWhitespace, SanitizeString, TrimSpace_idem]

theorem CreateJob_required_fields (req : CreateJobRequest) (createdBy : UUID) (w : JobWorld) :
    ∀ j ∈ (JobService.CreateJob req createdBy w).2.jobs, j ∈ w.jobs
      ∨ (IsEmptyOrWhitespace j.Title = false ∧ IsEmptyOrWhitespace j.Description = false) := by
  intro j hj
  rcases CreateJob_jobs req createdBy w with h | ⟨h1, h2, _, id, t1, t2, h⟩
  · exact Or.inl (h ▸ hj)
  · rw [h] at hj
    simp only [List.mem_append, List.mem_singleton] at hj
    rcases hj with hj | hj
    · exact Or.inl hj
    · subst hj
      exact Or.inr ⟨by simpa [JobService.newJob, IsEmptyOrWhitespace_SanitizeString] using h1,
        by simpa [JobService.newJob, IsEmptyOrWhitespace_SanitizeString] using h2⟩

/-- C29, at the failing input. On `jobStore` the creator of `demoJob` updates it with the
title `" "`: the title is not the empty string, so it replaces the stored one after
trimming, and the job is saved and returned with the empty title. `CreateJob` refuses the
same title with `"title is required"`. -/
theorem UpdateJob_blank_title :
    IsEmptyOrWhitespace " " = true
      ∧ (JobService.UpdateJob ⟨500⟩ { emptyUpdate with Title := " " } ⟨1001⟩ jobStore).2.jobs.map
          Job.Title = [""]
      ∧ ((JobService.UpdateJob ⟨500⟩ { emptyUpdate with Title := " " } ⟨1001⟩ jobStore).1.map
          Job.Title) = .ok ""
      ∧ (JobService.CreateJob { demoCreateJob with Title := " " } ⟨1001⟩ jobEmpty).1
          = .error "title is required" := by
  decide

/-! ## C30: two skills whose names differ in case only -/

/-- C30, at the failing input. From the empty store, `CreateSkill("Go", "")` and then
`CreateSkill(" go", "")` both succeed: `ExistsByName` compares the names in the store with
`" go"`, space included, and the name stored is the trimmed `"go"`. The store then holds
`"Go"` and `"go"`, equal when case is ignored. With `" Go"` the second call is refused by
the unique index on `name`, not with `"skill with this name already exists"`, which is
the answer to `"go"`. The names are ASCII, so this holds whatever the case table outside
ASCII is. -/
theorem CreateSkill_untrimmed_check (table : Char → Char) :
    ((JobService.CreateSkill table " go" ""
        (JobService.CreateSkill table "Go" "" jobEmpty).2).1.map Skill.Name) = .ok "go"
      ∧ (JobService.CreateSkill table " go" ""
          (JobService.CreateSkill table "Go" "" jobEmpty).2).2.skills.map Skill.Name
          = ["Go", "go"]
      ∧ ToLower table "Go" = ToLower table "go"
      ∧ (JobService.CreateSkill table " Go" ""
          (JobService.CreateSkill table "Go" "" jobEmpty).2).1 = .error ErrDuplicatedKey
      ∧ (JobService.CreateSkill table "go" ""
          (JobService.CreateSkill table "Go" "" jobEmpty).2).1
          = .error "skill with this name already exists" :=
  ⟨rfl, rfl, rfl, rfl, rfl⟩

end Recruitment
